import Mathlib

/-! The unifying cursor (`common_iterator`) and the closed view (`common_view`)

A shallow embedding of

* `libcudacxx/include/cuda/std/__iterator/common_iterator.h`
* `libcudacxx/include/cuda/std/__ranges/common_view.h`
* `libcudacxx/include/cuda/std/__ranges/counted.h`
* `libcudacxx/include/cuda/std/__algorithm/ranges_find_if.h`
* `libcudacxx/include/cuda/std/__algorithm/ranges_min.h`
* `cudax/include/cuda/experimental/__execution/is_execution_policy.h`
* `cudax/test/containers/vector/test_resources.h`

Template parameters become type parameters, compile-time concept checks become
boolean fields of a traits record, the operations of the wrapped cursor and
boundary types become fields of an operations record, and a failed
`_CCCL_ASSERT` is the result `none`.
-/

namespace Cccl

/-! ## The two-slot storage -/

/-- Modelled from the spec: the discriminant `__variant_like_state` of
`cuda/std/__iterator/variant_like.h` (that header is not among the sources). The
cursor code names the states `__holds_first` and, through
`valueless_by_exception()`, the unset state. -/
inductive variant_like_state where
  | holds_first
  | holds_second
  | valueless
  deriving DecidableEq, Repr

/-- Modelled from the spec: the storage `__variant_like<_Iter, _Sent>` of
`cuda/std/__iterator/variant_like.h` (not among the sources): exactly one of a
live cursor (`__first_`) or a live boundary (`__second_`) together with the
discriminant `__contains_`, or the unset state the assertions guard against. -/
inductive variant_like (I S : Type) where
  | first (i : I)
  | second (s : S)
  | valueless
  deriving DecidableEq, Repr

namespace variant_like

variable {I S : Type}

/-- Member `__contains_`. -/
def contains : variant_like I S → variant_like_state
  | first _ => variant_like_state.holds_first
  | second _ => variant_like_state.holds_second
  | valueless => variant_like_state.valueless

/-- Member function `__holds_first()`. -/
def holds_first (h : variant_like I S) : Bool :=
  decide (h.contains = variant_like_state.holds_first)

/-- Member function `__holds_second()`. -/
def holds_second (h : variant_like I S) : Bool :=
  decide (h.contains = variant_like_state.holds_second)

/-- Member function `valueless_by_exception()`. -/
def valueless_by_exception (h : variant_like I S) : Bool :=
  decide (h.contains = variant_like_state.valueless)

/-- Read of the member `__first_`; defined only while the cursor slot is live. -/
def first_ : variant_like I S → Option I
  | first i => some i
  | _ => none

/-- Read of the member `__second_`; defined only while the boundary slot is live. -/
def second_ : variant_like I S → Option S
  | second s => some s
  | _ => none

end variant_like

/-! ## Iterator tags -/

/-- Modelled from the spec: the traversal capability tags of
`cuda/std/__iterator/iterator_traits.h` (not among the sources): single-pass
input, multi-pass forward, bidirectional, random-access and contiguous, and the
write-only output tag. -/
inductive iterator_tag where
  | input_iterator_tag
  | output_iterator_tag
  | forward_iterator_tag
  | bidirectional_iterator_tag
  | random_access_iterator_tag
  | contiguous_iterator_tag
  deriving DecidableEq, Repr

namespace iterator_tag

/-- Modelled from the spec: `derived_from<_Tag, forward_iterator_tag>` over the tag
hierarchy, in which each of forward, bidirectional, random-access and contiguous
derives from the one before it and forward derives from input. -/
def derived_from_forward : iterator_tag → Bool
  | input_iterator_tag => false
  | output_iterator_tag => false
  | forward_iterator_tag => true
  | bidirectional_iterator_tag => true
  | random_access_iterator_tag => true
  | contiguous_iterator_tag => true

end iterator_tag

/-! ## `common_iterator` -/

/-- The class `common_iterator<_Iter, _Sent>`: its only data member is `__hold_`. -/
structure common_iterator (I S : Type) where
  hold : variant_like I S
  deriving DecidableEq, Repr

namespace common_iterator

variable {I S I2 S2 V R : Type}

/-- Constructor `common_iterator(_Iter __i)`: `__hold_(__construct_first{}, move(__i))`. -/
def of_iter (i : I) : common_iterator I S := ⟨variant_like.first i⟩

/-- Constructor `common_iterator(_Sent __s)`: `__hold_(__construct_second{}, move(__s))`. -/
def of_sent (s : S) : common_iterator I S := ⟨variant_like.second s⟩

/-- The operations of the wrapped cursor type `_Iter` that dereference and
pre-increment use: `*it` and `++it`. -/
structure IterOps (I V : Type) where
  deref : I → V
  next : I → I

/-- The operations of `_Iter` that post-increment uses: the above and `it++`
(the value `it++` returns together with the cursor as the call leaves it). -/
structure IterPostOps (I V R : Type) extends IterOps I V where
  post : I → R × I

/-- The concept checks on `_Iter` that select among the `if constexpr` branches
and the reported iterator tags. -/
structure IterTraits where
  /-- Concept `forward_iterator<_Iter>`. -/
  forward_iterator : Bool
  /-- The requirement `requires(_Iter& it) { { *it++ } -> __can_reference; }`. -/
  postfix_can_reference : Bool
  /-- Concept `indirectly_readable<_Iter>`. -/
  indirectly_readable : Bool
  /-- Check `constructible_from<iter_value_t<_Iter>, iter_reference_t<_Iter>>`. -/
  value_constructible_from_reference : Bool
  /-- Check `move_constructible<iter_value_t<_Iter>>`. -/
  value_move_constructible : Bool
  /-- The member `iterator_traits<_Iter>::iterator_category`, when it names a type. -/
  iterator_category : Option iterator_tag
  deriving DecidableEq, Repr

/-- Concept `__use_postfix_proxy<_Iter>`. -/
def use_postfix_proxy (t : IterTraits) : Bool :=
  !t.postfix_can_reference && t.indirectly_readable
    && t.value_constructible_from_reference && t.value_move_constructible

/-- The nested struct `__postfix_proxy`: it stores the value read. -/
structure postfix_proxy (V : Type) where
  value_ : V
  deriving DecidableEq, Repr

/-- Member `__postfix_proxy::operator*`: returns the stored `__value_`. -/
def postfix_proxy.deref (p : postfix_proxy V) : V := p.value_

/-- Member `operator*`: asserts that the cursor slot is live, then `*__hold_.__first_`. -/
def operator_deref (ops : IterOps I V) (x : common_iterator I S) : Option V :=
  if x.hold.holds_first then
    x.hold.first_.map ops.deref
  else none

/-- Member `operator++()`: asserts that the cursor slot is live, then
`++__hold_.__first_`; the result is the updated `*this`. -/
def operator_pre_increment (ops : IterOps I V) (x : common_iterator I S) :
    Option (common_iterator I S) :=
  if x.hold.holds_first then
    x.hold.first_.map (fun i => ⟨variant_like.first (ops.next i)⟩)
  else none

/-- The three shapes of the value returned by `operator++(int)`, one for each
`if constexpr` branch. -/
inductive PostIncrementResult (I S V R : Type) where
  /-- Branch `forward_iterator<_Iter>`: the copy `__tmp` of `*this`. -/
  | copy (tmp : common_iterator I S)
  /-- Branch `__use_postfix_proxy<_Iter>`: the proxy `__p`. -/
  | proxy (p : postfix_proxy V)
  /-- Last branch: whatever `__hold_.__first_++` returns. -/
  | forwarded (r : R)
  deriving DecidableEq, Repr

/-- Member `operator++(int)`. The result pairs the returned value with `*this`
as the call leaves it. -/
def operator_post_increment (t : IterTraits) (ops : IterPostOps I V R) (x : common_iterator I S) :
    Option (PostIncrementResult I S V R × common_iterator I S) :=
  if x.hold.holds_first then
    if t.forward_iterator then
      let tmp := x
      (operator_pre_increment ops.toIterOps x).map (fun x1 => (PostIncrementResult.copy tmp, x1))
    else if use_postfix_proxy t then
      (operator_deref ops.toIterOps x).bind (fun v =>
        let p : postfix_proxy V := ⟨v⟩
        (operator_pre_increment ops.toIterOps x).map (fun x1 => (PostIncrementResult.proxy p, x1)))
    else
      x.hold.first_.map (fun i =>
        (PostIncrementResult.forwarded (ops.post i).1, ⟨variant_like.first (ops.post i).2⟩))
  else none

/-- The cross-type comparisons every instantiation of `operator==` may use:
cursor against the other side's boundary, and boundary against the other side's
cursor (`sentinel_for<_S2, _Iter>` and `sentinel_for<_Sent, _I2>`). -/
structure SentinelEq (I S I2 S2 : Type) where
  iter_sent : I → S2 → Bool
  sent_iter : S → I2 → Bool

/-- The comparisons of the overload constrained by
`equality_comparable_with<_Iter, _I2>`: the above and cursor against cursor. -/
structure IterEq (I S I2 S2 : Type) extends SentinelEq I S I2 S2 where
  iter_iter : I → I2 → Bool

/-- The friend `operator==` constrained by `!equality_comparable_with<_Iter, _I2>`
(and its textually identical C++17 same-type twin). -/
def operator_eq_not_comparable (ops : SentinelEq I S I2 S2)
    (x : common_iterator I S) (y : common_iterator I2 S2) : Option Bool :=
  let y_hold := y.hold
  if x.hold.valueless_by_exception then none
  else if y_hold.valueless_by_exception then none
  else
    let x_contains := x.hold.contains
    let y_contains := y_hold.contains
    if x_contains = y_contains then some true
    else if x_contains = variant_like_state.holds_first then
      x.hold.first_.bind (fun a => y_hold.second_.map (fun b => ops.iter_sent a b))
    else
      x.hold.second_.bind (fun a => y_hold.first_.map (fun b => ops.sent_iter a b))

/-- The friend `operator==` constrained by `equality_comparable_with<_Iter, _I2>`
(and its textually identical C++17 same-type twin). -/
def operator_eq (ops : IterEq I S I2 S2)
    (x : common_iterator I S) (y : common_iterator I2 S2) : Option Bool :=
  let y_hold := y.hold
  if x.hold.valueless_by_exception then none
  else if y_hold.valueless_by_exception then none
  else if x.hold.holds_second && y_hold.holds_second then some true
  else if x.hold.holds_first && y_hold.holds_first then
    x.hold.first_.bind (fun a => y_hold.first_.map (fun b => ops.iter_iter a b))
  else if x.hold.holds_first then
    x.hold.first_.bind (fun a => y_hold.second_.map (fun b => ops.iter_sent a b))
  else
    x.hold.second_.bind (fun a => y_hold.first_.map (fun b => ops.sent_iter a b))

/-- The raw differences `operator-` may use (`sized_sentinel_for<_I2, _Iter>`,
`sized_sentinel_for<_S2, _Iter>`, `sized_sentinel_for<_Sent, _I2>`); the
difference type `iter_difference_t<_I2>` is a signed integer. -/
structure SizedOps (I S I2 S2 : Type) where
  iter_iter : I → I2 → Int
  iter_sent : I → S2 → Int
  sent_iter : S → I2 → Int

/-- The friend `operator-`. -/
def operator_minus (ops : SizedOps I S I2 S2)
    (x : common_iterator I S) (y : common_iterator I2 S2) : Option Int :=
  let y_hold := y.hold
  if x.hold.valueless_by_exception then none
  else if y_hold.valueless_by_exception then none
  else if x.hold.holds_second && y_hold.holds_second then some 0
  else if x.hold.holds_first && y_hold.holds_first then
    x.hold.first_.bind (fun a => y_hold.first_.map (fun b => ops.iter_iter a b))
  else if x.hold.holds_first then
    x.hold.first_.bind (fun a => y_hold.second_.map (fun b => ops.iter_sent a b))
  else
    x.hold.second_.bind (fun a => y_hold.first_.map (fun b => ops.sent_iter a b))

/-- Concept `__denotes_forward_iter<_Iter>`: the member
`iterator_traits<_Iter>::iterator_category` exists and derives from
`forward_iterator_tag`. -/
def denotes_forward_iter (t : IterTraits) : Bool :=
  match t.iterator_category with
  | some c => c.derived_from_forward
  | none => false

/-- Member `iterator_traits<common_iterator<_Iter, _Sent>>::iterator_concept`. -/
def iterator_concept (t : IterTraits) : iterator_tag :=
  if t.forward_iterator then iterator_tag.forward_iterator_tag
  else iterator_tag.input_iterator_tag

/-- Member `iterator_traits<common_iterator<_Iter, _Sent>>::iterator_category`. -/
def iterator_category (t : IterTraits) : iterator_tag :=
  if denotes_forward_iter t then iterator_tag.forward_iterator_tag
  else iterator_tag.input_iterator_tag

end common_iterator

/-! ## `common_view` -/

/-- The concept checks on `_View` that `common_view` and the comparison of its
iterators branch on. -/
structure RangeTraits where
  /-- Concept `random_access_range<_View>`. -/
  random_access_range : Bool
  /-- Concept `sized_range<_View>`. -/
  sized_range : Bool
  /-- Concept `equality_comparable<iterator_t<_View>>`. -/
  iterator_equality_comparable : Bool
  deriving DecidableEq, Repr

/-- Modelled from the spec: the underlying sequence `_View` as `common_view` sees
it through `ranges::begin`, `ranges::end` and `ranges::size` (the range access
headers are not among the sources), together with the operations of its cursor
type `iterator_t<_View>` and boundary type `sentinel_t<_View>`. -/
structure View (I S α : Type) where
  traits : RangeTraits
  /-- Result of `ranges::begin`. -/
  begin_ : I
  /-- Result of `ranges::end`. -/
  end_ : S
  /-- Result of `ranges::size`; meaningful for a `sized_range`. -/
  size : Nat
  /-- Cursor dereference `*it`. -/
  deref : I → α
  /-- Cursor increment `++it`. -/
  next : I → I
  /-- Cursor arithmetic `it + n`; meaningful for a `random_access_range`. -/
  advance : I → Nat → I
  /-- Comparison `it == sent`. -/
  eq_iter_sent : I → S → Bool
  /-- Comparison `sent == it`. -/
  eq_sent_iter : S → I → Bool
  /-- Comparison `it == it`; meaningful when the cursor type is equality comparable. -/
  eq_iter_iter : I → I → Bool

/-- The class `common_view<_View>`: its only data member is `__base_`. -/
structure common_view (I S α : Type) where
  base_ : View I S α

/-- What `common_view::begin` and `common_view::end` return (`auto`): the raw
cursor in the first `if constexpr` branch, a `common_iterator` in the second. -/
inductive view_iterator (I S : Type) where
  | raw (i : I)
  | common (c : common_iterator I S)
  deriving DecidableEq, Repr

/-- The loop `for (it = first; !(it == last); ++it) visit(*it);` over any cursor
type, with the elements visited as its result. Fuel bounds the number of
comparisons; `none` is fuel exhausted or a failed assertion. -/
def visit_loop {C α : Type} (at_end : C → Option Bool) (deref : C → Option α)
    (inc : C → Option C) : Nat → C → Option (List α)
  | 0, _ => none
  | fuel + 1, it =>
    (at_end it).bind (fun stop =>
      if stop then some []
      else
        (deref it).bind (fun a =>
          (inc it).bind (fun it1 =>
            (visit_loop at_end deref inc fuel it1).map (fun rest => a :: rest))))

namespace View

variable {I S α : Type}

/-- The cursor operations of the view, as `common_iterator` uses them. -/
def iter_ops (v : View I S α) : common_iterator.IterOps I α where
  deref := v.deref
  next := v.next

/-- The comparisons of the view, as `common_iterator::operator==` uses them. -/
def iter_eq (v : View I S α) : common_iterator.IterEq I S I S where
  iter_sent := v.eq_iter_sent
  sent_iter := v.eq_sent_iter
  iter_iter := v.eq_iter_iter

/-- The elements visited by stepping the underlying sequence from `begin` until
the cursor compares equal to `end`. -/
def elements (v : View I S α) (fuel : Nat) : Option (List α) :=
  visit_loop (fun it => some (v.eq_iter_sent it v.end_)) (fun it => some (v.deref it))
    (fun it => some (v.next it)) fuel v.begin_

/-- The sequence has exactly `n` elements: the cursor first compares equal to the
boundary after `n` increments from `begin`. -/
def has_length (v : View I S α) (n : Nat) : Prop :=
  v.eq_iter_sent (v.next^[n] v.begin_) v.end_ = true ∧
    ∀ k, k < n → v.eq_iter_sent (v.next^[k] v.begin_) v.end_ = false

/-- The semantic requirements of `random_access_range` and `sized_range` on a
sequence of `n` elements, as far as `common_view` relies on them: `size` is the
number of elements, `begin + size` is `begin` incremented `size` times, and two
cursors into the sequence compare equal exactly at the same position. -/
def models_random_access_sized (v : View I S α) (n : Nat) : Prop :=
  v.size = n ∧ v.advance v.begin_ v.size = v.next^[v.size] v.begin_ ∧
    ∀ k, k ≤ n → v.eq_iter_iter (v.next^[k] v.begin_) (v.next^[n] v.begin_) = decide (k = n)

end View

namespace common_view

variable {I S α : Type}

/-- Member `common_view::begin()`. -/
def begin_ (cv : common_view I S α) : view_iterator I S :=
  if cv.base_.traits.random_access_range && cv.base_.traits.sized_range then
    view_iterator.raw cv.base_.begin_
  else
    view_iterator.common (common_iterator.of_iter cv.base_.begin_)

/-- Member `common_view::end()`. -/
def end_ (cv : common_view I S α) : view_iterator I S :=
  if cv.base_.traits.random_access_range && cv.base_.traits.sized_range then
    view_iterator.raw (cv.base_.advance cv.base_.begin_ cv.base_.size)
  else
    view_iterator.common (common_iterator.of_sent cv.base_.end_)

/-- Overload resolution of `x == y` on two `common_iterator`s of the view. -/
def iterator_eq (cv : common_view I S α) (x y : common_iterator I S) : Option Bool :=
  if cv.base_.traits.iterator_equality_comparable then
    common_iterator.operator_eq cv.base_.iter_eq x y
  else
    common_iterator.operator_eq_not_comparable cv.base_.iter_eq.toSentinelEq x y

/-- The elements visited by stepping the closed view from `begin()` with `++`
until the cursor compares equal to `end()`, at the cursor type that
`begin()` and `end()` return. -/
def elements (cv : common_view I S α) (fuel : Nat) : Option (List α) :=
  match cv.begin_, cv.end_ with
  | view_iterator.raw first, view_iterator.raw last =>
    visit_loop (fun it => some (cv.base_.eq_iter_iter it last))
      (fun it => some (cv.base_.deref it)) (fun it => some (cv.base_.next it)) fuel first
  | view_iterator.common first, view_iterator.common last =>
    visit_loop (fun it => cv.iterator_eq it last)
      (common_iterator.operator_deref cv.base_.iter_ops)
      (common_iterator.operator_pre_increment cv.base_.iter_ops) fuel first
  | _, _ => none

end common_view

/-! ## `common_iterator`: member access, `iter_move` and `iter_swap` -/

namespace common_iterator

variable {I S I2 S2 V A RV M : Type}

/-- The concept checks on `_Iter` in the constraint of `operator->` and in its
`if constexpr` branches. -/
structure ArrowTraits where
  /-- Concept `indirectly_readable<const _Iter>`. -/
  const_indirectly_readable : Bool
  /-- Concept `__has_const_arrow<_Iter>`. -/
  has_const_arrow : Bool
  /-- Check `is_reference_v<iter_reference_t<_Iter>>`. -/
  reference_is_reference : Bool
  /-- Check `constructible_from<iter_value_t<_Iter>, iter_reference_t<_Iter>>`. -/
  value_constructible_from_reference : Bool
  deriving DecidableEq, Repr

/-- The constraint under which the member `operator->` exists. -/
def operator_arrow_requires (t : ArrowTraits) : Bool :=
  t.const_indirectly_readable
    && (t.has_const_arrow || t.reference_is_reference || t.value_constructible_from_reference)

/-- The nested struct `__proxy`: it stores a copy of the dereferenced value. -/
structure proxy (V : Type) where
  value_ : V
  deriving DecidableEq, Repr

/-- Member `__proxy::operator->`: `addressof(__value_)`. The pointer is
represented by the object it points to, the stored `__value_`. -/
def proxy.arrow (p : proxy V) : V := p.value_

/-- The operations of `_Iter` that `operator->` uses: `*it` read as a value, and
the address of the object that `*it` refers to when `*it` is a true reference. -/
structure ArrowOps (I V A : Type) where
  deref : I → V
  addressof_deref : I → A

/-- The three shapes of the value returned by `operator->`, one for each
`if constexpr` branch. -/
inductive ArrowResult (I V A : Type) where
  /-- Branch `__has_const_arrow<_Iter>`: the held cursor `__hold_.__first_`. -/
  | cursor (i : I)
  /-- Branch `is_reference_v<iter_reference_t<_Iter>>`: `addressof(*__hold_.__first_)`. -/
  | address (a : A)
  /-- Last branch: `__proxy{*__hold_.__first_}`. -/
  | proxy (p : proxy V)
  deriving DecidableEq, Repr

/-- Member `operator->`: asserts that the cursor slot is live, then selects the
branch. -/
def operator_arrow (t : ArrowTraits) (ops : ArrowOps I V A) (x : common_iterator I S) :
    Option (ArrowResult I V A) :=
  if x.hold.holds_first then
    if t.has_const_arrow then
      x.hold.first_.map (fun i => ArrowResult.cursor i)
    else if t.reference_is_reference then
      x.hold.first_.map (fun i => ArrowResult.address (ops.addressof_deref i))
    else
      x.hold.first_.map (fun i => ArrowResult.proxy ⟨ops.deref i⟩)
  else none

/-- The friend `iter_move`: asserts that the cursor slot is live, then
`ranges::iter_move(__i.__hold_.__first_)`, given as `move_from`. -/
def iter_move (move_from : I → RV) (i : common_iterator I S) : Option RV :=
  if i.hold.holds_first then
    i.hold.first_.map move_from
  else none

/-- The friend `iter_swap`: asserts that both cursor slots are live, then
`ranges::iter_swap(__x.__hold_.__first_, __y_hold.__first_)`, given as the
change `swap_at` it makes to the element storage. -/
def iter_swap (swap_at : I → I2 → M → M) (x : common_iterator I S) (y : common_iterator I2 S2)
    (m : M) : Option M :=
  let y_hold := y.hold
  if x.hold.holds_first then
    if y_hold.holds_first then
      x.hold.first_.bind (fun a => y_hold.first_.map (fun b => swap_at a b m))
    else none
  else none

end common_iterator

/-! ## `common_view`: constraints, const overloads, `size` and `base` -/

namespace common_view

variable {I S Ic Sc α : Type}

/-- The concept checks on `_View` in the constraints of the class template. -/
structure ClassConstraints where
  /-- Concept `view<_View>`. -/
  view : Bool
  /-- Concept `common_range<_View>`: the cursor type and the boundary type of
  `_View` are the same type. -/
  common_range : Bool
  /-- Concept `copyable<iterator_t<_View>>`. -/
  copyable_iterator : Bool
  deriving DecidableEq, Repr

/-- The constraints of the class template `common_view<_View>`:
`view<_View>`, `!common_range<_View>` and `copyable<iterator_t<_View>>`. -/
def class_constraints (c : ClassConstraints) : Bool :=
  c.view && !c.common_range && c.copyable_iterator

/-- Constructor `explicit common_view(_View __v)`: `__base_(move(__v))`. The type
`common_view<_View>` exists only under the class constraints; `none` is a
program that does not compile. -/
def construct (c : ClassConstraints) (v : View I S α) : Option (common_view I S α) :=
  if class_constraints c then some ⟨v⟩ else none

/-- Member `common_view::begin() const`. The parameter `as_const` is the owned
sequence as `const _View` offers it to `ranges::begin`, `ranges::end` and
`ranges::size`, with the cursor and boundary types of `const _View`. -/
def begin_const (as_const : View I S α → View Ic Sc α) (cv : common_view I S α) :
    view_iterator Ic Sc :=
  if (as_const cv.base_).traits.random_access_range && (as_const cv.base_).traits.sized_range then
    view_iterator.raw (as_const cv.base_).begin_
  else
    view_iterator.common (common_iterator.of_iter (as_const cv.base_).begin_)

/-- Member `common_view::end() const`. -/
def end_const (as_const : View I S α → View Ic Sc α) (cv : common_view I S α) :
    view_iterator Ic Sc :=
  if (as_const cv.base_).traits.random_access_range && (as_const cv.base_).traits.sized_range then
    view_iterator.raw
      ((as_const cv.base_).advance (as_const cv.base_).begin_ (as_const cv.base_).size)
  else
    view_iterator.common (common_iterator.of_sent (as_const cv.base_).end_)

/-- Member `common_view::size()`, which exists when `sized_range<_View>`: the
value of `ranges::size(__base_)` together with the view as the call leaves it.
`none` is the member not existing. -/
def size (cv : common_view I S α) : Option (Nat × common_view I S α) :=
  if cv.base_.traits.sized_range then some (cv.base_.size, cv) else none

/-- Member `common_view::size() const`, which exists when
`sized_range<const _View>`. -/
def size_const (as_const : View I S α → View Ic Sc α) (cv : common_view I S α) : Option Nat :=
  if (as_const cv.base_).traits.sized_range then some (as_const cv.base_).size else none

/-- Member `common_view::base() const&`, which exists when `_View` is copy
constructible: a copy of `__base_`, together with the view as the call leaves
it. `none` is the member not existing. -/
def base_const (copy_constructible : Bool) (cv : common_view I S α) :
    Option (View I S α × common_view I S α) :=
  if copy_constructible then some (cv.base_, cv) else none

/-- Member `common_view::base() &&`: `move(__base_)`; the view is consumed. -/
def base_rvalue (cv : common_view I S α) : View I S α :=
  cv.base_

end common_view

/-! ## `views::counted` -/

namespace counted

variable {It : Type}

/-- Modelled from the spec: the `span` of `cuda/std/span` (not among the
sources) that `span(pointer, count)` deduces: a start address and a length. -/
structure span where
  data : Nat
  size : Nat
  deriving DecidableEq, Repr

/-- Modelled from the spec: the address of the `i`-th element of a span over
contiguous elements, `data() + i`, defined for `i < size()`. -/
def span.element_address (s : span) (i : Nat) : Option Nat :=
  if i < s.size then some (s.data + i) else none

/-- Modelled from the spec: the stateless marker `default_sentinel_t` of
`cuda/std/__iterator/default_sentinel.h` (not among the sources). -/
inductive default_sentinel_t where
  | default_sentinel
  deriving DecidableEq, Repr

/-- Modelled from the spec: the data of `counted_iterator<_It>` of
`cuda/std/__iterator/counted_iterator.h` (not among the sources) as
`counted_iterator(it, count)` builds it: a copy of the cursor and the
remaining count. -/
structure counted_iterator (It : Type) where
  current : It
  length : Int
  deriving DecidableEq, Repr

/-- What `views::counted` returns (`auto`), one shape for each overload of `__go`. -/
inductive counted_result (It : Type) where
  /-- A `span` over contiguous elements. -/
  | span (s : span)
  /-- The `subrange<_It>` with the given first and last cursor. -/
  | subrange (first last : It)
  /-- The `subrange<counted_iterator<_It>, default_sentinel_t>`. -/
  | counted_subrange (first : counted_iterator It) (last : default_sentinel_t)
  deriving DecidableEq, Repr

/-- The concept checks in the constraints of `__fn::operator()` and of the
overloads of `__fn::__go`. -/
structure CursorConcepts where
  /-- Concept `contiguous_iterator<_It>`. -/
  contiguous_iterator : Bool
  /-- Concept `random_access_iterator<_It>`. -/
  random_access_iterator : Bool
  /-- Concept `input_or_output_iterator<decay_t<_It>>`. -/
  input_or_output_iterator : Bool
  /-- Concept `convertible_to<_Diff, iter_difference_t<_It>>`. -/
  difference_convertible : Bool
  deriving DecidableEq, Repr

/-- The operations of `_It` that the overloads of `__go` use: `to_address(it)`
and `it + count`. -/
structure CursorOps (It : Type) where
  to_address : It → Nat
  advance : It → Int → It

/-- The conversion `static_cast<size_t>(__count)` to the 64-bit unsigned
`size_t`. -/
def size_t_cast (count : Int) : Nat :=
  (count % 2 ^ 64).toNat

/-- The three overloads of `__fn::__go`, in the order of the source. -/
inductive go_overload where
  | contiguous
  | random_access
  | counted
  deriving DecidableEq, Repr

namespace go_overload

/-- The overload set of `__go`. -/
def all : List go_overload := [contiguous, random_access, counted]

/-- The constraint of each overload of `__go`. -/
def requires (c : CursorConcepts) : go_overload → Bool
  | contiguous => c.contiguous_iterator
  | random_access => !c.contiguous_iterator && c.random_access_iterator
  | counted => !c.contiguous_iterator && !c.random_access_iterator

/-- The body of each overload of `__go`. -/
def body (ops : CursorOps It) (it : It) (count : Int) : go_overload → counted_result It
  | contiguous => counted_result.span ⟨ops.to_address it, size_t_cast count⟩
  | random_access => counted_result.subrange it (ops.advance it count)
  | counted => counted_result.counted_subrange ⟨it, count⟩ default_sentinel_t.default_sentinel

end go_overload

/-- The call `__go(it, count)`: the body of the one overload whose constraint
holds; `none` is a call that does not compile (no viable overload, or more than
one with none more constrained). -/
def go (c : CursorConcepts) (ops : CursorOps It) (it : It) (count : Int) :
    Option (counted_result It) :=
  match go_overload.all.filter (fun o => o.requires c) with
  | [o] => some (o.body ops it count)
  | _ => none

/-- Member `__fn::operator()`, the call `views::counted(it, count)`: under its
constraints, `__go(it, count)`; `none` is a call that does not compile. -/
def operator_call (c : CursorConcepts) (ops : CursorOps It) (it : It) (count : Int) :
    Option (counted_result It) :=
  if c.difference_convertible && c.input_or_output_iterator then go c ops it count else none

/-- Modelled from the spec: the debug assertion of the precondition `n >= 0` that
the constructors of the offset pair and of the counting wrapper
(`cuda/std/__ranges/subrange.h`, `cuda/std/__iterator/counted_iterator.h`, not
among the sources) run on the count they are given; `none` is the failed
assertion. The span is built from `static_cast<size_t>(__count)`, a value that is
never negative, so that its construction has no such assertion to fail. -/
def counted_result.debug_assert (count : Int) : counted_result It → Option (counted_result It)
  | counted_result.span s => some (counted_result.span s)
  | counted_result.subrange first last =>
    if 0 ≤ count then some (counted_result.subrange first last) else none
  | counted_result.counted_subrange first last =>
    if 0 ≤ count then some (counted_result.counted_subrange first last) else none

/-- The call `views::counted(it, count)` in a build with assertions: the result
of `operator_call`, the assertions of the constructors it runs evaluated; `none`
is a call that does not compile or whose assertion fails. -/
def operator_call_debug (c : CursorConcepts) (ops : CursorOps It) (it : It) (count : Int) :
    Option (counted_result It) :=
  (operator_call c ops it count).bind (counted_result.debug_assert count)

end counted

/-! ## `views::counted`: traversal of the three representations -/

namespace counted

variable {It α : Type}

/-- The operations of `_It` that a traversal uses: `*it`, `++it` and, for a
cursor type that is its own boundary, `it == it`. -/
structure TraversalOps (It α : Type) where
  deref : It → α
  next : It → It
  eq : It → It → Bool

namespace counted_iterator

/-- Modelled from the spec: `counted_iterator::operator*` of
`cuda/std/__iterator/counted_iterator.h` (not among the sources): the
dereference of the held cursor. -/
def deref (t : TraversalOps It α) (ci : counted_iterator It) : α :=
  t.deref ci.current

/-- Modelled from the spec: `counted_iterator::operator++` (not among the
sources): the held cursor advances and the remaining count is decremented. -/
def next (t : TraversalOps It α) (ci : counted_iterator It) : counted_iterator It :=
  ⟨t.next ci.current, ci.length - 1⟩

/-- Modelled from the spec: the comparison of a `counted_iterator` with
`default_sentinel` (not among the sources): the remaining count compared to
zero. -/
def eq_default_sentinel (ci : counted_iterator It) (_ : default_sentinel_t) : Bool :=
  decide (ci.length = 0)

end counted_iterator

/-- The elements visited by stepping a result of `views::counted` from its begin
until the cursor compares equal to its end. A span is stepped by address, its
elements read from `memory`. -/
def counted_result.elements (t : TraversalOps It α) (memory : Nat → α) :
    counted_result It → Nat → Option (List α)
  | counted_result.span s, fuel =>
    visit_loop (fun a => some (decide (a = s.data + s.size))) (fun a => some (memory a))
      (fun a => some (a + 1)) fuel s.data
  | counted_result.subrange first last, fuel =>
    visit_loop (fun it => some (t.eq it last)) (fun it => some (t.deref it))
      (fun it => some (t.next it)) fuel first
  | counted_result.counted_subrange first last, fuel =>
    visit_loop (fun ci => some (counted_iterator.eq_default_sentinel ci last))
      (fun ci => some (counted_iterator.deref t ci))
      (fun ci => some (counted_iterator.next t ci)) fuel first

end counted

/-! ## `is_execution_policy` -/

namespace execution

/-- Modelled from the spec: the seven policy classes that
`cuda/std/__execution/policy.h` declares (that header is not among the
sources), and any other class or fundamental type, told apart by a number. -/
inductive unqualified_type where
  | sequenced_policy
  | parallel_policy_host
  | parallel_policy_device
  | parallel_unsequenced_policy_host
  | parallel_unsequenced_policy_device
  | unsequenced_policy_host
  | unsequenced_policy_device
  | other (id : Nat)
  deriving DecidableEq, Repr

/-- The cv-qualification of a type. -/
inductive cv_qualifier where
  | unqualified
  | const_
  | volatile_
  | const_volatile
  deriving DecidableEq, Repr

/-- The reference kind of a type. -/
inductive ref_qualifier where
  | value
  | lvalue_reference
  | rvalue_reference
  deriving DecidableEq, Repr

/-- A type argument `T` of the traits: an unqualified type with its
cv-qualification and reference kind. -/
structure cpp_type where
  base : unqualified_type
  cv : cv_qualifier
  ref : ref_qualifier
  deriving DecidableEq, Repr

/-- The unqualified, non-reference type `b` as a template argument. -/
def plain (b : unqualified_type) : cpp_type :=
  ⟨b, cv_qualifier.unqualified, ref_qualifier.value⟩

/-- The struct template `is_execution_policy<T>` read at `::value`: the primary
template derives from `false_type`, each of the seven explicit specialisations
from `true_type`. -/
def is_execution_policy (t : cpp_type) : Bool :=
  if t = plain unqualified_type.sequenced_policy then true
  else if t = plain unqualified_type.parallel_policy_host then true
  else if t = plain unqualified_type.parallel_policy_device then true
  else if t = plain unqualified_type.parallel_unsequenced_policy_host then true
  else if t = plain unqualified_type.parallel_unsequenced_policy_device then true
  else if t = plain unqualified_type.unsequenced_policy_host then true
  else if t = plain unqualified_type.unsequenced_policy_device then true
  else false

/-- The variable template `is_execution_policy_v<T>`: the primary template is
`false`, each of the seven explicit specialisations is `true`. -/
def is_execution_policy_v (t : cpp_type) : Bool :=
  if t = plain unqualified_type.sequenced_policy then true
  else if t = plain unqualified_type.parallel_policy_host then true
  else if t = plain unqualified_type.parallel_policy_device then true
  else if t = plain unqualified_type.parallel_unsequenced_policy_host then true
  else if t = plain unqualified_type.parallel_unsequenced_policy_device then true
  else if t = plain unqualified_type.unsequenced_policy_host then true
  else if t = plain unqualified_type.unsequenced_policy_device then true
  else false

/-- The seven policy types the test `is_execution_policy.compile.pass.cpp`
asserts on. -/
def policy_types : List cpp_type :=
  [plain unqualified_type.sequenced_policy,
   plain unqualified_type.parallel_policy_host,
   plain unqualified_type.parallel_policy_device,
   plain unqualified_type.parallel_unsequenced_policy_host,
   plain unqualified_type.parallel_unsequenced_policy_device,
   plain unqualified_type.unsequenced_policy_host,
   plain unqualified_type.unsequenced_policy_device]

end execution

/-! ## `ranges::find_if` and `ranges::min` -/

namespace ranges

variable {Ip Sp α β : Type}

/-- The operations of an input cursor `_Ip` with boundary `_Sp` that the
algorithms use: `first != last`, `++first` and `*first`. -/
structure InputOps (Ip Sp α : Type) where
  ne : Ip → Sp → Bool
  next : Ip → Ip
  deref : Ip → α

/-- A range `__r` as the algorithms see it: the results of `ranges::begin(__r)`
and `ranges::end(__r)`. -/
structure Range (Ip Sp : Type) where
  begin_ : Ip
  end_ : Sp

/-- The function `__find_if::__fn::__find_if_impl`. The result is the cursor
returned together with the cursors at which the predicate was invoked, in
order; `none` is fuel exhausted. -/
def find_if_impl (ops : InputOps Ip Sp α) (pred : β → Bool) (proj : α → β) (last : Sp) :
    Nat → Ip → Option (Ip × List Ip)
  | 0, _ => none
  | fuel + 1, first =>
    if ops.ne first last then
      if pred (proj (ops.deref first)) then some (first, [first])
      else
        (find_if_impl ops pred proj last fuel (ops.next first)).map
          (fun r => (r.1, first :: r.2))
    else some (first, [])

/-- The overload `__find_if::__fn::operator()(first, last, pred, proj)`. -/
def find_if (ops : InputOps Ip Sp α) (first : Ip) (last : Sp) (pred : β → Bool) (proj : α → β)
    (fuel : Nat) : Option (Ip × List Ip) :=
  find_if_impl ops pred proj last fuel first

/-- Modelled from the spec: the return type `borrowed_iterator_t<_Rp>` of
`cuda/std/__ranges/dangling.h` (not among the sources): the cursor type of `_Rp`
when `_Rp` models `borrowed_range`, otherwise the empty marker `dangling`, which
is constructible from any value and keeps none. -/
inductive borrowed_iterator (Ip : Type) where
  /-- The cursor, for a borrowed range. -/
  | iterator (i : Ip)
  /-- The marker `dangling`, for a range that is not borrowed. -/
  | dangling
  deriving DecidableEq, Repr

/-- The conversion of a cursor to `borrowed_iterator_t<_Rp>` in a `return`
statement; `borrowed_range` is the concept `borrowed_range<_Rp>`, which holds
when `_Rp` is an lvalue reference or `enable_borrowed_range` is set for it. -/
def borrowed_iterator.of (borrowed_range : Bool) (i : Ip) : borrowed_iterator Ip :=
  if borrowed_range then borrowed_iterator.iterator i else borrowed_iterator.dangling

/-- The overload `__find_if::__fn::operator()(r, pred, proj)`, whose return type
is `borrowed_iterator_t<_Rp>`. -/
def find_if_range (borrowed_range : Bool) (ops : InputOps Ip Sp α) (r : Range Ip Sp)
    (pred : β → Bool) (proj : α → β) (fuel : Nat) : Option (borrowed_iterator Ip × List Ip) :=
  (find_if_impl ops pred proj r.end_ fuel r.begin_).map
    (fun res => (borrowed_iterator.of borrowed_range res.1, res.2))

/-- The range `[first, last)` has exactly `n` elements: `first != last` holds at
each of the first `n` positions and fails after `n` increments. -/
def has_length (ops : InputOps Ip Sp α) (first : Ip) (last : Sp) (n : Nat) : Prop :=
  ops.ne (ops.next^[n] first) last = false ∧
    ∀ k, k < n → ops.ne (ops.next^[k] first) last = true

/-- The elements of the range `[first, last)`, read in order. -/
def elements (ops : InputOps Ip Sp α) (first : Ip) (last : Sp) (fuel : Nat) : Option (List α) :=
  visit_loop (fun it => some (!ops.ne it last)) (fun it => some (ops.deref it))
    (fun it => some (ops.next it)) fuel first

/-- The overload `__min::__fn::operator()(a, b, comp, proj)`. -/
def min_values (comp : β → β → Bool) (proj : α → β) (a b : α) : α :=
  if comp (proj b) (proj a) then b else a

/-- A strict weak order: irreflexive, transitive, and with transitive
incomparability. -/
def strict_weak_order (lt : β → β → Bool) : Prop :=
  (∀ a, lt a a = false) ∧ (∀ a b c, lt a b = true → lt b c = true → lt a c = true) ∧
    ∀ a b c, lt a b = false → lt b a = false → lt b c = false → lt c b = false →
      lt a c = false ∧ lt c a = false

/-- The value of the leftmost minimal element of a sequence, in the words of
the claim: the first element that no element of the sequence compares less
than. -/
def leftmost_minimal (comp : β → β → Bool) (proj : α → β) (xs : List α) : Option α :=
  xs.find? (fun x => xs.all (fun y => !comp (proj y) (proj x)))

/-- Modelled from the spec: the expression
`*__min_element(first, last, comp, proj)` of the forward branch
(`cuda/std/__algorithm/min_element.h` is not among the sources): the value of
the leftmost minimal element of `[first, last)`. -/
def deref_min_element (ops : InputOps Ip Sp α) (comp : β → β → Bool) (proj : α → β)
    (first : Ip) (last : Sp) (fuel : Nat) : Option α :=
  (elements ops first last fuel).bind (leftmost_minimal comp proj)

/-- The loop `while (++first != last) { if (comp(proj(*first), proj(result)))
result = *first; }` of the single-pass branch, with the value of `__result`
after it; `none` is fuel exhausted. -/
def min_loop (ops : InputOps Ip Sp α) (comp : β → β → Bool) (proj : α → β) (last : Sp) :
    Nat → Ip → α → Option α
  | 0, _, _ => none
  | fuel + 1, first, result =>
    if ops.ne (ops.next first) last then
      min_loop ops comp proj last fuel (ops.next first)
        (if comp (proj (ops.deref (ops.next first))) (proj result) then
          ops.deref (ops.next first)
        else result)
    else some result

/-- The overload `__min::__fn::operator()(r, comp, proj)`; `none` is the failed
assertion on an empty range, or fuel exhausted. -/
def min_range (forward_range : Bool) (ops : InputOps Ip Sp α) (r : Range Ip Sp)
    (comp : β → β → Bool) (proj : α → β) (fuel : Nat) : Option α :=
  let first := r.begin_
  let last := r.end_
  if ops.ne first last then
    if forward_range then
      deref_min_element ops comp proj first last fuel
    else
      min_loop ops comp proj last fuel first (ops.deref first)
  else none

end ranges

/-! ## `single_view` and the iterator of `transform_view` -/

/-- Modelled from the spec: the class `single_view<T>` (its header is not among
the sources; its tests `begin.pass.cpp` and `data.pass.cpp` are): a view that
stores one value. -/
structure single_view (α : Type) where
  value_ : α
  deriving DecidableEq, Repr

/-- Modelled from the spec: a pointer `T*` as the tests of `single_view` use
it: null, or the address of the element stored in a `single_view`, represented
by that view. -/
inductive element_pointer (α : Type) where
  | null
  | stored (owner : single_view α)
  deriving DecidableEq, Repr

/-- Modelled from the spec: the dereference `*p` of a non-null pointer to
the stored element. -/
def element_pointer.deref {α : Type} : element_pointer α → Option α
  | element_pointer.null => none
  | element_pointer.stored owner => some owner.value_

namespace single_view

variable {α : Type}

/-- Modelled from the spec: `constexpr T* data() noexcept`, the address of the
stored element. -/
def data (sv : single_view α) : element_pointer α := element_pointer.stored sv

/-- Modelled from the spec: `constexpr const T* data() const noexcept`. -/
def data_const (sv : single_view α) : element_pointer α := element_pointer.stored sv

/-- Modelled from the spec: `constexpr T* begin() noexcept`, which is `data()`. -/
def begin_ (sv : single_view α) : element_pointer α := sv.data

/-- Modelled from the spec: `constexpr const T* begin() const noexcept`, which
is `data()`. -/
def begin_const (sv : single_view α) : element_pointer α := sv.data_const

end single_view

/-- Modelled from the spec: the class `transform_view` over a random-access base
(its header is not among the sources; its test `subscript.pass.cpp` is): the
base sequence, here a buffer of elements, and the function applied to them. -/
structure transform_view (α β : Type) where
  base_ : List α
  func_ : α → β

namespace transform_view

variable {α β : Type}

/-- Modelled from the spec: the base subscript `s[k]`, the element at offset
`k` from the begin of the buffer; it is defined inside the buffer only. -/
def base_subscript (s : List α) (k : Int) : Option α :=
  if 0 ≤ k then s.get? k.toNat else none

/-- Modelled from the spec: `transform_view::iterator`: the view it belongs to
and the current base cursor, an offset into the buffer. -/
structure iterator (α β : Type) where
  parent_ : transform_view α β
  current_ : Int

/-- Modelled from the spec: `transform_view::begin()`: the iterator at the begin
of the base. -/
def begin_ (tv : transform_view α β) : iterator α β := ⟨tv, 0⟩

/-- Modelled from the spec: `iterator + n`: the base cursor advanced by `n`. -/
def iterator.add (it : iterator α β) (n : Int) : iterator α β :=
  ⟨it.parent_, it.current_ + n⟩

/-- Modelled from the spec: `iterator::operator[](n)`: the function applied to
`current_[n]`. -/
def iterator.subscript (it : iterator α β) (n : Int) : Option β :=
  (base_subscript it.parent_.base_ (it.current_ + n)).map it.parent_.func_

end transform_view

/-! ## The parallel and unsequenced classifiers and `__remove_parallel_policy` -/

namespace execution

/-- Modelled from the spec: the alias `__remove_cvref_t<T>` of
`cuda/std/__type_traits/remove_cvref.h` (not among the sources): `T` without its
reference kind and its cv-qualification. -/
def remove_cvref (t : cpp_type) : cpp_type :=
  plain t.base

/-- The struct template `__is_parallel_execution_policy_impl<T>` read at
`::value`: the primary template derives from `false_type`, each of the four
explicit specialisations from `true_type`. -/
def is_parallel_execution_policy_impl (t : cpp_type) : Bool :=
  if t = plain unqualified_type.parallel_policy_host then true
  else if t = plain unqualified_type.parallel_policy_device then true
  else if t = plain unqualified_type.parallel_unsequenced_policy_host then true
  else if t = plain unqualified_type.parallel_unsequenced_policy_device then true
  else false

/-- The struct template `__is_parallel_execution_policy<T>` read at `::value`. -/
def is_parallel_execution_policy (t : cpp_type) : Bool :=
  is_parallel_execution_policy_impl (remove_cvref t)

/-- The struct template `__is_unsequenced_execution_policy_impl<T>` read at
`::value`. -/
def is_unsequenced_execution_policy_impl (t : cpp_type) : Bool :=
  if t = plain unqualified_type.parallel_unsequenced_policy_host then true
  else if t = plain unqualified_type.parallel_unsequenced_policy_device then true
  else if t = plain unqualified_type.unsequenced_policy_host then true
  else if t = plain unqualified_type.unsequenced_policy_device then true
  else false

/-- The struct template `__is_unsequenced_execution_policy<T>` read at `::value`. -/
def is_unsequenced_execution_policy (t : cpp_type) : Bool :=
  is_unsequenced_execution_policy_impl (remove_cvref t)

/-- The variable template `__is_parallel_execution_policy_impl_v<T>`. -/
def is_parallel_execution_policy_impl_v (t : cpp_type) : Bool :=
  if t = plain unqualified_type.parallel_policy_host then true
  else if t = plain unqualified_type.parallel_policy_device then true
  else if t = plain unqualified_type.parallel_unsequenced_policy_host then true
  else if t = plain unqualified_type.parallel_unsequenced_policy_device then true
  else false

/-- The variable template `__is_parallel_execution_policy_v<T>`. -/
def is_parallel_execution_policy_v (t : cpp_type) : Bool :=
  is_parallel_execution_policy_impl_v (remove_cvref t)

/-- The variable template `__is_unsequenced_execution_policy_impl_v<T>`. -/
def is_unsequenced_execution_policy_impl_v (t : cpp_type) : Bool :=
  if t = plain unqualified_type.parallel_unsequenced_policy_host then true
  else if t = plain unqualified_type.parallel_unsequenced_policy_device then true
  else if t = plain unqualified_type.unsequenced_policy_host then true
  else if t = plain unqualified_type.unsequenced_policy_device then true
  else false

/-- The variable template `__is_unsequenced_execution_policy_v<T>`. -/
def is_unsequenced_execution_policy_v (t : cpp_type) : Bool :=
  is_unsequenced_execution_policy_impl_v (remove_cvref t)

/-- The alias `__remove_parallel_policy_t<T>`, the member `type` of
`__remove_parallel_policy<T>`: the primary template names `T` itself, each of
the four explicit specialisations names the policy without its parallel part. -/
def remove_parallel_policy (t : cpp_type) : cpp_type :=
  if t = plain unqualified_type.parallel_policy_host then
    plain unqualified_type.sequenced_policy
  else if t = plain unqualified_type.parallel_policy_device then
    plain unqualified_type.sequenced_policy
  else if t = plain unqualified_type.parallel_unsequenced_policy_host then
    plain unqualified_type.unsequenced_policy_host
  else if t = plain unqualified_type.parallel_unsequenced_policy_device then
    plain unqualified_type.unsequenced_policy_device
  else t

/-- The type `const parallel_policy_host`. -/
def const_parallel_policy_host : cpp_type :=
  ⟨unqualified_type.parallel_policy_host, cv_qualifier.const_, ref_qualifier.value⟩

end execution

/-! ## `common_iterator`: sequences of operations -/

namespace common_iterator

variable {I S V R A RV M : Type}

/-- Everything the operations of one instantiation `common_iterator<_Iter, _Sent>`
depend on: the concept checks, the operations of the cursor type, and the raw
comparisons and differences of cursor and boundary. -/
structure Environment (I S V R A RV M : Type) where
  traits : IterTraits
  arrow_traits : ArrowTraits
  ops : IterPostOps I V R
  arrow_ops : ArrowOps I V A
  move_from : I → RV
  swap_at : I → I → M → M
  /-- Concept `equality_comparable<_Iter>`, which selects the overload of `==`. -/
  equality_comparable : Bool
  eq_ops : IterEq I S I S
  sized_ops : SizedOps I S I S

/-- The operations of `common_iterator` other than assignment, as applied to one
operand `x`; a binary operation carries its other operand, and `iter_swap` the
element storage it acts on. -/
inductive operation (I S M : Type) where
  | deref
  | arrow
  | pre_increment
  | post_increment
  | eq_with (y : common_iterator I S)
  | minus (y : common_iterator I S)
  | iter_move
  | iter_swap_with (y : common_iterator I S) (m : M)

/-- The operand `x` as the operation leaves it; `none` is a failed assertion.
Every operation except the two increments takes its operands by reference to
const, or reads `__hold_` only, and leaves `x` as it was. -/
def operation.apply (env : Environment I S V R A RV M) :
    operation I S M → common_iterator I S → Option (common_iterator I S)
  | operation.deref, x => (operator_deref env.ops.toIterOps x).map (fun _ => x)
  | operation.arrow, x => (operator_arrow env.arrow_traits env.arrow_ops x).map (fun _ => x)
  | operation.pre_increment, x => operator_pre_increment env.ops.toIterOps x
  | operation.post_increment, x =>
    (operator_post_increment env.traits env.ops x).map (fun r => r.2)
  | operation.eq_with y, x =>
    (if env.equality_comparable then operator_eq env.eq_ops x y
      else operator_eq_not_comparable env.eq_ops.toSentinelEq x y).map (fun _ => x)
  | operation.minus y, x => (operator_minus env.sized_ops x y).map (fun _ => x)
  | operation.iter_move, x => (common_iterator.iter_move env.move_from x).map (fun _ => x)
  | operation.iter_swap_with y m, x => (iter_swap env.swap_at x y m).map (fun _ => x)

/-- A sequence of operations applied to `x` in order; `none` is a failed
assertion in one of them. -/
def operation.run (env : Environment I S V R A RV M) :
    List (operation I S M) → common_iterator I S → Option (common_iterator I S)
  | [], x => some x
  | o :: rest, x => (o.apply env x).bind (operation.run env rest)

/-- The other operand of a binary operation is in the state the operation
asserts: not valueless for `==` and `-`, a cursor holder for `iter_swap`. -/
def operation.other_operand_ok : operation I S M → Bool
  | operation.eq_with y => !y.hold.valueless_by_exception
  | operation.minus y => !y.hold.valueless_by_exception
  | operation.iter_swap_with y _ => y.hold.holds_first
  | _ => true

end common_iterator

/-! ## `views::common` -/

namespace views

variable {I S α : Type}

/-- The concept checks on `_Range` that decide which overload of
`views::__common::__fn::operator()` is viable. -/
structure RangeConcepts where
  /-- Concept `common_range<_Range>`. -/
  common_range : Bool
  /-- Concept `copyable<iterator_t<_Range>>`. -/
  copyable_iterator : Bool
  deriving DecidableEq, Repr

/-- Modelled from the spec: `views::all(range)` of `cuda/std/__ranges/all.h`
(not among the sources), the collaborator that normalises a range to a view: the
result is a view over the same sequence, with the same cursor and boundary
types. -/
def all (r : View I S α) : View I S α := r

/-- What `views::common` returns, one shape for each overload. -/
inductive common_result (I S α : Type) where
  /-- The view `views::all(range)` itself, of type `all_t<_Range>`. -/
  | all_view (v : View I S α)
  /-- A `common_view<all_t<_Range>>`. -/
  | closed_view (cv : common_view I S α)

/-- The two overloads of `views::__common::__fn::operator()`, in the order of
the source. -/
inductive common_overload where
  | forward_all
  | wrap
  deriving DecidableEq, Repr

namespace common_overload

/-- The overload set. -/
def all_overloads : List common_overload := [forward_all, wrap]

/-- Whether an overload takes part in overload resolution: its constraint holds
and its return type names a type. The return type `common_view<all_t<_Range>>`
of the second overload does so only under the constraints of the class
template; `all_t<_Range>` is a view with the cursor and boundary types of
`_Range`. -/
def viable (c : RangeConcepts) : common_overload → Bool
  | forward_all => c.common_range
  | wrap => !c.common_range
      && common_view.class_constraints
          { view := true, common_range := c.common_range,
            copyable_iterator := c.copyable_iterator }

/-- The body of each overload. -/
def body (r : View I S α) : common_overload → common_result I S α
  | forward_all => common_result.all_view (all r)
  | wrap => common_result.closed_view (common_view.mk (all r))

end common_overload

/-- The call `views::common(range)`: the body of the one viable overload; `none`
is a call that does not compile. -/
def common (c : RangeConcepts) (r : View I S α) : Option (common_result I S α) :=
  match common_overload.all_overloads.filter (fun o => o.viable c) with
  | [o] => some (o.body r)
  | _ => none

end views

/-! ## `caching_resource` -/

/-- The operation of the wrapped `Resource` that `caching_resource` uses:
`allocate(size, alignment)`, which returns a pointer and leaves the resource in
a new state. Pointers are addresses. -/
structure ResourceOps (R : Type) where
  allocate : R → Nat → Nat → Nat × R

/-- The class `caching_resource<Resource>`: the wrapped resource and the two
multimaps from size to pointer. A `std::unordered_multimap` is a list of its
elements; where a new element stands among the others is not specified by the
container, here it is put in front. -/
structure caching_resource (R : Type) where
  resource_ : R
  available_allocations_ : List (Nat × Nat)
  used_allocations_ : List (Nat × Nat)

namespace caching_resource

variable {R : Type}

/-- Member `unordered_multimap::count(key)`. -/
def multimap_count (m : List (Nat × Nat)) (key : Nat) : Nat :=
  (m.filter (fun e => decide (e.1 = key))).length

/-- Member `unordered_multimap::extract(key)`: unlinks the first element with
that key; the result is the node and the remaining elements, or `none` when
there is no such element. -/
def multimap_extract_key : List (Nat × Nat) → Nat → Option ((Nat × Nat) × List (Nat × Nat))
  | [], _ => none
  | e :: rest, key =>
    if e.1 = key then some (e, rest)
    else (multimap_extract_key rest key).map (fun r => (r.1, e :: r.2))

/-- The loop of `deallocate` over `equal_range(size)` with
`extract(curr)`: unlinks the first element with that size whose pointer is
`ptr`; `none` when the loop ends without finding one. -/
def multimap_extract_entry :
    List (Nat × Nat) → Nat → Nat → Option ((Nat × Nat) × List (Nat × Nat))
  | [], _, _ => none
  | e :: rest, size, ptr =>
    if e.1 = size ∧ e.2 = ptr then some (e, rest)
    else (multimap_extract_entry rest size ptr).map (fun r => (r.1, e :: r.2))

/-- Members `unordered_multimap::insert` and `emplace`. -/
def multimap_insert (m : List (Nat × Nat)) (e : Nat × Nat) : List (Nat × Nat) :=
  e :: m

/-- What a call of `allocate` yields: the pointer returned, the object as the
call leaves it, and the calls `(size, alignment)` it made to
`resource_.allocate`. -/
structure AllocateResult (R : Type) where
  pointer : Nat
  state : caching_resource R
  resource_calls : List (Nat × Nat)

/-- Member `caching_resource::allocate(size, alignment)`; `none` is the use of
an empty node handle, which the guard excludes. -/
def allocate (res : ResourceOps R) (s : caching_resource R) (size alignment : Nat) :
    Option (AllocateResult R) :=
  if multimap_count s.available_allocations_ size = 0 then
    let r := res.allocate s.resource_ size alignment
    some
      { pointer := r.1
        state := { s with resource_ := r.2
                          used_allocations_ := multimap_insert s.used_allocations_ (size, r.1) }
        resource_calls := [(size, alignment)] }
  else
    (multimap_extract_key s.available_allocations_ size).map (fun node =>
      { pointer := node.1.2
        state := { s with available_allocations_ := node.2
                          used_allocations_ := multimap_insert s.used_allocations_ node.1 }
        resource_calls := [] })

/-- Member `caching_resource::deallocate(ptr, size, alignment)`: the object as
the call leaves it, and whether every `CHECK` passed. -/
def deallocate (s : caching_resource R) (ptr size : Nat) (_alignment : Nat) :
    caching_resource R × Bool :=
  let check_used := decide (multimap_count s.used_allocations_ size ≠ 0)
  match multimap_extract_entry s.used_allocations_ size ptr with
  | some node =>
    ({ s with used_allocations_ := node.2
              available_allocations_ := multimap_insert s.available_allocations_ node.1 },
      check_used)
  | none => (s, false)

/-- A call made on a `caching_resource`. -/
inductive request where
  | allocate (size alignment : Nat)
  | deallocate (ptr size alignment : Nat)
  deriving DecidableEq, Repr

/-- The object after one call. -/
def step (res : ResourceOps R) (s : caching_resource R) : request → Option (caching_resource R)
  | request.allocate size alignment => (allocate res s size alignment).map (fun r => r.state)
  | request.deallocate ptr size alignment => some (deallocate s ptr size alignment).1

/-- The object after a sequence of calls, in order. -/
def run (res : ResourceOps R) : List request → caching_resource R → Option (caching_resource R)
  | [], s => some s
  | q :: rest, s => (step res s q).bind (run res rest)

/-- The default-constructed object: both multimaps empty. -/
def initial (r : R) : caching_resource R :=
  { resource_ := r, available_allocations_ := [], used_allocations_ := [] }

end caching_resource

/-! ## Concrete cursors and sequences used as instances -/

namespace Examples

open common_iterator

/-- Traits of a single-pass, readable cursor whose `it++` returns `void`. -/
def single_pass_traits : IterTraits where
  forward_iterator := false
  postfix_can_reference := false
  indirectly_readable := true
  value_constructible_from_reference := true
  value_move_constructible := true
  iterator_category := some iterator_tag.input_iterator_tag

/-- Traits of a single-pass, readable cursor whose `it++` returns `void` and
whose value type cannot be move-constructed. -/
def immovable_value_traits : IterTraits where
  forward_iterator := false
  postfix_can_reference := false
  indirectly_readable := true
  value_constructible_from_reference := true
  value_move_constructible := false
  iterator_category := some iterator_tag.input_iterator_tag

/-- A cursor over the values `0, 1, 2, ...`: position `i` reads the value `i`, and
`it++` returns `void`. -/
def counting_ops : IterPostOps Nat Nat Unit where
  deref := fun i => i
  next := fun i => i + 1
  post := fun i => ((), i + 1)

/-- Cursor and boundary types whose cross comparisons never hold. -/
def never_equal : SentinelEq Nat Unit Nat Unit where
  iter_sent := fun _ _ => false
  sent_iter := fun _ _ => false

/-- Pointer-like cursors with a boundary that wraps the one-past-the-end
address: every difference is the difference of the addresses. -/
def address_distance : SizedOps Int Int Int Int where
  iter_iter := fun a b => a - b
  iter_sent := fun a s => a - s
  sent_iter := fun s b => s - b

/-- A single-pass sequence over the list `xs`: the cursor is a position, the
boundary is a stateless marker reached at position `xs.length`. -/
def list_view (xs : List Nat) : View Nat Unit Nat where
  traits := { random_access_range := false, sized_range := false,
              iterator_equality_comparable := true }
  begin_ := 0
  end_ := ()
  size := xs.length
  deref := fun i => xs.getD i 0
  next := fun i => i + 1
  advance := fun i n => i + n
  eq_iter_sent := fun i _ => decide (i = xs.length)
  eq_sent_iter := fun _ i => decide (i = xs.length)
  eq_iter_iter := fun i j => decide (i = j)

/-- The same sequence offered as a random-access, size-known range whose
boundary type still differs from its cursor type. -/
def sized_list_view (xs : List Nat) : View Nat Unit Nat :=
  { list_view xs with
    traits := { random_access_range := true, sized_range := true,
                iterator_equality_comparable := true } }

end Examples

namespace Examples

open common_iterator

/-- Traits of a readable cursor without `operator->` whose dereference yields a
value, not a reference, from which the value type can be constructed. -/
def value_yielding_arrow_traits : ArrowTraits where
  const_indirectly_readable := true
  has_const_arrow := false
  reference_is_reference := false
  value_constructible_from_reference := true

/-- A cursor over the values `0, 1, 2, ...` stored at the addresses
`1000, 1001, ...`. -/
def counting_arrow_ops : ArrowOps Nat Nat Nat where
  deref := fun i => i
  addressof_deref := fun i => 1000 + i

/-- A random-access, size-known sequence over the list `xs` whose boundary is a
cursor too: the position `xs.length`. -/
def homogeneous_view (xs : List Nat) : View Nat Nat Nat where
  traits := { random_access_range := true, sized_range := true,
              iterator_equality_comparable := true }
  begin_ := 0
  end_ := xs.length
  size := xs.length
  deref := fun i => xs.getD i 0
  next := fun i => i + 1
  advance := fun i n => i + n
  eq_iter_sent := fun i j => decide (i = j)
  eq_sent_iter := fun i j => decide (i = j)
  eq_iter_iter := fun i j => decide (i = j)

/-- The class constraints as a copyable view with one type for cursor and
boundary meets them. -/
def homogeneous_constraints : common_view.ClassConstraints where
  view := true
  common_range := true
  copyable_iterator := true

/-- The class constraints as a copyable view with distinct cursor and boundary
types meets them. -/
def heterogeneous_constraints : common_view.ClassConstraints where
  view := true
  common_range := false
  copyable_iterator := true

/-- The concepts of a pointer: contiguous, hence random-access. -/
def pointer_concepts : counted.CursorConcepts where
  contiguous_iterator := true
  random_access_iterator := true
  input_or_output_iterator := true
  difference_convertible := true

/-- Pointers as addresses: `to_address` is the address itself. -/
def pointer_ops : counted.CursorOps Nat where
  to_address := fun p => p
  advance := fun p n => (p + n).toNat

end Examples

namespace Examples

/-- The concepts of a random-access cursor that is not contiguous. -/
def random_access_concepts : counted.CursorConcepts where
  contiguous_iterator := false
  random_access_iterator := true
  input_or_output_iterator := true
  difference_convertible := true

/-- The concepts of a forward-only cursor. -/
def forward_only_concepts : counted.CursorConcepts where
  contiguous_iterator := false
  random_access_iterator := false
  input_or_output_iterator := true
  difference_convertible := true

/-- A cursor over the values `0, 10, 20, ...`: position `i` reads `10 * i`. -/
def tens_ops : counted.TraversalOps Nat Nat where
  deref := fun i => 10 * i
  next := fun i => i + 1
  eq := fun i j => decide (i = j)

end Examples

namespace Examples

/-- An input cursor over the list `xs`: the cursor is a position, and
`it != last` holds until position `xs.length`. -/
def list_input (xs : List Int) : ranges.InputOps Nat Unit Int where
  ne := fun i _ => decide (i ≠ xs.length)
  next := fun i => i + 1
  deref := fun i => xs.getD i 0

/-- The comparison `ranges::less` on the integers. -/
def int_less : Int → Int → Bool := fun x y => decide (x < y)

/-- The transform view of the test `subscript.pass.cpp`: the buffer `0..7` and the
function that adds one. -/
def plus_one_view : transform_view Int Int where
  base_ := [0, 1, 2, 3, 4, 5, 6, 7]
  func_ := fun x => x + 1

end Examples

namespace Examples

open common_iterator

/-- Traits of a multi-pass cursor. -/
def forward_traits : IterTraits where
  forward_iterator := true
  postfix_can_reference := true
  indirectly_readable := true
  value_constructible_from_reference := true
  value_move_constructible := true
  iterator_category := some iterator_tag.forward_iterator_tag

/-- Positions compared with a boundary that stands at position `5`. -/
def position_eq : IterEq Nat Unit Nat Unit where
  iter_sent := fun i _ => decide (i = 5)
  sent_iter := fun _ i => decide (i = 5)
  iter_iter := fun i j => decide (i = j)

/-- Positions with a boundary that stands at position `5`: the differences
of the positions. -/
def position_distance : SizedOps Nat Unit Nat Unit where
  iter_iter := fun i j => (i : Int) - (j : Int)
  iter_sent := fun i _ => (i : Int) - 5
  sent_iter := fun _ j => 5 - (j : Int)

/-- The operations of the multi-pass cursor over `0, 1, 2, ...` with a boundary
at position `5`. -/
def position_environment : Environment Nat Unit Nat Unit Nat Nat Unit where
  traits := forward_traits
  arrow_traits := value_yielding_arrow_traits
  ops := counting_ops
  arrow_ops := counting_arrow_ops
  move_from := fun i => i
  swap_at := fun _ _ m => m
  equality_comparable := true
  eq_ops := position_eq
  sized_ops := position_distance

end Examples

namespace Examples

/-- A cursor over the values stored at consecutive addresses, address `a`
holding `10 * a`: the cursor is the address. -/
def tens_memory : Nat → Nat := fun a => 10 * a

/-- The concepts of a range with distinct cursor and boundary types whose cursor
type cannot be copied. -/
def move_only_concepts : views.RangeConcepts where
  common_range := false
  copyable_iterator := false

end Examples

namespace Examples

/-- Traits of a cursor type that models `forward_iterator` and whose own
`iterator_category` is the input tag, as a multi-pass cursor whose dereference
yields a value has. -/
def forward_concept_input_category_traits : common_iterator.IterTraits where
  forward_iterator := true
  postfix_can_reference := true
  indirectly_readable := true
  value_constructible_from_reference := true
  value_move_constructible := true
  iterator_category := some iterator_tag.input_iterator_tag

/-- A resource that hands out the addresses `1000, 1001, ...`: its state is the
number of allocations made. -/
def bump_resource : ResourceOps Nat where
  allocate := fun made _ _ => (1000 + made, made + 1)

end Examples

/-! ## Theorems -/

/-- A cursor holder against a boundary holder of the same instantiation compares
as the raw cursor against the raw boundary, in both overloads of `operator==`. -/
theorem common_iterator.eq_iter_against_sent {I S : Type} (ops : common_iterator.IterEq I S I S)
    (c : I) (b : S) :
    common_iterator.operator_eq ops (common_iterator.of_iter c) (common_iterator.of_sent b)
        = some (ops.iter_sent c b)
      ∧ common_iterator.operator_eq_not_comparable ops.toSentinelEq (common_iterator.of_iter c)
          (common_iterator.of_sent b) = some (ops.iter_sent c b) := by
  constructor
  · simp [common_iterator.operator_eq, common_iterator.of_iter, common_iterator.of_sent,
      variant_like.valueless_by_exception, variant_like.holds_first, variant_like.holds_second,
      variant_like.contains, variant_like.first_, variant_like.second_]
  · simp [common_iterator.operator_eq_not_comparable, common_iterator.of_iter,
      common_iterator.of_sent, variant_like.valueless_by_exception, variant_like.contains,
      variant_like.first_, variant_like.second_]

/-- A loop over total cursor operations whose stop test first holds after `n`
increments visits the `n` elements before that position when it has fuel for
`n + 1` tests, and runs out of fuel otherwise. -/
theorem visit_loop_of_first_stop {C α : Type} (stop : C → Bool) (d : C → α) (nx : C → C) :
    ∀ (n fuel : Nat) (i : C), stop (nx^[n] i) = true →
      (∀ k, k < n → stop (nx^[k] i) = false) →
      visit_loop (fun it => some (stop it)) (fun it => some (d it)) (fun it => some (nx it))
          fuel i
        = if n < fuel then some ((List.range n).map (fun k => d (nx^[k] i))) else none := by
  intro n
  induction n with
  | zero =>
    intro fuel i h0 _
    cases fuel with
    | zero => simp [visit_loop]
    | succ fuel =>
      have h0' : stop i = true := by simpa using h0
      simp [visit_loop, h0']
  | succ n ih =>
    intro fuel i hn hlt
    cases fuel with
    | zero => simp [visit_loop]
    | succ fuel =>
      have h0 : stop i = false := by simpa using hlt 0 (Nat.succ_pos n)
      have hn' : stop (nx^[n] (nx i)) = true := by
        simpa [Function.iterate_succ_apply] using hn
      have hlt' : ∀ k, k < n → stop (nx^[k] (nx i)) = false := by
        intro k hk
        simpa [Function.iterate_succ_apply] using hlt (k + 1) (Nat.succ_lt_succ hk)
      have hrec := ih fuel (nx i) hn' hlt'
      simp only [visit_loop, Option.some_bind, h0, Bool.false_eq_true, if_false, hrec]
      by_cases hnf : n < fuel
      · simp [hnf, List.range_succ_eq_map, List.map_map, Function.comp_def,
          Function.iterate_succ_apply]
      · simp [hnf]

/-- Stepping `common_iterator`s from a cursor holder against a boundary holder
performs, test for test and step for step, the traversal of the raw cursor
against the raw boundary. -/
theorem visit_loop_common_iterator {I S α : Type} (cv : common_view I S α) :
    ∀ (fuel : Nat) (i : I),
      visit_loop (fun it => cv.iterator_eq it (common_iterator.of_sent cv.base_.end_))
          (common_iterator.operator_deref cv.base_.iter_ops)
          (common_iterator.operator_pre_increment cv.base_.iter_ops) fuel
          (common_iterator.of_iter i)
        = visit_loop (fun it => some (cv.base_.eq_iter_sent it cv.base_.end_))
            (fun it => some (cv.base_.deref it)) (fun it => some (cv.base_.next it)) fuel i := by
  intro fuel
  induction fuel with
  | zero => intro i; simp [visit_loop]
  | succ fuel ih =>
    intro i
    have heq : cv.iterator_eq (common_iterator.of_iter i)
        (common_iterator.of_sent cv.base_.end_) = some (cv.base_.eq_iter_sent i cv.base_.end_) := by
      unfold common_view.iterator_eq
      split
      · exact (common_iterator.eq_iter_against_sent cv.base_.iter_eq i cv.base_.end_).1
      · exact (common_iterator.eq_iter_against_sent cv.base_.iter_eq i cv.base_.end_).2
    have hderef : common_iterator.operator_deref cv.base_.iter_ops
        (common_iterator.of_iter i : common_iterator I S) = some (cv.base_.deref i) := by
      simp [common_iterator.operator_deref, common_iterator.of_iter, variant_like.holds_first,
        variant_like.contains, variant_like.first_, View.iter_ops]
    have hinc : common_iterator.operator_pre_increment cv.base_.iter_ops
        (common_iterator.of_iter i : common_iterator I S)
          = some (common_iterator.of_iter (cv.base_.next i)) := by
      simp [common_iterator.operator_pre_increment, common_iterator.of_iter,
        variant_like.holds_first, variant_like.contains, variant_like.first_, View.iter_ops]
    simp only [visit_loop, heq, hderef, hinc, Option.some_bind, ih]

namespace common_view

variable {I S α : Type}

/-- C1: for a sequence of `n` elements, stepping the closed view from `begin()`
with `++` until the cursor compares equal to `end()` visits exactly the elements,
in the same order, that stepping the underlying sequence from its `begin` until
it compares equal to its `end` visits; with fuel for `n + 1` tests both
traversals finish with the `n` elements at the positions `0, ..., n - 1`. Where
the view is random-access and size-known, so that raw cursors are returned, the
sequence is taken to meet the semantic requirements of those two concepts. -/
theorem elements_eq_base_elements (v : View I S α) (n : Nat) (hlen : v.has_length n)
    (hsem : (v.traits.random_access_range && v.traits.sized_range) = true →
      v.models_random_access_sized n) (fuel : Nat) :
    (common_view.mk v).elements fuel = v.elements fuel
      ∧ (n < fuel → (common_view.mk v).elements fuel
          = some ((List.range n).map (fun k => v.deref (v.next^[k] v.begin_)))) := by
  have hbase : v.elements fuel
      = if n < fuel then some ((List.range n).map (fun k => v.deref (v.next^[k] v.begin_)))
        else none :=
    visit_loop_of_first_stop (fun it => v.eq_iter_sent it v.end_) v.deref v.next n fuel
      v.begin_ hlen.1 hlen.2
  have hsame : (common_view.mk v).elements fuel = v.elements fuel := by
    by_cases hra : (v.traits.random_access_range && v.traits.sized_range) = true
    · obtain ⟨hsize, hadv, heq⟩ := hsem hra
      rw [hsize] at hadv
      have hraw : (common_view.mk v).elements fuel
          = visit_loop (fun it => some (v.eq_iter_iter it (v.next^[n] v.begin_)))
              (fun it => some (v.deref it)) (fun it => some (v.next it)) fuel v.begin_ := by
        simp [elements, begin_, end_, hra, hadv, hsize]
      rw [hraw, hbase]
      exact visit_loop_of_first_stop (fun it => v.eq_iter_iter it (v.next^[n] v.begin_))
        v.deref v.next n fuel v.begin_ (by simpa using heq n (Nat.le_refl n))
        (fun k hk => by simpa [Nat.ne_of_lt hk] using heq k (Nat.le_of_lt hk))
    · have hwrapped : (common_view.mk v).elements fuel
          = visit_loop (fun it => (common_view.mk v).iterator_eq it
                (common_iterator.of_sent v.end_))
              (common_iterator.operator_deref v.iter_ops)
              (common_iterator.operator_pre_increment v.iter_ops) fuel
              (common_iterator.of_iter v.begin_) := by
        simp [elements, begin_, end_, hra]
      rw [hwrapped]
      exact visit_loop_common_iterator (common_view.mk v) fuel v.begin_
  refine ⟨hsame, fun hfuel => ?_⟩
  rw [hsame, hbase, if_pos hfuel]

/-- Instances of C1 on the sequence `10, 20, 30, 40, 50`: once offered as a
single-pass sequence, so that `common_iterator`s are stepped, and once as a
random-access, size-known one, so that raw cursors are stepped. -/
theorem elements_eq_base_elements_witness :
    (Examples.list_view [10, 20, 30, 40, 50]).has_length 5
      ∧ ((common_view.mk (Examples.list_view [10, 20, 30, 40, 50])).elements 6
          = (Examples.list_view [10, 20, 30, 40, 50]).elements 6
        ∧ (5 < 6 → (common_view.mk (Examples.list_view [10, 20, 30, 40, 50])).elements 6
          = some [10, 20, 30, 40, 50]))
      ∧ (Examples.sized_list_view [10, 20, 30, 40, 50]).models_random_access_sized 5
      ∧ ((common_view.mk (Examples.sized_list_view [10, 20, 30, 40, 50])).elements 6
          = (Examples.sized_list_view [10, 20, 30, 40, 50]).elements 6
        ∧ (5 < 6 → (common_view.mk (Examples.sized_list_view [10, 20, 30, 40, 50])).elements 6
          = some [10, 20, 30, 40, 50])) :=
  have hlen : (Examples.list_view [10, 20, 30, 40, 50]).has_length 5 := by
    unfold View.has_length
    decide
  have hlen2 : (Examples.sized_list_view [10, 20, 30, 40, 50]).has_length 5 := by
    unfold View.has_length
    decide
  have hsem : (Examples.sized_list_view [10, 20, 30, 40, 50]).models_random_access_sized 5 := by
    unfold View.models_random_access_sized
    decide
  ⟨hlen,
    elements_eq_base_elements (Examples.list_view [10, 20, 30, 40, 50]) 5 hlen
      (fun h => absurd h (by decide)) 6,
    hsem,
    elements_eq_base_elements (Examples.sized_list_view [10, 20, 30, 40, 50]) 5 hlen2
      (fun _ => hsem) 6⟩

end common_view

namespace common_iterator

variable {I S I2 S2 V R A RV M : Type}

/-- The claim C2 fails for a single-pass cursor whose dereference yields a value,
not a reference, whose `it++` returns `void` and whose value type is not
move-constructible: the postfix proxy is not selected, `cur++` on the cursor over
`0..7` at position `0` forwards to the cursor's own `it++` and returns its
`void`; no proxy holding the value `0` is returned. -/
theorem post_increment_single_pass_counterexample :
    Examples.immovable_value_traits.forward_iterator = false
      ∧ use_postfix_proxy Examples.immovable_value_traits = false
      ∧ operator_post_increment Examples.immovable_value_traits Examples.counting_ops
          (of_iter 0 : common_iterator Nat Unit)
        = some (PostIncrementResult.forwarded (), of_iter 1)
      ∧ operator_post_increment Examples.immovable_value_traits Examples.counting_ops
          (of_iter 0 : common_iterator Nat Unit)
        ≠ some (PostIncrementResult.proxy ⟨0⟩, of_iter 1) := by
  refine ⟨rfl, rfl, ?_, ?_⟩ <;> decide

/-- C2 (amended): for a cursor-holding unifying cursor over a single-pass cursor
type for which the postfix proxy is selected, `*it++` on the cursor type not
referenceable, the cursor type readable, and its value type constructible from
its reference type and move-constructible, `cur++` returns a proxy whose
dereference is the value that was current before the increment, and leaves `cur`
holding the cursor advanced by exactly one step. -/
theorem post_increment_proxy_yields_previous_value (t : IterTraits) (ops : IterPostOps I V R)
    (c : I) (hsingle : t.forward_iterator = false)
    (hnoref : t.postfix_can_reference = false) (hreadable : t.indirectly_readable = true)
    (hconstructible : t.value_constructible_from_reference = true)
    (hmovable : t.value_move_constructible = true) :
    use_postfix_proxy t = true
      ∧ operator_post_increment t ops (of_iter c : common_iterator I S)
        = some (PostIncrementResult.proxy ⟨ops.deref c⟩, of_iter (ops.next c))
      ∧ postfix_proxy.deref (⟨ops.deref c⟩ : postfix_proxy V) = ops.deref c := by
  have hproxy : use_postfix_proxy t = true := by
    simp [use_postfix_proxy, hnoref, hreadable, hconstructible, hmovable]
  refine ⟨hproxy, ?_, rfl⟩
  simp [operator_post_increment, operator_deref, operator_pre_increment, of_iter,
    variant_like.holds_first, variant_like.contains, variant_like.first_, hsingle, hproxy]

/-- Instance of C2 (amended) on the cursor over `0..7` at position `3`: `*cur++`
is `3` and the cursor then stands at `4`. -/
theorem post_increment_proxy_yields_previous_value_witness :
    Examples.single_pass_traits.forward_iterator = false
      ∧ use_postfix_proxy Examples.single_pass_traits = true
      ∧ operator_post_increment Examples.single_pass_traits Examples.counting_ops
          (of_iter 3 : common_iterator Nat Unit)
        = some (PostIncrementResult.proxy ⟨3⟩, of_iter 4)
      ∧ postfix_proxy.deref (⟨3⟩ : postfix_proxy Nat) = 3 :=
  ⟨rfl,
    post_increment_proxy_yields_previous_value Examples.single_pass_traits
      Examples.counting_ops 3 rfl rfl rfl rfl rfl⟩

/-- C3: for `x` holding a cursor `c` and `y` holding a boundary `b`, of possibly
different instantiations, `x == y` is the raw `c == b` and `y == x` is the raw
`b == c`, in both overloads of `operator==`; hence over a sequence of `n`
elements the holder of the cursor at position `k` equals the holder of the
boundary exactly when `k = n`, and is unequal at every earlier position. -/
theorem eq_cursor_against_boundary (ops : IterEq I S I2 S2) (rops : IterEq I2 S2 I S)
    (c : I) (b : S2) :
    operator_eq ops (of_iter c : common_iterator I S) (of_sent b : common_iterator I2 S2)
        = some (ops.iter_sent c b)
      ∧ operator_eq rops (of_sent b : common_iterator I2 S2) (of_iter c : common_iterator I S)
        = some (rops.sent_iter b c)
      ∧ operator_eq_not_comparable ops.toSentinelEq (of_iter c : common_iterator I S)
          (of_sent b : common_iterator I2 S2) = some (ops.iter_sent c b)
      ∧ operator_eq_not_comparable rops.toSentinelEq (of_sent b : common_iterator I2 S2)
          (of_iter c : common_iterator I S) = some (rops.sent_iter b c)
      ∧ ∀ (α : Type) (v : View I S α) (n : Nat), v.has_length n → ∀ k, k ≤ n →
          operator_eq v.iter_eq (of_iter (v.next^[k] v.begin_)) (of_sent v.end_)
            = some (decide (k = n))
          ∧ operator_eq_not_comparable v.iter_eq.toSentinelEq (of_iter (v.next^[k] v.begin_))
              (of_sent v.end_) = some (decide (k = n)) := by
  refine ⟨?_, ?_, ?_, ?_, ?_⟩
  · simp [operator_eq, of_iter, of_sent, variant_like.valueless_by_exception,
      variant_like.holds_first, variant_like.holds_second, variant_like.contains,
      variant_like.first_, variant_like.second_]
  · simp [operator_eq, of_iter, of_sent, variant_like.valueless_by_exception,
      variant_like.holds_first, variant_like.holds_second, variant_like.contains,
      variant_like.first_, variant_like.second_]
  · simp [operator_eq_not_comparable, of_iter, of_sent, variant_like.valueless_by_exception,
      variant_like.contains, variant_like.first_, variant_like.second_]
  · simp [operator_eq_not_comparable, of_iter, of_sent, variant_like.valueless_by_exception,
      variant_like.contains, variant_like.first_, variant_like.second_]
  · intro α v n hlen k hk
    have hraw : v.eq_iter_sent (v.next^[k] v.begin_) v.end_ = decide (k = n) := by
      rcases Nat.lt_or_eq_of_le hk with hlt | heq
      · rw [hlen.2 k hlt]
        simp [Nat.ne_of_lt hlt]
      · subst heq
        rw [hlen.1]
        simp
    constructor
    · simp [operator_eq, of_iter, of_sent, variant_like.valueless_by_exception,
        variant_like.holds_first, variant_like.holds_second, variant_like.contains,
        variant_like.first_, variant_like.second_, View.iter_eq, hraw]
    · simp [operator_eq_not_comparable, of_iter, of_sent, variant_like.valueless_by_exception,
        variant_like.contains, variant_like.first_, variant_like.second_, View.iter_eq, hraw]

/-- Instance of C3 on the five-element sequence `10, 20, 30, 40, 50`: the holder of
the cursor at position `5` equals the boundary holder, in both overloads. -/
theorem eq_cursor_against_boundary_witness :
    (Examples.list_view [10, 20, 30, 40, 50]).has_length 5
      ∧ operator_eq (Examples.list_view [10, 20, 30, 40, 50]).iter_eq
          (of_iter ((Examples.list_view [10, 20, 30, 40, 50]).next^[5] 0)) (of_sent ())
        = some (decide (5 = 5))
      ∧ operator_eq_not_comparable (Examples.list_view [10, 20, 30, 40, 50]).iter_eq.toSentinelEq
          (of_iter ((Examples.list_view [10, 20, 30, 40, 50]).next^[5] 0)) (of_sent ())
        = some (decide (5 = 5)) :=
  have hlen : (Examples.list_view [10, 20, 30, 40, 50]).has_length 5 := by
    unfold View.has_length
    decide
  ⟨hlen,
    (eq_cursor_against_boundary (Examples.list_view [10, 20, 30, 40, 50]).iter_eq
      (Examples.list_view [10, 20, 30, 40, 50]).iter_eq 0 ()).2.2.2.2 Nat
      (Examples.list_view [10, 20, 30, 40, 50]) 5 hlen 5 (Nat.le_refl 5)⟩

/-- The claim C4 fails when both operands hold cursors: the overload for cursor
types without direct equality answers `true` for any two held cursors, although
every cursor-against-boundary comparison of these types is `false`. -/
theorem eq_not_comparable_both_cursors_counterexample :
    operator_eq_not_comparable Examples.never_equal
        (of_iter 0 : common_iterator Nat Unit) (of_iter 1 : common_iterator Nat Unit) = some true
      ∧ (∀ c b, Examples.never_equal.iter_sent c b = false)
      ∧ (∀ b c, Examples.never_equal.sent_iter b c = false) := by
  refine ⟨by decide, fun _ _ => rfl, fun _ _ => rfl⟩

/-- C4 (amended): in the overload for cursor types without direct equality, two
non-valueless operands whose discriminants differ are compared by the raw
cursor-against-boundary comparison of their payloads (first against second, or
second against first), and two operands with the same discriminant, both cursors
or both boundaries, compare `true` without their payloads being examined. -/
theorem eq_not_comparable_by_discriminant (ops : SentinelEq I S I2 S2) :
    (∀ (c : I) (b : S2), operator_eq_not_comparable ops (of_iter c : common_iterator I S)
        (of_sent b : common_iterator I2 S2) = some (ops.iter_sent c b))
      ∧ (∀ (b : S) (c : I2), operator_eq_not_comparable ops (of_sent b : common_iterator I S)
        (of_iter c : common_iterator I2 S2) = some (ops.sent_iter b c))
      ∧ (∀ (c : I) (d : I2), operator_eq_not_comparable ops (of_iter c : common_iterator I S)
        (of_iter d : common_iterator I2 S2) = some true)
      ∧ (∀ (a : S) (b : S2), operator_eq_not_comparable ops (of_sent a : common_iterator I S)
        (of_sent b : common_iterator I2 S2) = some true) := by
  refine ⟨?_, ?_, ?_, ?_⟩ <;> intro a b <;>
    simp [operator_eq_not_comparable, of_iter, of_sent, variant_like.valueless_by_exception,
      variant_like.contains, variant_like.first_, variant_like.second_]

/-- C5: two operands that both hold a boundary compare `true` whatever the two
boundary values are, in both overloads of `operator==`. -/
theorem eq_both_boundaries (ops : IterEq I S I2 S2) (a : S) (b : S2) :
    operator_eq ops (of_sent a : common_iterator I S) (of_sent b : common_iterator I2 S2)
        = some true
      ∧ operator_eq_not_comparable ops.toSentinelEq (of_sent a : common_iterator I S)
          (of_sent b : common_iterator I2 S2) = some true := by
  constructor
  · simp [operator_eq, of_sent, variant_like.valueless_by_exception,
      variant_like.holds_second, variant_like.contains]
  · simp [operator_eq_not_comparable, of_sent, variant_like.valueless_by_exception,
      variant_like.contains]

/-- C6: two operands that both hold cursors of equality-comparable cursor types
compare as the raw comparison of the two held cursors. -/
theorem eq_both_cursors (ops : IterEq I S I2 S2) (c1 : I) (c2 : I2) :
    operator_eq ops (of_iter c1 : common_iterator I S) (of_iter c2 : common_iterator I2 S2)
        = some (ops.iter_iter c1 c2)
      ∧ (operator_eq ops (of_iter c1 : common_iterator I S) (of_iter c2 : common_iterator I2 S2)
          = some true ↔ ops.iter_iter c1 c2 = true) := by
  have h : operator_eq ops (of_iter c1 : common_iterator I S)
      (of_iter c2 : common_iterator I2 S2) = some (ops.iter_iter c1 c2) := by
    simp [operator_eq, of_iter, variant_like.valueless_by_exception,
      variant_like.holds_first, variant_like.holds_second, variant_like.contains,
      variant_like.first_]
  exact ⟨h, by rw [h]; simp⟩

/-- C7: for non-valueless operands, `x - y` is `0` when both hold boundaries,
and otherwise the raw difference of the two payloads: cursor minus cursor, cursor
minus boundary, or boundary minus cursor. -/
theorem minus_by_discriminant (ops : SizedOps I S I2 S2) :
    (∀ (a : S) (b : S2), operator_minus ops (of_sent a : common_iterator I S)
        (of_sent b : common_iterator I2 S2) = some 0)
      ∧ (∀ (c : I) (d : I2), operator_minus ops (of_iter c : common_iterator I S)
        (of_iter d : common_iterator I2 S2) = some (ops.iter_iter c d))
      ∧ (∀ (c : I) (b : S2), operator_minus ops (of_iter c : common_iterator I S)
        (of_sent b : common_iterator I2 S2) = some (ops.iter_sent c b))
      ∧ (∀ (b : S) (c : I2), operator_minus ops (of_sent b : common_iterator I S)
        (of_iter c : common_iterator I2 S2) = some (ops.sent_iter b c)) := by
  refine ⟨?_, ?_, ?_, ?_⟩ <;> intro a b <;>
    simp [operator_minus, of_iter, of_sent, variant_like.valueless_by_exception,
      variant_like.holds_first, variant_like.holds_second, variant_like.contains,
      variant_like.first_, variant_like.second_]

/-- C8: when the boundary `b` is `n` elements past the cursor `c` (the raw sized
difference `b - c` is `n`), the distance from the holder of `c` to the holder of
`b`, computed as `y - x`, is `n`; and the distance between two boundary holders
is `0`. -/
theorem distance_begin_to_boundary (ops : SizedOps I S I S) (c : I) (b : S) (n : Nat)
    (hsized : ops.sent_iter b c = (n : Int)) :
    operator_minus ops (of_sent b : common_iterator I S) (of_iter c : common_iterator I S)
        = some (n : Int)
      ∧ ∀ b1 b2 : S, operator_minus ops (of_sent b1 : common_iterator I S)
          (of_sent b2 : common_iterator I S) = some 0 := by
  constructor
  · simp [operator_minus, of_iter, of_sent, variant_like.valueless_by_exception,
      variant_like.holds_first, variant_like.holds_second, variant_like.contains,
      variant_like.first_, variant_like.second_, hsized]
  · intro b1 b2
    simp [operator_minus, of_sent, variant_like.valueless_by_exception,
      variant_like.holds_second, variant_like.contains]

/-- Instance of C8 on a five-element sequence stored at addresses `100..104`: the
distance from the begin holder to the boundary holder is `5`. -/
theorem distance_begin_to_boundary_witness :
    Examples.address_distance.sent_iter 105 100 = ((5 : Nat) : Int)
      ∧ operator_minus Examples.address_distance (of_sent 105 : common_iterator Int Int)
          (of_iter 100 : common_iterator Int Int) = some ((5 : Nat) : Int)
      ∧ ∀ b1 b2 : Int, operator_minus Examples.address_distance
          (of_sent b1 : common_iterator Int Int) (of_sent b2 : common_iterator Int Int) = some 0 :=
  ⟨by decide, distance_begin_to_boundary Examples.address_distance 100 105 5 (by decide)⟩

/-- The claim C9 fails for a cursor type that models `forward_iterator` while its
own `iterator_category` is the input tag: the reported `iterator_concept` is
forward, the reported `iterator_category` is input although the cursor type
supports multi-pass traversal. -/
theorem reported_category_counterexample :
    Examples.forward_concept_input_category_traits.forward_iterator = true
      ∧ iterator_concept Examples.forward_concept_input_category_traits
        = iterator_tag.forward_iterator_tag
      ∧ iterator_category Examples.forward_concept_input_category_traits
        = iterator_tag.input_iterator_tag := by
  decide

/-- C9 (amended): the reported tags depend on the traits of the wrapped cursor type only.
`iterator_concept` is forward exactly when the cursor type models
`forward_iterator` and input otherwise; `iterator_category` is forward exactly
when the cursor type's own category derives from the forward tag and input
otherwise; neither is ever bidirectional, random-access or contiguous, also for
a cursor type whose own category is random-access or contiguous. -/
theorem reported_capability (t : IterTraits) :
    (iterator_concept t = iterator_tag.forward_iterator_tag ↔ t.forward_iterator = true)
      ∧ (iterator_concept t = iterator_tag.input_iterator_tag ↔ t.forward_iterator = false)
      ∧ (iterator_category t = iterator_tag.forward_iterator_tag ↔ denotes_forward_iter t = true)
      ∧ (iterator_category t = iterator_tag.input_iterator_tag ↔ denotes_forward_iter t = false)
      ∧ iterator_concept t ≠ iterator_tag.bidirectional_iterator_tag
      ∧ iterator_concept t ≠ iterator_tag.random_access_iterator_tag
      ∧ iterator_concept t ≠ iterator_tag.contiguous_iterator_tag
      ∧ iterator_category t ≠ iterator_tag.bidirectional_iterator_tag
      ∧ iterator_category t ≠ iterator_tag.random_access_iterator_tag
      ∧ iterator_category t ≠ iterator_tag.contiguous_iterator_tag
      ∧ (t.iterator_category = some iterator_tag.random_access_iterator_tag
          ∨ t.iterator_category = some iterator_tag.contiguous_iterator_tag →
            iterator_category t = iterator_tag.forward_iterator_tag) := by
  refine ⟨?_, ?_, ?_, ?_, ?_, ?_, ?_, ?_, ?_, ?_, ?_⟩
  · cases hf : t.forward_iterator <;> simp [iterator_concept, hf]
  · cases hf : t.forward_iterator <;> simp [iterator_concept, hf]
  · cases hd : denotes_forward_iter t <;> simp [iterator_category, hd]
  · cases hd : denotes_forward_iter t <;> simp [iterator_category, hd]
  · cases hf : t.forward_iterator <;> simp [iterator_concept, hf]
  · cases hf : t.forward_iterator <;> simp [iterator_concept, hf]
  · cases hf : t.forward_iterator <;> simp [iterator_concept, hf]
  · cases hd : denotes_forward_iter t <;> simp [iterator_category, hd]
  · cases hd : denotes_forward_iter t <;> simp [iterator_category, hd]
  · cases hd : denotes_forward_iter t <;> simp [iterator_category, hd]
  · rintro (h | h) <;>
      simp [iterator_category, denotes_forward_iter, h, iterator_tag.derived_from_forward]

/-- Instance of C9 (amended) on a cursor type whose own category is contiguous: the
reported category is forward. -/
theorem reported_capability_witness :
    iterator_category
        { Examples.single_pass_traits with
          forward_iterator := true
          iterator_category := some iterator_tag.contiguous_iterator_tag }
      = iterator_tag.forward_iterator_tag :=
  (reported_capability
      { Examples.single_pass_traits with
        forward_iterator := true
        iterator_category := some iterator_tag.contiguous_iterator_tag }).2.2.2.2.2.2.2.2.2.2
    (Or.inr rfl)

/-- The claim C10 fails for a single-pass readable cursor type whose `it++` is not
referenceable and whose value type is not move-constructible: post-increment
forwards to the cursor's own `it++` instead of returning the proxy. -/
theorem post_increment_forwards_counterexample :
    Examples.immovable_value_traits.forward_iterator = false
      ∧ Examples.immovable_value_traits.postfix_can_reference = false
      ∧ operator_post_increment Examples.immovable_value_traits Examples.counting_ops
          (of_iter 3 : common_iterator Nat Unit)
        = some (PostIncrementResult.forwarded (), of_iter 4) := by
  refine ⟨rfl, rfl, ?_⟩
  decide

/-- C10 (amended): post-increment of a cursor-holding unifying cursor selects
(1) copy, advance, return the copy when the cursor type is multi-pass;
(2) otherwise forwards to the cursor's own post-increment when `*it++` on the
cursor type is referenceable, or the cursor type is not readable, or its value
type is not constructible from its reference type or not move-constructible;
(3) otherwise returns the one-shot proxy holding the value read before
advancing. -/
theorem post_increment_by_traits (t : IterTraits) (ops : IterPostOps I V R) (c : I) :
    operator_post_increment t ops (of_iter c : common_iterator I S)
      = if t.forward_iterator then
          some (PostIncrementResult.copy (of_iter c), of_iter (ops.next c))
        else if t.postfix_can_reference || !t.indirectly_readable
            || !t.value_constructible_from_reference || !t.value_move_constructible then
          some (PostIncrementResult.forwarded (ops.post c).1, of_iter (ops.post c).2)
        else
          some (PostIncrementResult.proxy ⟨ops.deref c⟩, of_iter (ops.next c)) := by
  cases hf : t.forward_iterator <;> cases hr : t.postfix_can_reference <;>
    cases hi : t.indirectly_readable <;> cases hc : t.value_constructible_from_reference <;>
    cases hm : t.value_move_constructible <;>
    simp [operator_post_increment, operator_deref, operator_pre_increment, of_iter,
      use_postfix_proxy, variant_like.holds_first, variant_like.contains, variant_like.first_,
      hf, hr, hi, hc, hm]

/-- C11: for a cursor-holding unifying cursor, `operator->` returns (1) the held
cursor when the cursor type has its own member access, (2) otherwise the
address of the referenced element when dereferencing yields a true reference,
(3) otherwise a proxy that stores a copy of the dereferenced value, and the
proxy's `->` points to that stored copy, whose value is `*c`. Where the operator
exists and case (3) applies, the value type is constructible from the reference
type. -/
theorem operator_arrow_by_traits (t : ArrowTraits) (ops : ArrowOps I V A) (c : I) :
    operator_arrow t ops (of_iter c : common_iterator I S)
        = (if t.has_const_arrow then some (ArrowResult.cursor c)
          else if t.reference_is_reference then
            some (ArrowResult.address (ops.addressof_deref c))
          else some (ArrowResult.proxy ⟨ops.deref c⟩))
      ∧ proxy.arrow (⟨ops.deref c⟩ : proxy V) = ops.deref c
      ∧ (operator_arrow_requires t = true → t.has_const_arrow = false →
          t.reference_is_reference = false → t.value_constructible_from_reference = true) := by
  refine ⟨?_, rfl, ?_⟩
  · cases ha : t.has_const_arrow <;> cases hr : t.reference_is_reference <;>
      simp [operator_arrow, of_iter, variant_like.holds_first, variant_like.contains,
        variant_like.first_, ha, hr]
  · intro hreq ha hr
    have h := hreq
    simp [operator_arrow_requires, ha, hr] at h
    exact h.2

/-- Instance of C11 on the value-yielding cursor over `0, 1, 2, ...` at position
`3`: `operator->` returns the proxy that stores `3`. -/
theorem operator_arrow_by_traits_witness :
    operator_arrow_requires Examples.value_yielding_arrow_traits = true
      ∧ operator_arrow Examples.value_yielding_arrow_traits Examples.counting_arrow_ops
          (of_iter 3 : common_iterator Nat Unit) = some (ArrowResult.proxy ⟨3⟩)
      ∧ Examples.value_yielding_arrow_traits.value_constructible_from_reference = true :=
  ⟨rfl,
    (operator_arrow_by_traits Examples.value_yielding_arrow_traits Examples.counting_arrow_ops
      3).1,
    (operator_arrow_by_traits (S := Unit) Examples.value_yielding_arrow_traits
      Examples.counting_arrow_ops 3).2.2 rfl rfl rfl⟩

/-- C12: dereference, member access, pre-increment, post-increment and
`iter_move` pass their assertion exactly when the operand's cursor slot is live:
they fail on every boundary holder and succeed on every cursor holder;
`iter_swap` fails as soon as one of its operands holds a boundary and succeeds
when both hold cursors. -/
theorem traversal_assertions (ops : IterPostOps I V R) (t : IterTraits) (ta : ArrowTraits)
    (aops : ArrowOps I V A) (move_from : I → RV) (swap_at : I → I2 → M → M) :
    (∀ x : common_iterator I S,
        (operator_deref ops.toIterOps x).isSome = x.hold.holds_first
          ∧ (operator_arrow ta aops x).isSome = x.hold.holds_first
          ∧ (operator_pre_increment ops.toIterOps x).isSome = x.hold.holds_first
          ∧ (operator_post_increment t ops x).isSome = x.hold.holds_first
          ∧ (iter_move move_from x).isSome = x.hold.holds_first)
      ∧ (∀ b : S,
        operator_deref ops.toIterOps (of_sent b : common_iterator I S) = none
          ∧ operator_arrow ta aops (of_sent b : common_iterator I S) = none
          ∧ operator_pre_increment ops.toIterOps (of_sent b : common_iterator I S) = none
          ∧ operator_post_increment t ops (of_sent b : common_iterator I S) = none
          ∧ iter_move move_from (of_sent b : common_iterator I S) = none)
      ∧ (∀ c : I,
        operator_deref ops.toIterOps (of_iter c : common_iterator I S) ≠ none
          ∧ operator_arrow ta aops (of_iter c : common_iterator I S) ≠ none
          ∧ operator_pre_increment ops.toIterOps (of_iter c : common_iterator I S) ≠ none
          ∧ operator_post_increment t ops (of_iter c : common_iterator I S) ≠ none
          ∧ iter_move move_from (of_iter c : common_iterator I S) ≠ none)
      ∧ (∀ (x : common_iterator I S) (y : common_iterator I2 S2) (m : M),
        (iter_swap swap_at x y m).isSome = (x.hold.holds_first && y.hold.holds_first))
      ∧ (∀ (b : S) (y : common_iterator I2 S2) (m : M),
        iter_swap swap_at (of_sent b : common_iterator I S) y m = none)
      ∧ (∀ (x : common_iterator I S) (b : S2) (m : M),
        iter_swap swap_at x (of_sent b : common_iterator I2 S2) m = none)
      ∧ (∀ (c : I) (d : I2) (m : M),
        iter_swap swap_at (of_iter c : common_iterator I S) (of_iter d : common_iterator I2 S2) m
          ≠ none) := by
  refine ⟨?_, ?_, ?_, ?_, ?_, ?_, ?_⟩
  · rintro ⟨h⟩
    cases h <;> cases hf : t.forward_iterator <;> cases hp : use_postfix_proxy t <;>
      cases ha : ta.has_const_arrow <;> cases hr : ta.reference_is_reference <;>
      simp [operator_deref, operator_arrow, operator_pre_increment, operator_post_increment,
        iter_move, variant_like.holds_first, variant_like.contains, variant_like.first_,
        hf, hp, ha, hr]
  · intro b
    simp [operator_deref, operator_arrow, operator_pre_increment, operator_post_increment,
      iter_move, of_sent, variant_like.holds_first, variant_like.contains]
  · intro c
    cases hf : t.forward_iterator <;> cases hp : use_postfix_proxy t <;>
      cases ha : ta.has_const_arrow <;> cases hr : ta.reference_is_reference <;>
      simp [operator_deref, operator_arrow, operator_pre_increment, operator_post_increment,
        iter_move, of_iter, variant_like.holds_first, variant_like.contains,
        variant_like.first_, hf, hp, ha, hr]
  · rintro ⟨hx⟩ ⟨hy⟩ m
    cases hx <;> cases hy <;>
      simp [iter_swap, variant_like.holds_first, variant_like.contains, variant_like.first_]
  · intro b y m
    simp [iter_swap, of_sent, variant_like.holds_first, variant_like.contains]
  · rintro ⟨hx⟩ b m
    cases hx <;>
      simp [iter_swap, of_sent, variant_like.holds_first, variant_like.contains]
  · intro c d m
    simp [iter_swap, of_iter, variant_like.holds_first, variant_like.contains,
      variant_like.first_]

/-- C13: constructing from a cursor `c` gives the discriminant `first` with the
payload `c`, constructing from a boundary `b` gives the discriminant `second`
with the payload `b`, and in both cases the other slot is not live. -/
theorem construct_from_cursor_or_boundary (c : I) (b : S) :
    (of_iter c : common_iterator I S).hold.contains = variant_like_state.holds_first
      ∧ (of_iter c : common_iterator I S).hold.first_ = some c
      ∧ (of_iter c : common_iterator I S).hold.second_ = none
      ∧ (of_sent b : common_iterator I S).hold.contains = variant_like_state.holds_second
      ∧ (of_sent b : common_iterator I S).hold.second_ = some b
      ∧ (of_sent b : common_iterator I S).hold.first_ = none :=
  ⟨rfl, rfl, rfl, rfl, rfl, rfl⟩

end common_iterator

namespace common_view

variable {I S Ic Sc α : Type}

/-- C14: when the underlying sequence is random-access and size-known, `begin()`
is the raw cursor `V.begin()` and `end()` is the raw cursor `V.begin() + V.size()`,
no `common_iterator` being built, so that `end() - begin()` is `size()` for a
cursor difference with `(i + n) - i = n`; the const overloads do the same with
the traversal of `const V`. -/
theorem begin_end_raw_of_random_access_sized (v : View I S α)
    (as_const : View I S α → View Ic Sc α) (minus : I → I → Int) (minus_c : Ic → Ic → Int)
    (hminus : ∀ (i : I) (n : Nat), minus (v.advance i n) i = (n : Int))
    (hminus_c : ∀ (i : Ic) (n : Nat), minus_c ((as_const v).advance i n) i = (n : Int)) :
    ((v.traits.random_access_range && v.traits.sized_range) = true →
        (common_view.mk v).begin_ = view_iterator.raw v.begin_
          ∧ (common_view.mk v).end_ = view_iterator.raw (v.advance v.begin_ v.size)
          ∧ (common_view.mk v).size = some (v.size, common_view.mk v)
          ∧ minus (v.advance v.begin_ v.size) v.begin_ = (v.size : Int))
      ∧ (((as_const v).traits.random_access_range && (as_const v).traits.sized_range) = true →
        begin_const as_const (common_view.mk v) = view_iterator.raw (as_const v).begin_
          ∧ end_const as_const (common_view.mk v)
            = view_iterator.raw ((as_const v).advance (as_const v).begin_ (as_const v).size)
          ∧ size_const as_const (common_view.mk v) = some (as_const v).size
          ∧ minus_c ((as_const v).advance (as_const v).begin_ (as_const v).size)
              (as_const v).begin_ = ((as_const v).size : Int)) := by
  constructor
  · intro h
    have hs : v.traits.sized_range = true := (Bool.and_eq_true_iff.mp h).2
    refine ⟨?_, ?_, ?_, hminus v.begin_ v.size⟩
    · simp [begin_, h]
    · simp [end_, h]
    · simp [size, hs]
  · intro h
    have hs : (as_const v).traits.sized_range = true := (Bool.and_eq_true_iff.mp h).2
    refine ⟨?_, ?_, ?_, hminus_c (as_const v).begin_ (as_const v).size⟩
    · simp [begin_const, h]
    · simp [end_const, h]
    · simp [size_const, hs]

/-- Instance of C14 on the random-access, size-known sequence
`10, 20, 30, 40, 50`, whose const traversal is the same: `begin()` is position
`0`, `end()` is position `5`, and their difference is the size `5`. -/
theorem begin_end_raw_of_random_access_sized_witness :
    (common_view.mk (Examples.sized_list_view [10, 20, 30, 40, 50])).begin_
        = view_iterator.raw 0
      ∧ (common_view.mk (Examples.sized_list_view [10, 20, 30, 40, 50])).end_
        = view_iterator.raw 5
      ∧ (common_view.mk (Examples.sized_list_view [10, 20, 30, 40, 50])).size
        = some (5, common_view.mk (Examples.sized_list_view [10, 20, 30, 40, 50]))
      ∧ ((5 : Nat) : Int) - ((0 : Nat) : Int) = ((5 : Nat) : Int)
      ∧ begin_const (fun w => w) (common_view.mk (Examples.sized_list_view [10, 20, 30, 40, 50]))
        = view_iterator.raw 0
      ∧ end_const (fun w => w) (common_view.mk (Examples.sized_list_view [10, 20, 30, 40, 50]))
        = view_iterator.raw 5 :=
  have h := begin_end_raw_of_random_access_sized (Examples.sized_list_view [10, 20, 30, 40, 50])
    (fun w => w) (fun a b => (a : Int) - (b : Int)) (fun a b => (a : Int) - (b : Int))
    (fun i n => by simp [Examples.sized_list_view, Examples.list_view])
    (fun i n => by simp [Examples.sized_list_view, Examples.list_view])
  ⟨(h.1 rfl).1, (h.1 rfl).2.1, (h.1 rfl).2.2.1, (h.1 rfl).2.2.2, (h.2 rfl).1, (h.2 rfl).2.1⟩

/-- C15: when the underlying sequence is not both random-access and size-known,
`begin()` is a `common_iterator` with discriminant `first` and payload
`V.begin()`, and `end()` is a `common_iterator` of the same type with
discriminant `second` and payload `V.end()`. -/
theorem begin_end_common_iterator_otherwise (v : View I S α)
    (h : (v.traits.random_access_range && v.traits.sized_range) = false) :
    (common_view.mk v).begin_ = view_iterator.common (common_iterator.of_iter v.begin_)
      ∧ (common_iterator.of_iter v.begin_ : common_iterator I S).hold.contains
        = variant_like_state.holds_first
      ∧ (common_iterator.of_iter v.begin_ : common_iterator I S).hold.first_ = some v.begin_
      ∧ (common_view.mk v).end_ = view_iterator.common (common_iterator.of_sent v.end_)
      ∧ (common_iterator.of_sent v.end_ : common_iterator I S).hold.contains
        = variant_like_state.holds_second
      ∧ (common_iterator.of_sent v.end_ : common_iterator I S).hold.second_ = some v.end_ := by
  refine ⟨?_, rfl, rfl, ?_, rfl, rfl⟩
  · simp [begin_, h]
  · simp [end_, h]

/-- Instance of C15 on the single-pass sequence `10, 20, 30, 40, 50`. -/
theorem begin_end_common_iterator_otherwise_witness :
    (common_view.mk (Examples.list_view [10, 20, 30, 40, 50])).begin_
        = view_iterator.common (common_iterator.of_iter 0)
      ∧ (common_view.mk (Examples.list_view [10, 20, 30, 40, 50])).end_
        = view_iterator.common (common_iterator.of_sent ()) :=
  have h := begin_end_common_iterator_otherwise (Examples.list_view [10, 20, 30, 40, 50]) rfl
  ⟨h.1, h.2.2.2.1⟩

/-- The claim C16 fails: a random-access, size-known sequence with one type for
cursor and boundary does not meet the class constraints, so that no closed
view over it can be built. -/
theorem construct_homogeneous_counterexample :
    Examples.homogeneous_constraints.common_range = true
      ∧ (Examples.homogeneous_view [10, 20, 30, 40, 50]).traits.random_access_range = true
      ∧ (Examples.homogeneous_view [10, 20, 30, 40, 50]).traits.sized_range = true
      ∧ construct Examples.homogeneous_constraints (Examples.homogeneous_view [10, 20, 30, 40, 50])
        = none := by
  refine ⟨rfl, rfl, rfl, ?_⟩
  simp [construct, class_constraints, Examples.homogeneous_constraints]

/-- C16 (amended): wrapping a random-access, size-known sequence that meets the
class constraints, so that its cursor and boundary types differ, yields a
closed view whose `begin()` and `end()` return raw cursors, not
`common_iterator`s; a sequence with one type for cursor and boundary cannot be
wrapped. -/
theorem construct_random_access_sized (c : ClassConstraints) (v : View I S α)
    (hc : class_constraints c = true)
    (hra : (v.traits.random_access_range && v.traits.sized_range) = true) :
    c.common_range = false
      ∧ construct c v = some (common_view.mk v)
      ∧ (common_view.mk v).begin_ = view_iterator.raw v.begin_
      ∧ (common_view.mk v).end_ = view_iterator.raw (v.advance v.begin_ v.size)
      ∧ ∀ c1 : ClassConstraints, c1.common_range = true →
          construct c1 v = (none : Option (common_view I S α)) := by
  refine ⟨?_, ?_, ?_, ?_, ?_⟩
  · cases hcr : c.common_range
    · rfl
    · simp [class_constraints, hcr] at hc
  · simp [construct, hc]
  · simp [begin_, hra]
  · simp [end_, hra]
  · intro c1 h1
    simp [construct, class_constraints, h1]

/-- Instance of C16 (amended) on the random-access, size-known sequence
`10, 20, 30, 40, 50` with a stateless boundary marker. -/
theorem construct_random_access_sized_witness :
    class_constraints Examples.heterogeneous_constraints = true
      ∧ construct Examples.heterogeneous_constraints
          (Examples.sized_list_view [10, 20, 30, 40, 50])
        = some (common_view.mk (Examples.sized_list_view [10, 20, 30, 40, 50]))
      ∧ (common_view.mk (Examples.sized_list_view [10, 20, 30, 40, 50])).begin_
        = view_iterator.raw 0
      ∧ (common_view.mk (Examples.sized_list_view [10, 20, 30, 40, 50])).end_
        = view_iterator.raw 5 :=
  have h := construct_random_access_sized Examples.heterogeneous_constraints
    (Examples.sized_list_view [10, 20, 30, 40, 50]) rfl rfl
  ⟨rfl, h.2.1, h.2.2.1, h.2.2.2.1⟩

/-- C17: for a size-known underlying sequence, `size()` returns the size of the
owned sequence and leaves the view as it was; `size() const` returns the size
that the owned sequence reports as `const V`. -/
theorem size_forwards_base_size (v : View I S α) (as_const : View I S α → View Ic Sc α) :
    (v.traits.sized_range = true →
        (common_view.mk v).size = some (v.size, common_view.mk v))
      ∧ ((as_const v).traits.sized_range = true →
        size_const as_const (common_view.mk v) = some (as_const v).size) := by
  constructor
  · intro h
    simp [size, h]
  · intro h
    simp [size_const, h]

/-- Instance of C17 on the size-known sequence `10, 20, 30, 40, 50`, whose const
traversal is the same: both overloads return `5`. -/
theorem size_forwards_base_size_witness :
    (common_view.mk (Examples.sized_list_view [10, 20, 30, 40, 50])).size
        = some (5, common_view.mk (Examples.sized_list_view [10, 20, 30, 40, 50]))
      ∧ size_const (fun w => w) (common_view.mk (Examples.sized_list_view [10, 20, 30, 40, 50]))
        = some 5 :=
  ⟨(size_forwards_base_size (Examples.sized_list_view [10, 20, 30, 40, 50]) (fun w => w)).1 rfl,
    (size_forwards_base_size (Examples.sized_list_view [10, 20, 30, 40, 50]) (fun w => w)).2 rfl⟩

/-- C18: for every underlying sequence `v`, `base()` of the closed view built
from `v` is `v`: the const-lvalue overload returns it as a copy and leaves the
view as it was, and the rvalue overload returns the owned sequence. -/
theorem base_returns_owned_sequence (v : View I S α) :
    base_const true (common_view.mk v) = some (v, common_view.mk v)
      ∧ base_rvalue (common_view.mk v) = v
      ∧ ∀ c : ClassConstraints, class_constraints c = true →
          (construct c v).map base_rvalue = some v := by
  refine ⟨rfl, rfl, ?_⟩
  intro c hc
  simp [construct, hc, base_rvalue]

/-- Instance of C18 on the sequence `10, 20, 30, 40, 50` wrapped under the class
constraints. -/
theorem base_returns_owned_sequence_witness :
    class_constraints Examples.heterogeneous_constraints = true
      ∧ (construct Examples.heterogeneous_constraints
            (Examples.list_view [10, 20, 30, 40, 50])).map base_rvalue
          = some (Examples.list_view [10, 20, 30, 40, 50]) :=
  ⟨rfl,
    (base_returns_owned_sequence (Examples.list_view [10, 20, 30, 40, 50])).2.2
      Examples.heterogeneous_constraints rfl⟩

end common_view

namespace counted

variable {It : Type}

/-- The call of `views::counted` on a contiguous cursor is the span of the
converted count. -/
theorem operator_call_contiguous (c : CursorConcepts) (ops : CursorOps It) (it : It) (n : Int)
    (hiter : c.input_or_output_iterator = true) (hconv : c.difference_convertible = true)
    (hcontiguous : c.contiguous_iterator = true) :
    operator_call c ops it n = some (counted_result.span ⟨ops.to_address it, size_t_cast n⟩) := by
  cases hr : c.random_access_iterator <;>
    simp [operator_call, go, go_overload.all, go_overload.requires, go_overload.body,
      hiter, hconv, hcontiguous, hr]

/-- The call of `views::counted` on a cursor that is not contiguous is the offset
pair or the counting wrapper. -/
theorem operator_call_not_contiguous (c : CursorConcepts) (ops : CursorOps It) (it : It)
    (n : Int) (hiter : c.input_or_output_iterator = true)
    (hconv : c.difference_convertible = true) (hcontiguous : c.contiguous_iterator = false) :
    operator_call c ops it n
      = some (if c.random_access_iterator then counted_result.subrange it (ops.advance it n)
          else counted_result.counted_subrange ⟨it, n⟩ default_sentinel_t.default_sentinel) := by
  cases hr : c.random_access_iterator <;>
    simp [operator_call, go, go_overload.all, go_overload.requires, go_overload.body,
      hiter, hconv, hcontiguous, hr]

/-- C19: for every set of cursor concepts under which `views::counted` can be
called, exactly one overload of `__go` is viable, and the call returns the span
when the cursor is contiguous, else the pair `[it, it + count)` when it is
random-access, else the counting wrapper with the default sentinel; the three
constraints are pairwise exclusive and one of them always holds. -/
theorem counted_selects_one_representation (c : CursorConcepts) (ops : CursorOps It) (it : It)
    (count : Int) (hiter : c.input_or_output_iterator = true)
    (hconv : c.difference_convertible = true) :
    (go_overload.all.filter (fun o => o.requires c)).length = 1
      ∧ operator_call c ops it count
        = some (if c.contiguous_iterator then
            counted_result.span ⟨ops.to_address it, size_t_cast count⟩
          else if c.random_access_iterator then
            counted_result.subrange it (ops.advance it count)
          else
            counted_result.counted_subrange ⟨it, count⟩ default_sentinel_t.default_sentinel)
      ∧ (∀ o1 o2 : go_overload, o1.requires c = true → o2.requires c = true → o1 = o2)
      ∧ (∃ o : go_overload, o.requires c = true) := by
  refine ⟨?_, ?_, ?_, ?_⟩
  · cases hc : c.contiguous_iterator <;> cases hr : c.random_access_iterator <;>
      simp [go_overload.all, go_overload.requires, hc, hr]
  · cases hc : c.contiguous_iterator <;> cases hr : c.random_access_iterator <;>
      simp [operator_call, go, go_overload.all, go_overload.requires, go_overload.body,
        hiter, hconv, hc, hr]
  · intro o1 o2 h1 h2
    cases hc : c.contiguous_iterator <;> cases hr : c.random_access_iterator <;>
      cases o1 <;> cases o2 <;> simp_all [go_overload.requires]
  · cases hc : c.contiguous_iterator <;> cases hr : c.random_access_iterator
    · exact ⟨go_overload.counted, by simp [go_overload.requires, hc, hr]⟩
    · exact ⟨go_overload.random_access, by simp [go_overload.requires, hc, hr]⟩
    · exact ⟨go_overload.contiguous, by simp [go_overload.requires, hc]⟩
    · exact ⟨go_overload.contiguous, by simp [go_overload.requires, hc]⟩

/-- Instance of C19 on a pointer and the count `4`: the call returns the span. -/
theorem counted_selects_one_representation_witness :
    Examples.pointer_concepts.input_or_output_iterator = true
      ∧ Examples.pointer_concepts.difference_convertible = true
      ∧ operator_call Examples.pointer_concepts Examples.pointer_ops 1000 4
        = some (counted_result.span ⟨1000, size_t_cast 4⟩) :=
  ⟨rfl, rfl,
    (counted_selects_one_representation Examples.pointer_concepts Examples.pointer_ops 1000 4
      rfl rfl).2.1⟩

/-- C20: for a contiguous cursor and a count `n >= 0` of the signed 64-bit
difference type, `views::counted` is the span that starts at the address of the
cursor and has length exactly `n`, so that its `i`-th element is at that address
plus `i` for every `0 <= i < n`. -/
theorem counted_contiguous_is_span (c : CursorConcepts) (ops : CursorOps It) (it : It) (n : Int)
    (hiter : c.input_or_output_iterator = true) (hconv : c.difference_convertible = true)
    (hcontiguous : c.contiguous_iterator = true) (h0 : 0 ≤ n) (hmax : n < 2 ^ 63) :
    operator_call c ops it n = some (counted_result.span ⟨ops.to_address it, n.toNat⟩)
      ∧ ((n.toNat : Nat) : Int) = n
      ∧ ∀ i : Nat, (i : Int) < n →
          span.element_address ⟨ops.to_address it, n.toNat⟩ i = some (ops.to_address it + i) := by
  have hcast : size_t_cast n = n.toNat := by
    unfold size_t_cast
    rw [Int.emod_eq_of_lt h0 (by omega)]
  refine ⟨?_, Int.toNat_of_nonneg h0, ?_⟩
  · rw [operator_call_contiguous c ops it n hiter hconv hcontiguous, hcast]
  · intro i hi
    have hlt : i < n.toNat := by omega
    simp [span.element_address, hlt]

/-- Instance of C20 on a pointer to address `1000` and the count `4`: the span
has length `4` and its elements are at `1000, 1001, 1002, 1003`. -/
theorem counted_contiguous_is_span_witness :
    operator_call Examples.pointer_concepts Examples.pointer_ops 1000 4
        = some (counted_result.span ⟨1000, 4⟩)
      ∧ span.element_address ⟨1000, 4⟩ 0 = some 1000
      ∧ span.element_address ⟨1000, 4⟩ 1 = some 1001
      ∧ span.element_address ⟨1000, 4⟩ 2 = some 1002
      ∧ span.element_address ⟨1000, 4⟩ 3 = some 1003 :=
  have h := counted_contiguous_is_span Examples.pointer_concepts Examples.pointer_ops 1000 4
    rfl rfl rfl (by decide) (by decide)
  ⟨h.1, h.2.2 0 (by decide), h.2.2 1 (by decide), h.2.2 2 (by decide), h.2.2 3 (by decide)⟩

/-- Stepping a counting wrapper `k` times steps the held cursor `k` times and
takes `k` off the remaining count. -/
theorem counted_iterator_iterate_next {α : Type} (t : TraversalOps It α) (it : It) (n : Int) :
    ∀ k : Nat, (counted_iterator.next t)^[k] (⟨it, n⟩ : counted_iterator It)
      = ⟨t.next^[k] it, n - (k : Int)⟩ := by
  intro k
  induction k with
  | zero => simp
  | succ k ih =>
    rw [Function.iterate_succ_apply', ih, Function.iterate_succ_apply']
    simp only [counted_iterator.next, counted_iterator.mk.injEq, true_and]
    push_cast
    ring

/-- C21: for a random-access cursor that is not contiguous and a count `n >= 0`,
`views::counted` is the pair `[c, c + n)` of two cursors of the one cursor type:
its begin is `c`, its end is `c + n`, and, `c + n` being `c` incremented `n`
times and cursors comparing equal exactly at the same position, stepping it from
begin to end visits exactly the `n` elements at the positions `0, ..., n - 1`
from `c`. -/
theorem counted_random_access_is_subrange {α : Type} (c : CursorConcepts) (ops : CursorOps It)
    (t : TraversalOps It α) (memory : Nat → α) (it : It) (n : Int)
    (hiter : c.input_or_output_iterator = true) (hconv : c.difference_convertible = true)
    (hcontiguous : c.contiguous_iterator = false) (hrandom : c.random_access_iterator = true)
    (h0 : 0 ≤ n) (hadvance : ops.advance it n = t.next^[n.toNat] it)
    (heq : ∀ k, k ≤ n.toNat → t.eq (t.next^[k] it) (t.next^[n.toNat] it) = decide (k = n.toNat)) :
    operator_call c ops it n = some (counted_result.subrange it (ops.advance it n))
      ∧ ((n.toNat : Nat) : Int) = n
      ∧ ∀ fuel, n.toNat < fuel →
          (counted_result.subrange it (ops.advance it n)).elements t memory fuel
              = some ((List.range n.toNat).map (fun k => t.deref (t.next^[k] it)))
            ∧ ((List.range n.toNat).map (fun k => t.deref (t.next^[k] it))).length = n.toNat := by
  refine ⟨?_, Int.toNat_of_nonneg h0, ?_⟩
  · rw [operator_call_not_contiguous c ops it n hiter hconv hcontiguous, hrandom]
    rfl
  · intro fuel hfuel
    refine ⟨?_, by simp⟩
    rw [hadvance]
    have h := visit_loop_of_first_stop (fun x => t.eq x (t.next^[n.toNat] it)) t.deref t.next
      n.toNat fuel it (by simpa using heq n.toNat (Nat.le_refl _))
      (fun k hk => by simpa [Nat.ne_of_lt hk] using heq k (Nat.le_of_lt hk))
    simpa [counted_result.elements, hfuel] using h

/-- Instance of C21 on the random-access cursor over `0, 10, 20, ...` at position
`2` and the count `4`: the pair is `[2, 6)` and holds `20, 30, 40, 50`. -/
theorem counted_random_access_is_subrange_witness :
    operator_call Examples.random_access_concepts Examples.pointer_ops 2 4
        = some (counted_result.subrange 2 6)
      ∧ (counted_result.subrange 2 6).elements Examples.tens_ops (fun _ => 0) 5
        = some [20, 30, 40, 50] :=
  have h := counted_random_access_is_subrange Examples.random_access_concepts
    Examples.pointer_ops Examples.tens_ops (fun _ => 0) 2 4 rfl rfl rfl rfl (by decide) (by decide)
    (by decide)
  ⟨h.1, (h.2.2 5 (by decide)).1⟩

/-- C22: for a cursor that is neither contiguous nor random-access and a count
`n >= 0`, `views::counted` is the counting wrapper that holds a copy of `c` and
the remaining count `n`, paired with the stateless default sentinel; stepping
it visits exactly `n` elements, the first `n` elements reachable from `c` in
order, and then the wrapper compares equal to the sentinel. -/
theorem counted_otherwise_is_counting_wrapper {α : Type} (c : CursorConcepts)
    (ops : CursorOps It) (t : TraversalOps It α) (memory : Nat → α) (it : It) (n : Int)
    (hiter : c.input_or_output_iterator = true) (hconv : c.difference_convertible = true)
    (hcontiguous : c.contiguous_iterator = false) (hrandom : c.random_access_iterator = false)
    (h0 : 0 ≤ n) :
    operator_call c ops it n
        = some (counted_result.counted_subrange ⟨it, n⟩ default_sentinel_t.default_sentinel)
      ∧ (∀ fuel, n.toNat < fuel →
          (counted_result.counted_subrange ⟨it, n⟩ default_sentinel_t.default_sentinel).elements
              t memory fuel
            = some ((List.range n.toNat).map (fun k => t.deref (t.next^[k] it))))
      ∧ ((List.range n.toNat).map (fun k => t.deref (t.next^[k] it))).length = n.toNat
      ∧ counted_iterator.eq_default_sentinel
          ((counted_iterator.next t)^[n.toNat] (⟨it, n⟩ : counted_iterator It))
          default_sentinel_t.default_sentinel = true
      ∧ ∀ k, k < n.toNat → counted_iterator.eq_default_sentinel
          ((counted_iterator.next t)^[k] (⟨it, n⟩ : counted_iterator It))
          default_sentinel_t.default_sentinel = false := by
  have hstop : counted_iterator.eq_default_sentinel
      ((counted_iterator.next t)^[n.toNat] (⟨it, n⟩ : counted_iterator It))
      default_sentinel_t.default_sentinel = true := by
    rw [counted_iterator_iterate_next]
    simp only [counted_iterator.eq_default_sentinel, decide_eq_true_eq]
    omega
  have hbefore : ∀ k, k < n.toNat → counted_iterator.eq_default_sentinel
      ((counted_iterator.next t)^[k] (⟨it, n⟩ : counted_iterator It))
      default_sentinel_t.default_sentinel = false := by
    intro k hk
    rw [counted_iterator_iterate_next]
    simp only [counted_iterator.eq_default_sentinel, decide_eq_false_iff_not]
    omega
  refine ⟨?_, ?_, by simp, hstop, hbefore⟩
  · rw [operator_call_not_contiguous c ops it n hiter hconv hcontiguous, hrandom]
    rfl
  · intro fuel hfuel
    have h := visit_loop_of_first_stop
      (fun ci => counted_iterator.eq_default_sentinel ci default_sentinel_t.default_sentinel)
      (counted_iterator.deref t) (counted_iterator.next t) n.toNat fuel
      (⟨it, n⟩ : counted_iterator It) hstop hbefore
    simp only [counted_result.elements, h, hfuel, if_true]
    congr 1
    apply List.map_congr_left
    intro k _
    rw [counted_iterator_iterate_next]
    rfl

/-- Instance of C22 on the forward-only cursor over `0, 10, 20, ...` at position
`2` and the count `4`: exactly the four elements `20, 30, 40, 50` are visited. -/
theorem counted_otherwise_is_counting_wrapper_witness :
    operator_call Examples.forward_only_concepts Examples.pointer_ops 2 4
        = some (counted_result.counted_subrange ⟨2, 4⟩ default_sentinel_t.default_sentinel)
      ∧ (counted_result.counted_subrange ⟨2, 4⟩ default_sentinel_t.default_sentinel).elements
          Examples.tens_ops (fun _ => 0) 5 = some [20, 30, 40, 50] :=
  have h := counted_otherwise_is_counting_wrapper Examples.forward_only_concepts
    Examples.pointer_ops Examples.tens_ops (fun _ => 0) 2 4 rfl rfl rfl rfl (by decide)
  ⟨h.1, h.2.1 5 (by decide)⟩

/-- A count that is not negative passes every assertion: the call in a build with
assertions returns what `operator_call` returns. -/
theorem operator_call_debug_of_nonneg (c : CursorConcepts) (ops : CursorOps It) (it : It)
    (n : Int) (h0 : 0 ≤ n) : operator_call_debug c ops it n = operator_call c ops it n := by
  unfold operator_call_debug
  cases h : operator_call c ops it n with
  | none => rfl
  | some r => cases r <;> simp [counted_result.debug_assert, h0]

/-- The claim C23 fails for the span: for a pointer and the count `-1` the call
fails no assertion, in a build with assertions either, and returns a span, of
length `2 ^ 64 - 1`. -/
theorem counted_negative_count_counterexample :
    Examples.pointer_concepts.contiguous_iterator = true
      ∧ operator_call Examples.pointer_concepts Examples.pointer_ops 1000 (-1)
        = some (counted_result.span ⟨1000, 2 ^ 64 - 1⟩)
      ∧ operator_call_debug Examples.pointer_concepts Examples.pointer_ops 1000 (-1)
        = some (counted_result.span ⟨1000, 2 ^ 64 - 1⟩) := by
  decide

/-- C23 (amended): a negative count is checked by a debug assertion in the
offset-pair and the counting-wrapper representation, not in the span. For a
count `n < 0` of the signed 64-bit difference type, `views::counted` on a cursor
that is not contiguous, random-access or not, fails the assertion and produces
no sequence; on a contiguous cursor it fails no assertion and returns the span
at the cursor's address whose length is `n` converted to `size_t`, which is
`n + 2 ^ 64`, at least `2 ^ 63`. -/
theorem counted_negative_count_checked_unless_contiguous (c : CursorConcepts)
    (ops : CursorOps It) (it : It) (n : Int) (hiter : c.input_or_output_iterator = true)
    (hconv : c.difference_convertible = true) (hneg : n < 0) (hmin : -(2 ^ 63) ≤ n) :
    (c.contiguous_iterator = false → operator_call_debug c ops it n = none)
      ∧ (c.contiguous_iterator = true →
        operator_call_debug c ops it n
            = some (counted_result.span ⟨ops.to_address it, (n + 2 ^ 64).toNat⟩)
          ∧ operator_call c ops it n
            = some (counted_result.span ⟨ops.to_address it, (n + 2 ^ 64).toNat⟩)
          ∧ 2 ^ 63 ≤ (n + 2 ^ 64).toNat) := by
  constructor
  · intro hc
    have hnot : ¬ (0 ≤ n) := by omega
    unfold operator_call_debug
    rw [operator_call_not_contiguous c ops it n hiter hconv hc]
    cases hr : c.random_access_iterator <;> simp [counted_result.debug_assert, hnot]
  · intro hc
    have hcast : size_t_cast n = (n + 2 ^ 64).toNat := by
      unfold size_t_cast
      have h1 : n % 2 ^ 64 = n + 2 ^ 64 := by
        rw [← Int.add_emod_self]
        exact Int.emod_eq_of_lt (by omega) (by omega)
      rw [h1]
    have hcall := operator_call_contiguous c ops it n hiter hconv hc
    rw [hcast] at hcall
    refine ⟨?_, hcall, by omega⟩
    unfold operator_call_debug
    rw [hcall]
    rfl

/-- Instance of C23 (amended) on the count `-1`: the forward-only and the
random-access cursor at position `2` fail the assertion, the pointer to address
`1000` yields a span. -/
theorem counted_negative_count_checked_unless_contiguous_witness :
    (-1 : Int) < 0 ∧ -(2 ^ 63) ≤ (-1 : Int)
      ∧ operator_call_debug Examples.forward_only_concepts Examples.pointer_ops 2 (-1) = none
      ∧ operator_call_debug Examples.pointer_concepts Examples.pointer_ops 1000 (-1)
        = some (counted_result.span ⟨1000, ((-1 : Int) + 2 ^ 64).toNat⟩) :=
  ⟨by decide, by decide,
    (counted_negative_count_checked_unless_contiguous Examples.forward_only_concepts
      Examples.pointer_ops 2 (-1) rfl rfl (by decide) (by decide)).1 rfl,
    ((counted_negative_count_checked_unless_contiguous Examples.pointer_concepts
      Examples.pointer_ops 1000 (-1) rfl rfl (by decide) (by decide)).2 rfl).1⟩

end counted

namespace execution

/-- C24: `is_execution_policy<T>::value` is `true` for each of the seven policy
types and `false` for every other type `T`, a cv-qualified or reference form of
a policy type included. -/
theorem is_execution_policy_iff (t : cpp_type) :
    (is_execution_policy t = true ↔ t ∈ policy_types)
      ∧ (is_execution_policy t = false ↔ t ∉ policy_types)
      ∧ (∀ p, p ∈ policy_types → is_execution_policy p = true) := by
  have h : ∀ u : cpp_type, is_execution_policy u = true ↔ u ∈ policy_types := by
    intro u
    simp only [is_execution_policy, policy_types, List.mem_cons, List.mem_singleton,
      List.not_mem_nil, or_false]
    constructor
    · intro hu
      split_ifs at hu <;> simp_all
    · intro hu
      rcases hu with hu | hu | hu | hu | hu | hu | hu <;> subst hu <;> decide
  refine ⟨h t, ?_, fun p hp => (h p).2 hp⟩
  rw [← h t]
  cases is_execution_policy t <;> simp

/-- C25: the variable template `is_execution_policy_v<T>` equals
`is_execution_policy<T>::value` for every type `T`. -/
theorem is_execution_policy_v_eq (t : cpp_type) :
    is_execution_policy_v t = is_execution_policy t := by
  unfold is_execution_policy_v is_execution_policy
  rfl

end execution

namespace ranges

variable {Ip Sp α β : Type}

/-- The statement of C26 for `__find_if_impl`, by induction on the number of
elements. -/
theorem find_if_impl_spec (ops : InputOps Ip Sp α) (pred : β → Bool) (proj : α → β) (last : Sp) :
    ∀ (n : Nat) (first : Ip), has_length ops first last n →
      ∃ j, j ≤ n
        ∧ (∀ fuel, j < fuel → find_if_impl ops pred proj last fuel first
            = some (ops.next^[j] first,
                (List.range (Nat.min (j + 1) n)).map (fun k => ops.next^[k] first)))
        ∧ (∀ k, k < j → pred (proj (ops.deref (ops.next^[k] first))) = false)
        ∧ (j < n → pred (proj (ops.deref (ops.next^[j] first))) = true) := by
  intro n
  induction n with
  | zero =>
    intro first hlen
    refine ⟨0, Nat.le_refl 0, ?_, ?_, ?_⟩
    · intro fuel hfuel
      obtain ⟨f, rfl⟩ : ∃ f, fuel = f + 1 := ⟨fuel - 1, by omega⟩
      have h0 : ops.ne first last = false := by simpa using hlen.1
      simp [find_if_impl, h0, Nat.min_def]
    · intro k hk
      omega
    · intro h
      omega
  | succ n ih =>
    intro first hlen
    have h0 : ops.ne first last = true := by simpa using hlen.2 0 (Nat.succ_pos n)
    have htail : has_length ops (ops.next first) last n := by
      constructor
      · simpa [Function.iterate_succ_apply] using hlen.1
      · intro k hk
        simpa [Function.iterate_succ_apply] using hlen.2 (k + 1) (Nat.succ_lt_succ hk)
    cases hp : pred (proj (ops.deref first)) with
    | true =>
      refine ⟨0, Nat.zero_le _, ?_, ?_, ?_⟩
      · intro fuel hfuel
        obtain ⟨f, rfl⟩ : ∃ f, fuel = f + 1 := ⟨fuel - 1, by omega⟩
        have hmin : Nat.min (0 + 1) (n + 1) = 1 := by
          simp [Nat.min_def]
        simp [find_if_impl, h0, hp, hmin]
      · intro k hk
        omega
      · intro _
        simpa using hp
    | false =>
      obtain ⟨j, hj, hrun, hnone, hmatch⟩ := ih (ops.next first) htail
      refine ⟨j + 1, Nat.succ_le_succ hj, ?_, ?_, ?_⟩
      · intro fuel hfuel
        obtain ⟨f, rfl⟩ : ∃ f, fuel = f + 1 := ⟨fuel - 1, by omega⟩
        have hmin : Nat.min (j + 1 + 1) (n + 1) = Nat.min (j + 1) n + 1 := by
          simp only [Nat.min_def]
          split_ifs <;> omega
        simp [find_if_impl, h0, hp, hrun f (by omega), hmin, List.range_succ_eq_map,
          List.map_map, Function.comp_def, Function.iterate_succ_apply]
      · intro k hk
        cases k with
        | zero => simpa using hp
        | succ k =>
          simpa [Function.iterate_succ_apply] using hnone k (by omega)
      · intro hlt
        simpa [Function.iterate_succ_apply] using hmatch (by omega)

/-- The claim C26 fails for the range overload called on a range that is not
borrowed: over the sequence `4, 8, 15, 16, 23` with the predicate "is odd", the
cursor overload returns position `2`, the range overload returns `dangling`, no
position, after the same three invocations of the predicate. -/
theorem find_if_dangling_counterexample :
    find_if (Examples.list_input [4, 8, 15, 16, 23]) 0 () (fun x : Int => decide (x % 2 = 1))
        (fun x => x) 6 = some (2, [0, 1, 2])
      ∧ find_if_range false (Examples.list_input [4, 8, 15, 16, 23]) ⟨0, ()⟩
          (fun x : Int => decide (x % 2 = 1)) (fun x => x) 6
        = some (borrowed_iterator.dangling, [0, 1, 2])
      ∧ find_if_range false (Examples.list_input [4, 8, 15, 16, 23]) ⟨0, ()⟩
          (fun x : Int => decide (x % 2 = 1)) (fun x => x) 6
        ≠ some (borrowed_iterator.iterator 2, [0, 1, 2]) := by
  decide

/-- C26 (amended): for a sequence `[first, last)` of `n` elements, a predicate
and a projection, let `j` be the first position whose projected element
satisfies the predicate, or `n`, the position of the cursor that compares equal
to `last`, when no element does. The cursor overload of `find_if` returns the
cursor at position `j`; the range overload returns that cursor when the range is
borrowed and `dangling` when it is not. No element before position `j` satisfies
the predicate, and each overload invokes the predicate at the positions up to
and including `j` only, never at a later one. -/
theorem find_if_returns_first_match (ops : InputOps Ip Sp α) (pred : β → Bool) (proj : α → β)
    (first : Ip) (last : Sp) (n : Nat) (hlen : has_length ops first last n) :
    ∃ j, j ≤ n
      ∧ (∀ fuel, j < fuel →
          find_if ops first last pred proj fuel
              = some (ops.next^[j] first,
                  (List.range (Nat.min (j + 1) n)).map (fun k => ops.next^[k] first))
            ∧ find_if_range true ops ⟨first, last⟩ pred proj fuel
              = some (borrowed_iterator.iterator (ops.next^[j] first),
                  (List.range (Nat.min (j + 1) n)).map (fun k => ops.next^[k] first))
            ∧ find_if_range false ops ⟨first, last⟩ pred proj fuel
              = some (borrowed_iterator.dangling,
                  (List.range (Nat.min (j + 1) n)).map (fun k => ops.next^[k] first)))
      ∧ (∀ k, k < j → pred (proj (ops.deref (ops.next^[k] first))) = false)
      ∧ (j < n → pred (proj (ops.deref (ops.next^[j] first))) = true)
      ∧ (j = n → ops.ne (ops.next^[j] first) last = false
          ∧ ∀ k, k < n → pred (proj (ops.deref (ops.next^[k] first))) = false) := by
  obtain ⟨j, hj, hrun, hnone, hmatch⟩ := find_if_impl_spec ops pred proj last n first hlen
  refine ⟨j, hj, ?_, hnone, hmatch, ?_⟩
  · intro fuel hfuel
    refine ⟨hrun fuel hfuel, ?_, ?_⟩
    · simp only [find_if_range, hrun fuel hfuel, Option.map_some']
      rfl
    · simp only [find_if_range, hrun fuel hfuel, Option.map_some']
      rfl
  · intro hjn
    subst hjn
    exact ⟨hlen.1, hnone⟩

/-- C27: `ranges::min(a, b, comp, proj)` returns `b` when
`comp(proj(b), proj(a))` holds and `a` otherwise; the result is one of the two
arguments, neither argument compares less than it when `comp` is a strict weak
order, and for equivalent arguments the first argument `a` is returned. -/
theorem min_values_spec (comp : β → β → Bool) (proj : α → β) (a b : α) :
    (comp (proj b) (proj a) = true → min_values comp proj a b = b)
      ∧ (comp (proj b) (proj a) = false → min_values comp proj a b = a)
      ∧ (min_values comp proj a b = a ∨ min_values comp proj a b = b)
      ∧ (strict_weak_order comp →
          comp (proj a) (proj (min_values comp proj a b)) = false
            ∧ comp (proj b) (proj (min_values comp proj a b)) = false)
      ∧ (comp (proj a) (proj b) = false → comp (proj b) (proj a) = false →
          min_values comp proj a b = a) := by
  refine ⟨?_, ?_, ?_, ?_, ?_⟩
  · intro h
    simp [min_values, h]
  · intro h
    simp [min_values, h]
  · cases h : comp (proj b) (proj a) <;> simp [min_values, h]
  · intro hswo
    obtain ⟨hirr, htrans, _⟩ := hswo
    cases h : comp (proj b) (proj a)
    · simp [min_values, h, hirr]
    · have hab : comp (proj a) (proj b) = false := by
        cases hab : comp (proj a) (proj b)
        · rfl
        · have := htrans _ _ _ hab h
          rw [hirr] at this
          exact absurd this (by decide)
      simp [min_values, h, hirr, hab]
  · intro _ h
    simp [min_values, h]

/-- Instance of C27 on the integers with `<` and the identity projection. -/
theorem min_values_spec_witness :
    min_values (fun x y : Int => decide (x < y)) (fun x => x) 3 3 = 3
      ∧ min_values (fun x y : Int => decide (x < y)) (fun x => x) 5 2 = 2 :=
  ⟨(min_values_spec (fun x y : Int => decide (x < y)) (fun x => x) 3 3).2.2.2.2
      (by decide) (by decide),
    (min_values_spec (fun x y : Int => decide (x < y)) (fun x => x) 5 2).1 (by decide)⟩

/-- In a strict weak order, an element below `b` is below any `c` that is not
itself below `b`. -/
theorem strict_weak_order.lt_or_lt {lt : β → β → Bool} (h : strict_weak_order lt)
    {a b : β} (hab : lt a b = true) (c : β) : lt a c = true ∨ lt c b = true := by
  obtain ⟨hirr, htrans, hinc⟩ := h
  cases hac : lt a c
  · cases hcb : lt c b
    · exfalso
      have hca : lt c a = false := by
        cases hca : lt c a
        · rfl
        · rw [htrans _ _ _ hca hab] at hcb
          exact absurd hcb (by decide)
      have hbc : lt b c = false := by
        cases hbc : lt b c
        · rfl
        · rw [htrans _ _ _ hab hbc] at hac
          exact absurd hac (by decide)
      have := (hinc a c b hac hca hcb hbc).1
      rw [hab] at this
      exact absurd this (by decide)
    · exact Or.inr rfl
  · exact Or.inl rfl

/-- One round of the single-pass loop keeps the running result the leftmost
minimal element of the elements read so far. -/
theorem leftmost_minimal_append_one (comp : β → β → Bool) (proj : α → β)
    (hswo : strict_weak_order comp) (pre : List α) (r x : α)
    (h : leftmost_minimal comp proj pre = some r) :
    leftmost_minimal comp proj (pre ++ [x])
      = some (if comp (proj x) (proj r) then x else r) := by
  unfold leftmost_minimal at h ⊢
  rw [List.find?_eq_some] at h ⊢
  obtain ⟨hr, front, back, hsplit, hfront⟩ := h
  have hrmin : ∀ y, y ∈ pre → comp (proj y) (proj r) = false := by
    intro y hy
    have := (List.all_eq_true.mp hr) y hy
    simpa using this
  cases hx : comp (proj x) (proj r)
  · simp only [Bool.false_eq_true, if_false]
    refine ⟨?_, front, back ++ [x], by simp [hsplit], ?_⟩
    · rw [List.all_eq_true]
      intro y hy
      rcases List.mem_append.mp hy with hy | hy
      · simp [hrmin y hy]
      · have : y = x := by simpa using hy
        subst this
        simp [hx]
    · intro z hz
      have hz' := hfront z hz
      simp only [Bool.not_eq_true', List.all_eq_false] at hz' ⊢
      obtain ⟨y, hy, hyz⟩ := hz'
      exact ⟨y, List.mem_append.mpr (Or.inl hy), hyz⟩
  · simp only [if_true]
    refine ⟨?_, pre, [], by simp, ?_⟩
    · rw [List.all_eq_true]
      intro y hy
      rcases List.mem_append.mp hy with hy | hy
      · cases hyx : comp (proj y) (proj x)
        · rfl
        · have := hswo.2.1 _ _ _ hyx hx
          rw [hrmin y hy] at this
          exact absurd this (by decide)
      · have : y = x := by simpa using hy
        subst this
        simp [hswo.1]
    · intro z hz
      simp only [Bool.not_eq_true', List.all_eq_false]
      refine ⟨x, by simp, ?_⟩
      rcases strict_weak_order.lt_or_lt hswo hx (proj z) with h1 | h1
      · simp [h1]
      · rw [hrmin z hz] at h1
        exact absurd h1 (by decide)

/-- The running result after any number of rounds is the leftmost minimal
element of all the elements read. -/
theorem leftmost_minimal_foldl (comp : β → β → Bool) (proj : α → β)
    (hswo : strict_weak_order comp) :
    ∀ (rest pre : List α) (r : α), leftmost_minimal comp proj pre = some r →
      leftmost_minimal comp proj (pre ++ rest)
        = some (rest.foldl (fun acc x => if comp (proj x) (proj acc) then x else acc) r) := by
  intro rest
  induction rest with
  | nil =>
    intro pre r h
    simpa using h
  | cons x rest ih =>
    intro pre r h
    have h1 := leftmost_minimal_append_one comp proj hswo pre r x h
    have h2 := ih (pre ++ [x]) _ h1
    simpa using h2

/-- The single-pass loop computes the fold of its replacement step over the
elements after the first. -/
theorem min_loop_eq_foldl (ops : InputOps Ip Sp α) (comp : β → β → Bool) (proj : α → β)
    (last : Sp) :
    ∀ (m fuel : Nat) (first : Ip) (r : α),
      (∀ k, 1 ≤ k → k ≤ m → ops.ne (ops.next^[k] first) last = true) →
      ops.ne (ops.next^[m + 1] first) last = false → m < fuel →
      min_loop ops comp proj last fuel first r
        = some (((List.range m).map (fun k => ops.deref (ops.next^[k + 1] first))).foldl
            (fun acc x => if comp (proj x) (proj acc) then x else acc) r) := by
  intro m
  induction m with
  | zero =>
    intro fuel first r _ hend hfuel
    obtain ⟨f, rfl⟩ : ∃ f, fuel = f + 1 := ⟨fuel - 1, by omega⟩
    have h1 : ops.ne (ops.next first) last = false := by simpa using hend
    simp [min_loop, h1]
  | succ m ih =>
    intro fuel first r hmid hend hfuel
    obtain ⟨f, rfl⟩ : ∃ f, fuel = f + 1 := ⟨fuel - 1, by omega⟩
    have h1 : ops.ne (ops.next first) last = true := by
      simpa using hmid 1 (Nat.le_refl 1) (by omega)
    have hmid' : ∀ k, 1 ≤ k → k ≤ m → ops.ne (ops.next^[k] (ops.next first)) last = true := by
      intro k hk1 hk
      simpa [Function.iterate_succ_apply] using hmid (k + 1) (by omega) (by omega)
    have hend' : ops.ne (ops.next^[m + 1] (ops.next first)) last = false := by
      simpa [Function.iterate_succ_apply] using hend
    have hrec := ih f (ops.next first)
      (if comp (proj (ops.deref (ops.next first))) (proj r) then ops.deref (ops.next first)
        else r) hmid' hend' (by omega)
    simp only [min_loop, h1, if_true, hrec]
    simp [List.range_succ_eq_map, List.map_map, Function.comp_def,
      Function.iterate_succ_apply]

/-- Instance of C26 (amended) on the sequence `4, 8, 15, 16, 23` with the
predicate "is odd": the search stops at position `2` after invoking the predicate
at the positions `0, 1, 2`. -/
theorem find_if_returns_first_match_witness :
    has_length (Examples.list_input [4, 8, 15, 16, 23]) 0 () 5
      ∧ find_if (Examples.list_input [4, 8, 15, 16, 23]) 0 () (fun x : Int => decide (x % 2 = 1))
          (fun x => x) 6 = some (2, [0, 1, 2])
      ∧ find_if_range true (Examples.list_input [4, 8, 15, 16, 23]) ⟨0, ()⟩
          (fun x : Int => decide (x % 2 = 1)) (fun x => x) 6
        = some (borrowed_iterator.iterator 2, [0, 1, 2])
      ∧ ∃ j, j ≤ 5
        ∧ (∀ k, k < j → (fun x : Int => decide (x % 2 = 1))
            ((Examples.list_input [4, 8, 15, 16, 23]).deref
              ((Examples.list_input [4, 8, 15, 16, 23]).next^[k] 0)) = false)
        ∧ (j < 5 → (fun x : Int => decide (x % 2 = 1))
            ((Examples.list_input [4, 8, 15, 16, 23]).deref
              ((Examples.list_input [4, 8, 15, 16, 23]).next^[j] 0)) = true) :=
  have hlen : has_length (Examples.list_input [4, 8, 15, 16, 23]) 0 () 5 := by
    unfold has_length
    decide
  ⟨hlen, by decide, by decide,
    match find_if_returns_first_match (Examples.list_input [4, 8, 15, 16, 23])
      (fun x : Int => decide (x % 2 = 1)) (fun x => x) 0 () 5 hlen with
    | ⟨j, hj, _, hnone, hmatch, _⟩ => ⟨j, hj, hnone, hmatch⟩⟩

/-- C28: for a non-empty range of `n + 1` elements and a strict weak order
`comp` over `proj`, the single-pass branch of `ranges::min` returns the value of
the leftmost minimal element, which is the value the forward branch returns by
dereferencing `min_element` over the same range. -/
theorem min_range_single_pass_eq_forward (ops : InputOps Ip Sp α) (r : Range Ip Sp)
    (comp : β → β → Bool) (proj : α → β) (n : Nat)
    (hlen : has_length ops r.begin_ r.end_ (n + 1)) (hswo : strict_weak_order comp)
    (fuel : Nat) (hfuel : n + 1 < fuel) :
    ∃ m, min_range false ops r comp proj fuel = some m
      ∧ min_range true ops r comp proj fuel = some m
      ∧ leftmost_minimal comp proj
          ((List.range (n + 1)).map (fun k => ops.deref (ops.next^[k] r.begin_))) = some m := by
  have h0 : ops.ne r.begin_ r.end_ = true := by simpa using hlen.2 0 (Nat.succ_pos n)
  have hloop := min_loop_eq_foldl ops comp proj r.end_ n fuel r.begin_ (ops.deref r.begin_)
    (fun k _ hk => hlen.2 k (by omega)) hlen.1 (by omega)
  have helems : elements ops r.begin_ r.end_ fuel
      = some ((List.range (n + 1)).map (fun k => ops.deref (ops.next^[k] r.begin_))) := by
    have hstop : (fun it => !ops.ne it r.end_) (ops.next^[n + 1] r.begin_) = true := by
      show (!ops.ne (ops.next^[n + 1] r.begin_) r.end_) = true
      rw [hlen.1]
      rfl
    have hgo : ∀ k, k < n + 1 → (fun it => !ops.ne it r.end_) (ops.next^[k] r.begin_) = false := by
      intro k hk
      show (!ops.ne (ops.next^[k] r.begin_) r.end_) = false
      rw [hlen.2 k hk]
      rfl
    have h := visit_loop_of_first_stop (fun it => !ops.ne it r.end_) ops.deref ops.next (n + 1)
      fuel r.begin_ hstop hgo
    rw [if_pos hfuel] at h
    exact h
  have hone : leftmost_minimal comp proj [ops.deref r.begin_] = some (ops.deref r.begin_) := by
    simp [leftmost_minimal, hswo.1]
  have hmin := leftmost_minimal_foldl comp proj hswo
    ((List.range n).map (fun k => ops.deref (ops.next^[k + 1] r.begin_)))
    [ops.deref r.begin_] (ops.deref r.begin_) hone
  have hlist : (List.range (n + 1)).map (fun k => ops.deref (ops.next^[k] r.begin_))
      = [ops.deref r.begin_]
        ++ (List.range n).map (fun k => ops.deref (ops.next^[k + 1] r.begin_)) := by
    simp [List.range_succ_eq_map, List.map_map, Function.comp_def]
  rw [← hlist] at hmin
  have hsingle : min_range false ops r comp proj fuel
      = min_loop ops comp proj r.end_ fuel r.begin_ (ops.deref r.begin_) := by
    simp only [min_range, h0, if_true, Bool.false_eq_true, if_false]
  have hforward : min_range true ops r comp proj fuel
      = leftmost_minimal comp proj
          ((List.range (n + 1)).map (fun k => ops.deref (ops.next^[k] r.begin_))) := by
    simp only [min_range, h0, if_true, deref_min_element, helems, Option.some_bind]
  exact ⟨_, hsingle.trans hloop, hforward.trans hmin, hmin⟩

/-- Instance of C28 on the sequence `7, 3, 9, 3, 5` with `<` on the integers:
both branches return `3`. -/
theorem min_range_single_pass_eq_forward_witness :
    has_length (Examples.list_input [7, 3, 9, 3, 5]) 0 () (4 + 1)
      ∧ min_range false (Examples.list_input [7, 3, 9, 3, 5]) ⟨0, ()⟩ Examples.int_less
          (fun x => x) 6 = some 3
      ∧ min_range true (Examples.list_input [7, 3, 9, 3, 5]) ⟨0, ()⟩ Examples.int_less
          (fun x => x) 6 = some 3
      ∧ ∃ m, min_range false (Examples.list_input [7, 3, 9, 3, 5]) ⟨0, ()⟩ Examples.int_less
            (fun x => x) 6 = some m
          ∧ min_range true (Examples.list_input [7, 3, 9, 3, 5]) ⟨0, ()⟩ Examples.int_less
            (fun x => x) 6 = some m :=
  have hlen : has_length (Examples.list_input [7, 3, 9, 3, 5]) 0 () (4 + 1) := by
    unfold has_length
    decide
  have hswo : strict_weak_order Examples.int_less := by
    refine ⟨?_, ?_, ?_⟩
    · intro a
      simp [Examples.int_less]
    · intro a b c
      simp only [Examples.int_less, decide_eq_true_eq]
      omega
    · intro a b c
      simp only [Examples.int_less, decide_eq_false_iff_not]
      omega
  ⟨hlen, by decide, by decide,
    match min_range_single_pass_eq_forward (Examples.list_input [7, 3, 9, 3, 5]) ⟨0, ()⟩
      Examples.int_less (fun x => x) 4 hlen hswo 6 (by decide) with
    | ⟨m, h1, h2, _⟩ => ⟨m, h1, h2⟩⟩

end ranges

namespace single_view

variable {α : Type}

/-- C29: for every value `v`, each of `begin()` and `data()` of
`single_view(v)`, const and non-const, is a non-null pointer to the stored
element, and dereferencing it yields `v`. -/
theorem begin_data_point_to_value (v : α) :
    (single_view.mk v).begin_ ≠ element_pointer.null
      ∧ (single_view.mk v).begin_const ≠ element_pointer.null
      ∧ (single_view.mk v).data ≠ element_pointer.null
      ∧ (single_view.mk v).data_const ≠ element_pointer.null
      ∧ (single_view.mk v).begin_.deref = some v
      ∧ (single_view.mk v).begin_const.deref = some v
      ∧ (single_view.mk v).data.deref = some v
      ∧ (single_view.mk v).data_const.deref = some v := by
  refine ⟨?_, ?_, ?_, ?_, rfl, rfl, rfl, rfl⟩ <;>
    simp [begin_, begin_const, data, data_const]

end single_view

namespace transform_view

variable {α β : Type}

/-- C30: for every base buffer `s`, function `f`, start offset `i` and index `n`
with `i + n` inside `s`, the iterator `it = begin() + i` of the transform view
satisfies `it[n] == f(s[i + n])`. -/
theorem subscript_of_begin_add (s : List α) (f : α → β) (i n : Int) (h0 : 0 ≤ i + n)
    (hlt : i + n < (s.length : Int)) :
    ∃ x, base_subscript s (i + n) = some x
      ∧ ((begin_ (transform_view.mk s f)).add i).subscript n = some (f x) := by
  have hidx : (i + n).toNat < s.length := by omega
  have hget : base_subscript s (i + n) = some (s.get ⟨(i + n).toNat, hidx⟩) := by
    simp [base_subscript, h0, List.get?_eq_get hidx]
  refine ⟨s.get ⟨(i + n).toNat, hidx⟩, hget, ?_⟩
  simp only [iterator.subscript, iterator.add, begin_, zero_add]
  rw [hget]
  rfl

/-- Instance of C30 on the test's view: the base `0..7` with the function that
adds one gives `(begin() + 1)[0] == 2` and `(begin() + 1)[4] == 6`. -/
theorem subscript_of_begin_add_witness :
    ((begin_ Examples.plus_one_view).add 1).subscript 0 = some 2
      ∧ ((begin_ Examples.plus_one_view).add 1).subscript 4 = some 6
      ∧ ∃ x, base_subscript Examples.plus_one_view.base_ (1 + 4) = some x
        ∧ ((begin_ (transform_view.mk Examples.plus_one_view.base_
              Examples.plus_one_view.func_)).add 1).subscript 4
            = some (Examples.plus_one_view.func_ x) :=
  ⟨by decide, by decide,
    subscript_of_begin_add Examples.plus_one_view.base_ Examples.plus_one_view.func_ 1 4
      (by decide) (by decide)⟩

end transform_view

namespace execution

/-- The four types with a specialisation of `__remove_parallel_policy`. -/
theorem remove_parallel_policy_cases (t : cpp_type) :
    (t = plain unqualified_type.parallel_policy_host
        ∨ t = plain unqualified_type.parallel_policy_device
        ∨ t = plain unqualified_type.parallel_unsequenced_policy_host
        ∨ t = plain unqualified_type.parallel_unsequenced_policy_device)
      ∨ (t ≠ plain unqualified_type.parallel_policy_host
        ∧ t ≠ plain unqualified_type.parallel_policy_device
        ∧ t ≠ plain unqualified_type.parallel_unsequenced_policy_host
        ∧ t ≠ plain unqualified_type.parallel_unsequenced_policy_device) := by
  by_cases h1 : t = plain unqualified_type.parallel_policy_host
  · exact Or.inl (Or.inl h1)
  by_cases h2 : t = plain unqualified_type.parallel_policy_device
  · exact Or.inl (Or.inr (Or.inl h2))
  by_cases h3 : t = plain unqualified_type.parallel_unsequenced_policy_host
  · exact Or.inl (Or.inr (Or.inr (Or.inl h3)))
  by_cases h4 : t = plain unqualified_type.parallel_unsequenced_policy_device
  · exact Or.inl (Or.inr (Or.inr (Or.inr h4)))
  exact Or.inr ⟨h1, h2, h3, h4⟩

/-- C33: `__remove_parallel_policy_t` maps `parallel_policy_host` and
`parallel_policy_device` to `sequenced_policy`,
`parallel_unsequenced_policy_host` to `unsequenced_policy_host`,
`parallel_unsequenced_policy_device` to `unsequenced_policy_device`, and every
other type to itself; the mapping is idempotent. -/
theorem remove_parallel_policy_spec (t : cpp_type) :
    remove_parallel_policy (plain unqualified_type.parallel_policy_host)
        = plain unqualified_type.sequenced_policy
      ∧ remove_parallel_policy (plain unqualified_type.parallel_policy_device)
        = plain unqualified_type.sequenced_policy
      ∧ remove_parallel_policy (plain unqualified_type.parallel_unsequenced_policy_host)
        = plain unqualified_type.unsequenced_policy_host
      ∧ remove_parallel_policy (plain unqualified_type.parallel_unsequenced_policy_device)
        = plain unqualified_type.unsequenced_policy_device
      ∧ (t ≠ plain unqualified_type.parallel_policy_host →
          t ≠ plain unqualified_type.parallel_policy_device →
          t ≠ plain unqualified_type.parallel_unsequenced_policy_host →
          t ≠ plain unqualified_type.parallel_unsequenced_policy_device →
          remove_parallel_policy t = t)
      ∧ remove_parallel_policy (remove_parallel_policy t) = remove_parallel_policy t := by
  refine ⟨by decide, by decide, by decide, by decide, ?_, ?_⟩
  · intro h1 h2 h3 h4
    simp [remove_parallel_policy, h1, h2, h3, h4]
  · rcases remove_parallel_policy_cases t with (h | h | h | h) | ⟨h1, h2, h3, h4⟩
    · subst h; decide
    · subst h; decide
    · subst h; decide
    · subst h; decide
    · simp [remove_parallel_policy, h1, h2, h3, h4]

/-- Instance of C33 on `const parallel_policy_host`, which has no
specialisation and is mapped to itself. -/
theorem remove_parallel_policy_spec_witness :
    remove_parallel_policy const_parallel_policy_host = const_parallel_policy_host :=
  (remove_parallel_policy_spec const_parallel_policy_host).2.2.2.2.1
    (by decide) (by decide) (by decide) (by decide)

/-- The claim C34 fails on `const parallel_policy_host`: it is recognised as
parallel, it has no specialisation of `__remove_parallel_policy`, and so the
type the alias names is still recognised as parallel. -/
theorem remove_parallel_policy_qualified_counterexample :
    is_parallel_execution_policy const_parallel_policy_host = true
      ∧ remove_parallel_policy const_parallel_policy_host = const_parallel_policy_host
      ∧ is_parallel_execution_policy (remove_parallel_policy const_parallel_policy_host)
        = true := by
  decide

/-- C34 (amended): for every execution policy type `T`, a type with
`is_execution_policy<T>`, that is recognised as parallel,
`__remove_parallel_policy_t<T>` is not recognised as parallel and its
unsequenced classification equals that of `T`; a type recognised as parallel
that is not itself an execution policy type, a cv-qualified or reference form,
is mapped to itself. -/
theorem remove_parallel_policy_removes_parallel (t : cpp_type)
    (hpar : is_parallel_execution_policy t = true) :
    (is_execution_policy t = true →
        is_parallel_execution_policy (remove_parallel_policy t) = false
          ∧ is_unsequenced_execution_policy (remove_parallel_policy t)
            = is_unsequenced_execution_policy t)
      ∧ (is_execution_policy t = false → remove_parallel_policy t = t) := by
  rcases remove_parallel_policy_cases t with (h | h | h | h) | ⟨h1, h2, h3, h4⟩
  · subst h; decide
  · subst h; decide
  · subst h; decide
  · subst h; decide
  · constructor
    · intro hpol
      exfalso
      simp only [is_execution_policy, h1, h2, h3, h4, if_false] at hpol
      split_ifs at hpol with k1 k2 k3
      · subst k1
        exact absurd hpar (by decide)
      · subst k2
        exact absurd hpar (by decide)
      · subst k3
        exact absurd hpar (by decide)
    · intro _
      simp [remove_parallel_policy, h1, h2, h3, h4]

/-- Instance of C34 (amended) on `parallel_unsequenced_policy_host`: the alias
names `unsequenced_policy_host`, not parallel and still unsequenced. -/
theorem remove_parallel_policy_removes_parallel_witness :
    is_parallel_execution_policy (plain unqualified_type.parallel_unsequenced_policy_host) = true
      ∧ is_parallel_execution_policy
          (remove_parallel_policy (plain unqualified_type.parallel_unsequenced_policy_host))
        = false
      ∧ is_unsequenced_execution_policy
          (remove_parallel_policy (plain unqualified_type.parallel_unsequenced_policy_host))
        = is_unsequenced_execution_policy
            (plain unqualified_type.parallel_unsequenced_policy_host) :=
  ⟨by decide,
    (remove_parallel_policy_removes_parallel
      (plain unqualified_type.parallel_unsequenced_policy_host) (by decide)).1 (by decide)⟩

/-- The claim C40 fails on `const parallel_policy_host`: the parallel classifier
holds for it, and `is_execution_policy` does not. -/
theorem classifier_qualified_counterexample :
    is_parallel_execution_policy const_parallel_policy_host = true
      ∧ is_execution_policy const_parallel_policy_host = false := by
  decide

/-- C40 (amended): for every type `T`, if the parallel or the unsequenced
classifier holds for `T` then `is_execution_policy` holds for
`remove_cvref_t<T>`, which is `T` itself when `T` is neither cv-qualified nor a
reference; and the struct form and the variable-template form of each of the
two classifiers agree on every type. -/
theorem classifiers_consistent (t : cpp_type) :
    (is_parallel_execution_policy t = true ∨ is_unsequenced_execution_policy t = true →
        is_execution_policy (remove_cvref t) = true)
      ∧ (∀ b : unqualified_type,
          is_parallel_execution_policy (plain b) = true
            ∨ is_unsequenced_execution_policy (plain b) = true →
          is_execution_policy (plain b) = true)
      ∧ is_parallel_execution_policy_v t = is_parallel_execution_policy t
      ∧ is_unsequenced_execution_policy_v t = is_unsequenced_execution_policy t := by
  have hplain : ∀ b : unqualified_type,
      is_parallel_execution_policy (plain b) = true
        ∨ is_unsequenced_execution_policy (plain b) = true →
      is_execution_policy (plain b) = true := by
    intro b hb
    cases b with
    | other id =>
      exfalso
      rcases hb with hb | hb
      · simp [is_parallel_execution_policy, is_parallel_execution_policy_impl, remove_cvref,
          plain] at hb
      · simp [is_unsequenced_execution_policy, is_unsequenced_execution_policy_impl,
          remove_cvref, plain] at hb
    | sequenced_policy => decide
    | parallel_policy_host => decide
    | parallel_policy_device => decide
    | parallel_unsequenced_policy_host => decide
    | parallel_unsequenced_policy_device => decide
    | unsequenced_policy_host => decide
    | unsequenced_policy_device => decide
  refine ⟨?_, hplain, rfl, rfl⟩
  intro h
  exact hplain t.base h

/-- Instance of C40 (amended) on `const parallel_policy_host`: without its
qualifier it is an execution policy type. -/
theorem classifiers_consistent_witness :
    is_parallel_execution_policy const_parallel_policy_host = true
      ∧ is_execution_policy (remove_cvref const_parallel_policy_host) = true :=
  ⟨by decide, (classifiers_consistent const_parallel_policy_host).1 (Or.inl (by decide))⟩

end execution

namespace common_iterator

variable {I S I2 S2 V R A RV M : Type}

/-- One operation that passes its assertions leaves the discriminant of its
operand as it was. -/
theorem operation.apply_contains (env : Environment I S V R A RV M) (o : operation I S M)
    (x x1 : common_iterator I S) (h : o.apply env x = some x1) :
    x1.hold.contains = x.hold.contains := by
  have hsame : ∀ {β : Type} (r : Option β), r.map (fun _ => x) = some x1 → x1 = x := by
    intro β r hr
    cases r with
    | none => simp at hr
    | some b => simpa using hr.symm
  obtain ⟨hx⟩ := x
  cases o with
  | deref => rw [hsame _ h]
  | arrow => rw [hsame _ h]
  | eq_with y => rw [hsame _ h]
  | minus y => rw [hsame _ h]
  | iter_move => rw [hsame _ h]
  | iter_swap_with y m => rw [hsame _ h]
  | pre_increment =>
    cases hx <;>
      simp [operation.apply, operator_pre_increment, variant_like.holds_first,
        variant_like.contains, variant_like.first_] at h
    subst h
    rfl
  | post_increment =>
    cases hx <;> cases hf : env.traits.forward_iterator <;>
      cases hp : use_postfix_proxy env.traits <;>
      simp [operation.apply, operator_post_increment, operator_pre_increment, operator_deref,
        variant_like.holds_first, variant_like.contains, variant_like.first_, hf, hp] at h <;>
      (subst h; rfl)

/-- One operation whose other operand is in the asserted state passes its
assertions on a cursor holder. -/
theorem operation.apply_of_iter_isSome (env : Environment I S V R A RV M) (o : operation I S M)
    (c : I) (hok : o.other_operand_ok = true) :
    ∃ x1, o.apply env (of_iter c) = some x1 := by
  cases o with
  | deref =>
    exact ⟨of_iter c, by
      simp [operation.apply, operator_deref, of_iter, variant_like.holds_first,
        variant_like.contains, variant_like.first_]⟩
  | arrow =>
    refine ⟨of_iter c, ?_⟩
    cases ha : env.arrow_traits.has_const_arrow <;>
      cases hr : env.arrow_traits.reference_is_reference <;>
      simp [operation.apply, operator_arrow, of_iter, variant_like.holds_first,
        variant_like.contains, variant_like.first_, ha, hr]
  | pre_increment =>
    exact ⟨of_iter (env.ops.next c), by
      simp [operation.apply, operator_pre_increment, of_iter, variant_like.holds_first,
        variant_like.contains, variant_like.first_]⟩
  | post_increment =>
    cases hf : env.traits.forward_iterator <;> cases hp : use_postfix_proxy env.traits <;>
      simp [operation.apply, operator_post_increment, operator_pre_increment, operator_deref,
        of_iter, variant_like.holds_first, variant_like.contains, variant_like.first_, hf, hp]
  | iter_move =>
    exact ⟨of_iter c, by
      simp [operation.apply, common_iterator.iter_move, of_iter, variant_like.holds_first,
        variant_like.contains, variant_like.first_]⟩
  | eq_with y =>
    refine ⟨of_iter c, ?_⟩
    obtain ⟨hy⟩ := y
    cases he : env.equality_comparable <;> cases hy <;>
      simp_all [operation.apply, operation.other_operand_ok, operator_eq,
        operator_eq_not_comparable, of_iter, variant_like.valueless_by_exception,
        variant_like.holds_first, variant_like.holds_second, variant_like.contains,
        variant_like.first_, variant_like.second_]
  | minus y =>
    refine ⟨of_iter c, ?_⟩
    obtain ⟨hy⟩ := y
    cases hy <;>
      simp_all [operation.apply, operation.other_operand_ok, operator_minus, of_iter,
        variant_like.valueless_by_exception, variant_like.holds_first,
        variant_like.holds_second, variant_like.contains, variant_like.first_,
        variant_like.second_]
  | iter_swap_with y m =>
    refine ⟨of_iter c, ?_⟩
    obtain ⟨hy⟩ := y
    cases hy <;>
      simp_all [operation.apply, operation.other_operand_ok, iter_swap, of_iter,
        variant_like.holds_first, variant_like.contains, variant_like.first_]

/-- C31: every operation other than assignment leaves the discriminant of its
operand unchanged, so that after any sequence of these operations that passes
its assertions the operand holds what it held before; a sequence applied to an
instance constructed from a cursor, with the other operands in the states the
operations assert, passes every assertion and ends with an instance that still
holds a cursor. -/
theorem operations_preserve_discriminant (env : Environment I S V R A RV M)
    (ops : List (operation I S M)) :
    (∀ x x1 : common_iterator I S, operation.run env ops x = some x1 →
        x1.hold.contains = x.hold.contains)
      ∧ (∀ c : I, (∀ o, o ∈ ops → o.other_operand_ok = true) →
          ∃ x1, operation.run env ops (of_iter c) = some x1
            ∧ x1.hold.contains = variant_like_state.holds_first) := by
  induction ops with
  | nil =>
    constructor
    · intro x x1 h
      simp only [operation.run, Option.some.injEq] at h
      rw [h]
    · intro c _
      exact ⟨of_iter c, rfl, rfl⟩
  | cons o rest ih =>
    constructor
    · intro x x1 h
      cases hstep : o.apply env x with
      | none => simp [operation.run, hstep] at h
      | some x2 =>
        simp only [operation.run, hstep, Option.some_bind] at h
        rw [ih.1 x2 x1 h, operation.apply_contains env o x x2 hstep]
    · intro c hok
      obtain ⟨x2, hx2⟩ := operation.apply_of_iter_isSome env o c
        (hok o (List.mem_cons_self o rest))
      have hc2 : x2.hold.contains = variant_like_state.holds_first := by
        rw [operation.apply_contains env o (of_iter c) x2 hx2]
        rfl
      obtain ⟨h2⟩ := x2
      cases h2 with
      | first c2 =>
        obtain ⟨x1, hrun, hx1⟩ := ih.2 c2 (fun o1 ho1 => hok o1 (List.mem_cons_of_mem o ho1))
        refine ⟨x1, ?_, hx1⟩
        simp only [operation.run, hx2, Option.some_bind]
        exact hrun
      | second b => simp [variant_like.contains] at hc2
      | valueless => simp [variant_like.contains] at hc2

/-- Instance of C31 on the multi-pass cursor over `0, 1, 2, ...`: a sequence of
all eight operations from the holder of position `0` ends with a cursor
holder. -/
theorem operations_preserve_discriminant_witness :
    ∃ x1, operation.run Examples.position_environment
          [operation.deref, operation.post_increment, operation.eq_with (of_sent ()),
           operation.pre_increment, operation.minus (of_sent ()), operation.iter_move,
           operation.iter_swap_with (of_iter 1) (), operation.arrow] (of_iter 0) = some x1
      ∧ x1.hold.contains = variant_like_state.holds_first :=
  (operations_preserve_discriminant Examples.position_environment
    [operation.deref, operation.post_increment, operation.eq_with (of_sent ()),
     operation.pre_increment, operation.minus (of_sent ()), operation.iter_move,
     operation.iter_swap_with (of_iter 1) (), operation.arrow]).2 0 (by decide)

/-- C32: for a unifying cursor that holds a multi-pass cursor `c`,
post-increment returns a unifying cursor that holds `c` as it was before the
call and leaves the operand holding `c` advanced by one step; dereferencing the
returned copy gives the element that was current before the call, and the
returned copy is the pre-call state, to which it compares equal wherever the
cursor compares equal to itself. -/
theorem post_increment_forward_returns_copy (t : IterTraits) (ops : IterPostOps I V R)
    (eq_ops : IterEq I S I S) (c : I) (hforward : t.forward_iterator = true) :
    operator_post_increment t ops (of_iter c : common_iterator I S)
        = some (PostIncrementResult.copy (of_iter c), of_iter (ops.next c))
      ∧ operator_deref ops.toIterOps (of_iter c : common_iterator I S) = some (ops.deref c)
      ∧ operator_eq eq_ops (of_iter c : common_iterator I S) (of_iter c : common_iterator I S)
        = some (eq_ops.iter_iter c c)
      ∧ (eq_ops.iter_iter c c = true →
          operator_eq eq_ops (of_iter c : common_iterator I S) (of_iter c : common_iterator I S)
            = some true)
      ∧ operator_eq_not_comparable eq_ops.toSentinelEq (of_iter c : common_iterator I S)
          (of_iter c : common_iterator I S) = some true := by
  have heq : operator_eq eq_ops (of_iter c : common_iterator I S)
      (of_iter c : common_iterator I S) = some (eq_ops.iter_iter c c) := by
    simp [operator_eq, of_iter, variant_like.valueless_by_exception,
      variant_like.holds_first, variant_like.holds_second, variant_like.contains,
      variant_like.first_]
  refine ⟨?_, ?_, heq, ?_, ?_⟩
  · simp [operator_post_increment, operator_pre_increment, of_iter, variant_like.holds_first,
      variant_like.contains, variant_like.first_, hforward]
  · simp [operator_deref, of_iter, variant_like.holds_first, variant_like.contains,
      variant_like.first_]
  · intro h
    rw [heq, h]
  · simp [operator_eq_not_comparable, of_iter, variant_like.valueless_by_exception,
      variant_like.contains]

/-- Instance of C32 on the multi-pass cursor over `0, 1, 2, ...` at position
`3`: `cur++` returns the holder of position `3`, whose dereference is `3`, and
leaves `cur` at position `4`. -/
theorem post_increment_forward_returns_copy_witness :
    Examples.forward_traits.forward_iterator = true
      ∧ operator_post_increment Examples.forward_traits Examples.counting_ops
          (of_iter 3 : common_iterator Nat Unit)
        = some (PostIncrementResult.copy (of_iter 3), of_iter 4)
      ∧ operator_deref Examples.counting_ops.toIterOps (of_iter 3 : common_iterator Nat Unit)
        = some 3
      ∧ operator_eq Examples.position_eq (of_iter 3 : common_iterator Nat Unit)
          (of_iter 3 : common_iterator Nat Unit) = some true :=
  have h := post_increment_forward_returns_copy (S := Unit) Examples.forward_traits
    Examples.counting_ops Examples.position_eq 3 rfl
  ⟨rfl, h.1, h.2.1, h.2.2.2.1 (by decide)⟩

/-- C38: if the raw comparisons are symmetric, cursor against boundary and
cursor against cursor, then `x == y` and `y == x` give the same result for all
operands, in both overloads of `operator==`; for non-valueless operands that
result is a truth value. -/
theorem eq_symmetric (ops : IterEq I S I2 S2) (rops : IterEq I2 S2 I S)
    (h_iter_sent : ∀ (c : I) (b : S2), ops.iter_sent c b = rops.sent_iter b c)
    (h_sent_iter : ∀ (b : S) (c : I2), ops.sent_iter b c = rops.iter_sent c b)
    (h_iter_iter : ∀ (c : I) (d : I2), ops.iter_iter c d = rops.iter_iter d c)
    (x : common_iterator I S) (y : common_iterator I2 S2) :
    operator_eq ops x y = operator_eq rops y x
      ∧ operator_eq_not_comparable ops.toSentinelEq x y
        = operator_eq_not_comparable rops.toSentinelEq y x
      ∧ (x.hold.valueless_by_exception = false → y.hold.valueless_by_exception = false →
          operator_eq ops x y ≠ none
            ∧ operator_eq_not_comparable ops.toSentinelEq x y ≠ none) := by
  obtain ⟨hx⟩ := x
  obtain ⟨hy⟩ := y
  cases hx <;> cases hy <;>
    simp [operator_eq, operator_eq_not_comparable, variant_like.valueless_by_exception,
      variant_like.holds_first, variant_like.holds_second, variant_like.contains,
      variant_like.first_, variant_like.second_, h_iter_sent, h_sent_iter, h_iter_iter]

/-- Instance of C38 on positions with a boundary at position `5`. -/
theorem eq_symmetric_witness :
    operator_eq Examples.position_eq (of_iter 5 : common_iterator Nat Unit)
        (of_sent () : common_iterator Nat Unit)
      = operator_eq Examples.position_eq (of_sent () : common_iterator Nat Unit)
          (of_iter 5 : common_iterator Nat Unit) :=
  (eq_symmetric Examples.position_eq Examples.position_eq (fun _ _ => rfl) (fun _ _ => rfl)
    (fun c d => by simp [Examples.position_eq, eq_comm]) (of_iter 5) (of_sent ())).1

/-- C39: if the raw differences are antisymmetric, cursor against boundary and
cursor against cursor, then `x - y = -(y - x)` for all operands, that difference
being a number for non-valueless operands; and `x - x = 0` for a boundary
holder, and for a cursor holder whenever `c - c = 0`. -/
theorem minus_antisymmetric (ops : SizedOps I S I2 S2) (rops : SizedOps I2 S2 I S)
    (self_ops : SizedOps I S I S)
    (h_iter_sent : ∀ (c : I) (b : S2), ops.iter_sent c b = -rops.sent_iter b c)
    (h_sent_iter : ∀ (b : S) (c : I2), ops.sent_iter b c = -rops.iter_sent c b)
    (h_iter_iter : ∀ (c : I) (d : I2), ops.iter_iter c d = -rops.iter_iter d c)
    (x : common_iterator I S) (y : common_iterator I2 S2) :
    operator_minus ops x y = (operator_minus rops y x).map (fun d => -d)
      ∧ (x.hold.valueless_by_exception = false → y.hold.valueless_by_exception = false →
          operator_minus ops x y ≠ none)
      ∧ (∀ b : S, operator_minus self_ops (of_sent b : common_iterator I S) (of_sent b) = some 0)
      ∧ (∀ c : I, self_ops.iter_iter c c = 0 →
          operator_minus self_ops (of_iter c : common_iterator I S) (of_iter c) = some 0) := by
  refine ⟨?_, ?_, ?_, ?_⟩
  · obtain ⟨hx⟩ := x
    obtain ⟨hy⟩ := y
    cases hx <;> cases hy <;>
      simp [operator_minus, variant_like.valueless_by_exception, variant_like.holds_first,
        variant_like.holds_second, variant_like.contains, variant_like.first_,
        variant_like.second_, h_iter_sent, h_sent_iter, h_iter_iter]
  · obtain ⟨hx⟩ := x
    obtain ⟨hy⟩ := y
    cases hx <;> cases hy <;>
      simp [operator_minus, variant_like.valueless_by_exception, variant_like.holds_first,
        variant_like.holds_second, variant_like.contains, variant_like.first_,
        variant_like.second_]
  · intro b
    simp [operator_minus, of_sent, variant_like.valueless_by_exception,
      variant_like.holds_second, variant_like.contains]
  · intro c hc
    simp [operator_minus, of_iter, variant_like.valueless_by_exception,
      variant_like.holds_first, variant_like.holds_second, variant_like.contains,
      variant_like.first_, hc]

/-- Instance of C39 on positions with a boundary at position `5`: the distance
from position `2` to the boundary is `3` one way and `-3` the other. -/
theorem minus_antisymmetric_witness :
    operator_minus Examples.position_distance (of_iter 2 : common_iterator Nat Unit)
        (of_sent () : common_iterator Nat Unit)
      = (operator_minus Examples.position_distance (of_sent () : common_iterator Nat Unit)
          (of_iter 2 : common_iterator Nat Unit)).map (fun d => -d) :=
  (minus_antisymmetric Examples.position_distance Examples.position_distance
    Examples.position_distance
    (fun c b => by simp [Examples.position_distance])
    (fun b c => by simp [Examples.position_distance])
    (fun c d => by simp [Examples.position_distance])
    (of_iter 2) (of_sent ())).1

end common_iterator

namespace counted

variable {It : Type}

/-- Stepping an address `k` times adds `k` to it. -/
theorem address_iterate_next (d : Nat) : ∀ k : Nat, (fun a : Nat => a + 1)^[k] d = d + k := by
  intro k
  induction k with
  | zero => rfl
  | succ k ih =>
    rw [Function.iterate_succ_apply', ih]
    rfl

/-- C37: for a contiguous cursor `c` and a count `n >= 0` of the signed 64-bit
difference type, the three representations that the overloads of `__go` build,
the span at the address of `c` of length `n`, the pair `[c, c + n)` and the
counting wrapper `(c, n)` with the default sentinel, enumerate the same `n`
elements in the same order. Contiguity is that the element `k` steps from `c`
is stored at the address of `c` plus `k`; random access is that `c + n` is `c`
incremented `n` times and that cursors compare equal exactly at the same
position. -/
theorem counted_representations_agree {α : Type} (ops : CursorOps It) (t : TraversalOps It α)
    (memory : Nat → α) (it : It) (n : Int) (h0 : 0 ≤ n) (hmax : n < 2 ^ 63)
    (hcontiguous : ∀ k, k < n.toNat → memory (ops.to_address it + k) = t.deref (t.next^[k] it))
    (hadvance : ops.advance it n = t.next^[n.toNat] it)
    (heq : ∀ k, k ≤ n.toNat → t.eq (t.next^[k] it) (t.next^[n.toNat] it) = decide (k = n.toNat))
    (fuel : Nat) (hfuel : n.toNat < fuel) :
    go_overload.body ops it n go_overload.contiguous
        = counted_result.span ⟨ops.to_address it, n.toNat⟩
      ∧ ∀ o : go_overload, (o.body ops it n).elements t memory fuel
          = some ((List.range n.toNat).map (fun k => t.deref (t.next^[k] it))) := by
  have hcast : size_t_cast n = n.toNat := by
    unfold size_t_cast
    rw [Int.emod_eq_of_lt h0 (by omega)]
  refine ⟨by simp [go_overload.body, hcast], ?_⟩
  intro o
  cases o with
  | contiguous =>
    have h := visit_loop_of_first_stop
      (fun a : Nat => decide (a = ops.to_address it + n.toNat)) memory (fun a : Nat => a + 1)
      n.toNat fuel (ops.to_address it)
      (by simp [address_iterate_next])
      (fun k hk => by
        simp only [address_iterate_next, decide_eq_false_iff_not]
        omega)
    simp only [go_overload.body, hcast, counted_result.elements, h, hfuel, if_true]
    congr 1
    apply List.map_congr_left
    intro k hk
    rw [address_iterate_next]
    exact hcontiguous k (List.mem_range.mp hk)
  | random_access =>
    have h := visit_loop_of_first_stop (fun x => t.eq x (t.next^[n.toNat] it)) t.deref t.next
      n.toNat fuel it (by simpa using heq n.toNat (Nat.le_refl _))
      (fun k hk => by simpa [Nat.ne_of_lt hk] using heq k (Nat.le_of_lt hk))
    simp only [go_overload.body, counted_result.elements, hadvance, h, hfuel, if_true]
  | counted =>
    have hstop : counted_iterator.eq_default_sentinel
        ((counted_iterator.next t)^[n.toNat] (⟨it, n⟩ : counted_iterator It))
        default_sentinel_t.default_sentinel = true := by
      rw [counted_iterator_iterate_next]
      simp only [counted_iterator.eq_default_sentinel, decide_eq_true_eq]
      omega
    have hbefore : ∀ k, k < n.toNat → counted_iterator.eq_default_sentinel
        ((counted_iterator.next t)^[k] (⟨it, n⟩ : counted_iterator It))
        default_sentinel_t.default_sentinel = false := by
      intro k hk
      rw [counted_iterator_iterate_next]
      simp only [counted_iterator.eq_default_sentinel, decide_eq_false_iff_not]
      omega
    have h := visit_loop_of_first_stop
      (fun ci => counted_iterator.eq_default_sentinel ci default_sentinel_t.default_sentinel)
      (counted_iterator.deref t) (counted_iterator.next t) n.toNat fuel
      (⟨it, n⟩ : counted_iterator It) hstop hbefore
    simp only [go_overload.body, counted_result.elements, h, hfuel, if_true]
    congr 1
    apply List.map_congr_left
    intro k _
    rw [counted_iterator_iterate_next]
    rfl

/-- Instance of C37 on the cursor at address `2` over memory holding `10 * a` at
address `a`, with the count `4`: each representation enumerates
`20, 30, 40, 50`. -/
theorem counted_representations_agree_witness :
    (counted_result.span ⟨2, 4⟩ : counted_result Nat).elements Examples.tens_ops
        Examples.tens_memory 5 = some [20, 30, 40, 50]
      ∧ (counted_result.subrange 2 6).elements Examples.tens_ops Examples.tens_memory 5
        = some [20, 30, 40, 50]
      ∧ (counted_result.counted_subrange ⟨2, 4⟩ default_sentinel_t.default_sentinel).elements
          Examples.tens_ops Examples.tens_memory 5 = some [20, 30, 40, 50] :=
  have h := (counted_representations_agree Examples.pointer_ops Examples.tens_ops
    Examples.tens_memory 2 4 (by decide) (by decide) (by decide) (by decide) (by decide) 5
    (by decide)).2
  ⟨h go_overload.contiguous, h go_overload.random_access, h go_overload.counted⟩

end counted

namespace views

variable {I S α : Type}

/-- The claim C36 fails for a range with distinct cursor and boundary types
whose cursor type cannot be copied: the first overload is excluded by its
constraint, the second by its return type, and the call does not compile. -/
theorem common_move_only_counterexample :
    Examples.move_only_concepts.common_range = false
      ∧ common_overload.all_overloads.filter
          (fun o => o.viable Examples.move_only_concepts) = []
      ∧ (common Examples.move_only_concepts (Examples.list_view [10, 20, 30, 40, 50])).isNone
        = true := by
  refine ⟨rfl, by decide, ?_⟩
  have h : common_overload.all_overloads.filter
      (fun o => o.viable Examples.move_only_concepts) = [] := by decide
  simp only [common, h, Option.isNone_none]

/-- C36 (amended): `views::common` applied to a range whose cursor and boundary
types coincide returns `views::all` of the range, without a closed view;
applied to any other range whose cursor type is copyable it returns a closed
view over `views::all` of the range; the two overloads are never both viable,
and exactly one is viable exactly when the types coincide or the cursor type is
copyable. -/
theorem common_selects_overload (c : RangeConcepts) (r : View I S α) :
    (c.common_range = true → common c r = some (common_result.all_view (all r)))
      ∧ (c.common_range = false → c.copyable_iterator = true →
          common c r = some (common_result.closed_view (common_view.mk (all r))))
      ∧ (common_overload.all_overloads.filter (fun o => o.viable c)).length ≤ 1
      ∧ ((common_overload.all_overloads.filter (fun o => o.viable c)).length = 1
          ↔ (c.common_range || c.copyable_iterator) = true)
      ∧ all r = r := by
  refine ⟨?_, ?_, ?_, ?_, rfl⟩
  · intro h
    simp [common, common_overload.all_overloads, common_overload.viable, common_overload.body,
      h]
  · intro h hc
    simp [common, common_overload.all_overloads, common_overload.viable, common_overload.body,
      common_view.class_constraints, h, hc]
  · cases h : c.common_range <;> cases hc : c.copyable_iterator <;>
      simp [common_overload.all_overloads, common_overload.viable,
        common_view.class_constraints, h, hc]
  · cases h : c.common_range <;> cases hc : c.copyable_iterator <;>
      simp [common_overload.all_overloads, common_overload.viable,
        common_view.class_constraints, h, hc]

/-- Instance of C36 (amended) on the sequence `10, 20, 30, 40, 50` with a
stateless boundary marker and a copyable cursor. -/
theorem common_selects_overload_witness :
    common { common_range := false, copyable_iterator := true }
        (Examples.list_view [10, 20, 30, 40, 50])
      = some (common_result.closed_view
          (common_view.mk (all (Examples.list_view [10, 20, 30, 40, 50])))) :=
  (common_selects_overload { common_range := false, copyable_iterator := true }
    (Examples.list_view [10, 20, 30, 40, 50])).2.1 rfl rfl

end views

namespace caching_resource

variable {R : Type}

/-- What `extract(key)` unlinks has that key and was in the multimap, as was
everything that remains. -/
theorem multimap_extract_key_some :
    ∀ (m : List (Nat × Nat)) (key : Nat) (r : (Nat × Nat) × List (Nat × Nat)),
      multimap_extract_key m key = some r →
        r.1.1 = key ∧ r.1 ∈ m ∧ ∀ e, e ∈ r.2 → e ∈ m := by
  intro m
  induction m with
  | nil =>
    intro key r h
    simp [multimap_extract_key] at h
  | cons e rest ih =>
    intro key r h
    by_cases hk : e.1 = key
    · simp only [multimap_extract_key, hk, if_true, Option.some.injEq] at h
      subst h
      exact ⟨hk, List.mem_cons_self _ _, fun x hx => List.mem_cons_of_mem _ hx⟩
    · simp only [multimap_extract_key, hk, if_false] at h
      cases hrec : multimap_extract_key rest key with
      | none => simp [hrec] at h
      | some r1 =>
        simp only [hrec, Option.map_some', Option.some.injEq] at h
        subst h
        obtain ⟨h1, h2, h3⟩ := ih key r1 hrec
        refine ⟨h1, List.mem_cons_of_mem _ h2, ?_⟩
        intro x hx
        rcases List.mem_cons.mp hx with hx | hx
        · rw [hx]
          exact List.mem_cons_self _ _
        · exact List.mem_cons_of_mem _ (h3 x hx)

/-- Where `count(key)` is not zero, `extract(key)` unlinks an element. -/
theorem multimap_extract_key_of_count :
    ∀ (m : List (Nat × Nat)) (key : Nat), multimap_count m key ≠ 0 →
      ∃ r, multimap_extract_key m key = some r := by
  intro m
  induction m with
  | nil =>
    intro key h
    simp [multimap_count] at h
  | cons e rest ih =>
    intro key h
    by_cases hk : e.1 = key
    · exact ⟨(e, rest), by simp [multimap_extract_key, hk]⟩
    · have hrest : multimap_count rest key ≠ 0 := by
        simpa [multimap_count, List.filter_cons, hk] using h
      obtain ⟨r, hr⟩ := ih key hrest
      exact ⟨(r.1, e :: r.2), by simp [multimap_extract_key, hk, hr]⟩

/-- What the loop of `deallocate` unlinks is the element `(size, ptr)`, and
everything that remains was in the multimap. -/
theorem multimap_extract_entry_some :
    ∀ (m : List (Nat × Nat)) (size ptr : Nat) (r : (Nat × Nat) × List (Nat × Nat)),
      multimap_extract_entry m size ptr = some r →
        r.1 = (size, ptr) ∧ ∀ e, e ∈ r.2 → e ∈ m := by
  intro m
  induction m with
  | nil =>
    intro size ptr r h
    simp [multimap_extract_entry] at h
  | cons e rest ih =>
    intro size ptr r h
    by_cases hk : e.1 = size ∧ e.2 = ptr
    · simp only [multimap_extract_entry, hk, and_self, if_true, Option.some.injEq] at h
      subst h
      exact ⟨Prod.ext hk.1 hk.2, fun x hx => List.mem_cons_of_mem _ hx⟩
    · simp only [multimap_extract_entry, hk, if_false] at h
      cases hrec : multimap_extract_entry rest size ptr with
      | none => simp [hrec] at h
      | some r1 =>
        simp only [hrec, Option.map_some', Option.some.injEq] at h
        subst h
        obtain ⟨h1, h3⟩ := ih size ptr r1 hrec
        refine ⟨h1, ?_⟩
        intro x hx
        rcases List.mem_cons.mp hx with hx | hx
        · rw [hx]
          exact List.mem_cons_self _ _
        · exact List.mem_cons_of_mem _ (h3 x hx)

/-- The loop of `deallocate` finds an element that is in the multimap. -/
theorem multimap_extract_entry_of_mem :
    ∀ (m : List (Nat × Nat)) (size ptr : Nat), (size, ptr) ∈ m →
      ∃ r, multimap_extract_entry m size ptr = some r := by
  intro m
  induction m with
  | nil =>
    intro size ptr h
    simp at h
  | cons e rest ih =>
    intro size ptr h
    by_cases hk : e.1 = size ∧ e.2 = ptr
    · exact ⟨(e, rest), by simp [multimap_extract_entry, hk]⟩
    · rcases List.mem_cons.mp h with h | h
      · exact absurd (by rw [← h]; exact ⟨rfl, rfl⟩) hk
      · obtain ⟨r, hr⟩ := ih size ptr h
        exact ⟨(r.1, e :: r.2), by simp [multimap_extract_entry, hk, hr]⟩

/-- A multimap that holds an element with a key counts it. -/
theorem multimap_count_of_mem (m : List (Nat × Nat)) (key ptr : Nat) (h : (key, ptr) ∈ m) :
    multimap_count m key ≠ 0 := by
  unfold multimap_count
  have hmem : (key, ptr) ∈ m.filter (fun e => decide (e.1 = key)) := by
    simp [List.mem_filter, h]
  intro hzero
  rw [List.length_eq_zero] at hzero
  rw [hzero] at hmem
  simp at hmem

/-- One call adds to the available blocks only the block it deallocates. -/
theorem step_available (res : ResourceOps R) (s s1 : caching_resource R) (q : request)
    (h : step res s q = some s1) :
    ∀ e, e ∈ s1.available_allocations_ →
      e ∈ s.available_allocations_ ∨ ∃ a, q = request.deallocate e.2 e.1 a := by
  intro e he
  cases q with
  | allocate size alignment =>
    left
    by_cases hc : multimap_count s.available_allocations_ size = 0
    · simp only [step, allocate, hc, if_true, Option.map_some', Option.some.injEq] at h
      subst h
      exact he
    · simp only [step, allocate, hc, if_false, Option.map_map] at h
      cases hx : multimap_extract_key s.available_allocations_ size with
      | none => simp [hx] at h
      | some node =>
        simp only [hx, Option.map_some', Function.comp_apply, Option.some.injEq] at h
        subst h
        exact (multimap_extract_key_some _ _ node hx).2.2 e he
  | deallocate ptr size alignment =>
    simp only [step, deallocate, Option.some.injEq] at h
    cases hx : multimap_extract_entry s.used_allocations_ size ptr with
    | none =>
      simp only [hx] at h
      subst h
      exact Or.inl he
    | some node =>
      simp only [hx] at h
      subst h
      rcases List.mem_cons.mp he with he | he
      · right
        have hn := (multimap_extract_entry_some _ _ _ node hx).1
        refine ⟨alignment, ?_⟩
        rw [he, hn]
      · exact Or.inl he

/-- After a sequence of calls every available block was available before or was
deallocated by one of the calls. -/
theorem run_available (res : ResourceOps R) :
    ∀ (hist : List request) (s s1 : caching_resource R), run res hist s = some s1 →
      ∀ e, e ∈ s1.available_allocations_ →
        e ∈ s.available_allocations_ ∨ ∃ a, request.deallocate e.2 e.1 a ∈ hist := by
  intro hist
  induction hist with
  | nil =>
    intro s s1 h e he
    simp only [run, Option.some.injEq] at h
    subst h
    exact Or.inl he
  | cons q rest ih =>
    intro s s1 h e he
    cases hstep : step res s q with
    | none => simp [run, hstep] at h
    | some s2 =>
      simp only [run, hstep, Option.some_bind] at h
      rcases ih s2 s1 h e he with h2 | ⟨a, ha⟩
      · rcases step_available res s s2 q hstep e h2 with h3 | ⟨a, ha⟩
        · exact Or.inl h3
        · exact Or.inr ⟨a, by rw [ha]; exact List.mem_cons_self _ _⟩
      · exact Or.inr ⟨a, List.mem_cons_of_mem _ ha⟩

/-- What `extract(key)` unlinks is the first element with that key: the multimap
splits around it and the remaining elements are the two parts. -/
theorem multimap_extract_key_eq :
    ∀ (m : List (Nat × Nat)) (key : Nat) (r : (Nat × Nat) × List (Nat × Nat)),
      multimap_extract_key m key = some r →
        ∃ front back, m = front ++ r.1 :: back ∧ r.2 = front ++ back ∧ r.1.1 = key
          ∧ ∀ e, e ∈ front → e.1 ≠ key := by
  intro m
  induction m with
  | nil =>
    intro key r h
    simp [multimap_extract_key] at h
  | cons e rest ih =>
    intro key r h
    by_cases hk : e.1 = key
    · simp only [multimap_extract_key, hk, if_true, Option.some.injEq] at h
      subst h
      exact ⟨[], rest, rfl, rfl, hk, by simp⟩
    · simp only [multimap_extract_key, hk, if_false] at h
      cases hrec : multimap_extract_key rest key with
      | none => simp [hrec] at h
      | some r1 =>
        simp only [hrec, Option.map_some', Option.some.injEq] at h
        subst h
        obtain ⟨front, back, h1, h2, h3, h4⟩ := ih key r1 hrec
        refine ⟨e :: front, back, ?_, ?_, h3, ?_⟩
        · show e :: rest = e :: (front ++ r1.1 :: back)
          rw [← h1]
        · show e :: r1.2 = e :: (front ++ back)
          rw [← h2]
        · intro x hx
          rcases List.mem_cons.mp hx with hx | hx
          · rw [hx]
            exact hk
          · exact h4 x hx

/-- What the loop of `deallocate` unlinks is the first element `(size, ptr)`: the
multimap splits around it and the remaining elements are the two parts. -/
theorem multimap_extract_entry_eq :
    ∀ (m : List (Nat × Nat)) (size ptr : Nat) (r : (Nat × Nat) × List (Nat × Nat)),
      multimap_extract_entry m size ptr = some r →
        ∃ front back, m = front ++ (size, ptr) :: back ∧ r = ((size, ptr), front ++ back)
          ∧ (size, ptr) ∉ front := by
  intro m
  induction m with
  | nil =>
    intro size ptr r h
    simp [multimap_extract_entry] at h
  | cons e rest ih =>
    intro size ptr r h
    by_cases hk : e.1 = size ∧ e.2 = ptr
    · simp only [multimap_extract_entry, hk, and_self, if_true, Option.some.injEq] at h
      subst h
      have he : e = (size, ptr) := Prod.ext hk.1 hk.2
      exact ⟨[], rest, by rw [he]; rfl, by rw [he]; rfl, by simp⟩
    · simp only [multimap_extract_entry, hk, if_false] at h
      cases hrec : multimap_extract_entry rest size ptr with
      | none => simp [hrec] at h
      | some r1 =>
        simp only [hrec, Option.map_some', Option.some.injEq] at h
        subst h
        obtain ⟨front, back, h1, h2, h3⟩ := ih size ptr r1 hrec
        refine ⟨e :: front, back, ?_, ?_, ?_⟩
        · show e :: rest = e :: (front ++ (size, ptr) :: back)
          rw [← h1]
        · rw [h2]
          rfl
        · intro hx
          rcases List.mem_cons.mp hx with hx | hx
          · exact hk (by rw [← hx]; exact ⟨rfl, rfl⟩)
          · exact h3 hx

/-- The loop of `deallocate` ends without a find when the element is not in the
multimap. -/
theorem multimap_extract_entry_of_not_mem (m : List (Nat × Nat)) (size ptr : Nat)
    (h : (size, ptr) ∉ m) : multimap_extract_entry m size ptr = none := by
  cases hx : multimap_extract_entry m size ptr with
  | none => rfl
  | some r =>
    obtain ⟨front, back, hm, _, _⟩ := multimap_extract_entry_eq m size ptr r hx
    exact absurd (by rw [hm]; simp) h

/-- The value of `count(key)` is zero exactly when no element has that key. -/
theorem multimap_count_eq_zero_iff (m : List (Nat × Nat)) (key : Nat) :
    multimap_count m key = 0 ↔ ∀ ptr, (key, ptr) ∉ m := by
  constructor
  · intro h ptr hmem
    exact multimap_count_of_mem m key ptr hmem h
  · intro h
    unfold multimap_count
    rw [List.length_eq_zero, List.filter_eq_nil_iff]
    intro e he hk
    have hkey : e.1 = key := by simpa using hk
    exact h e.2 (by rw [← hkey]; exact he)

/-- C35: `allocate(size, alignment)` returns for every state. It calls the
wrapped resource, once and with `(size, alignment)`, exactly when no available
block of that exact size exists, which is when `count(size)` is zero; the block
the resource returns is recorded as in use, the available blocks are left as
they were and the wrapped resource is the one the call left. Otherwise it makes
no call and leaves the wrapped resource as it was: the first available block of
that size is unlinked from the available blocks, recorded as in use and
returned, the same whatever alignment is asked for. `deallocate(p, size, _)` of
a block in use passes its checks, unlinks the block from the blocks in use and
makes it available, and the next `allocate(size, _)` makes no call and returns a
cached block, the block `p` with new elements put in front, which it unlinks from
the available blocks again; `deallocate` of a block that is not in use fails a
check and changes nothing. From the default-constructed object on, every
available block is one that a `deallocate` with that size put there. -/
theorem allocate_uses_cache (res : ResourceOps R) (s : caching_resource R)
    (size alignment : Nat) :
    (allocate res s size alignment).isSome = true
      ∧ (∀ r, allocate res s size alignment = some r →
          ((r.resource_calls = [(size, alignment)]
              ↔ multimap_count s.available_allocations_ size = 0)
            ∧ (r.resource_calls = [] ↔ multimap_count s.available_allocations_ size ≠ 0)))
      ∧ (multimap_count s.available_allocations_ size = 0
          ↔ ∀ ptr, (size, ptr) ∉ s.available_allocations_)
      ∧ (multimap_count s.available_allocations_ size = 0 →
        allocate res s size alignment
          = some
            { pointer := (res.allocate s.resource_ size alignment).1
              state :=
                { resource_ := (res.allocate s.resource_ size alignment).2
                  available_allocations_ := s.available_allocations_
                  used_allocations_ :=
                    (size, (res.allocate s.resource_ size alignment).1) :: s.used_allocations_ }
              resource_calls := [(size, alignment)] })
      ∧ (multimap_count s.available_allocations_ size ≠ 0 →
        ∃ front ptr back,
          s.available_allocations_ = front ++ (size, ptr) :: back
            ∧ (∀ e, e ∈ front → e.1 ≠ size)
            ∧ ∀ alignment2, allocate res s size alignment2
              = some
                { pointer := ptr
                  state :=
                    { resource_ := s.resource_
                      available_allocations_ := front ++ back
                      used_allocations_ := (size, ptr) :: s.used_allocations_ }
                  resource_calls := [] })
      ∧ (∀ (p a a2 : Nat), (size, p) ∈ s.used_allocations_ →
          ∃ front back,
            s.used_allocations_ = front ++ (size, p) :: back
              ∧ (size, p) ∉ front
              ∧ deallocate s p size a
                = ({ resource_ := s.resource_
                     available_allocations_ := (size, p) :: s.available_allocations_
                     used_allocations_ := front ++ back }, true)
              ∧ allocate res (deallocate s p size a).1 size a2
                = some
                  { pointer := p
                    state :=
                      { resource_ := s.resource_
                        available_allocations_ := s.available_allocations_
                        used_allocations_ := (size, p) :: (front ++ back) }
                    resource_calls := [] })
      ∧ (∀ (p a : Nat), (size, p) ∉ s.used_allocations_ → deallocate s p size a = (s, false))
      ∧ (∀ (r0 : R) (hist : List request) (s1 : caching_resource R),
          run res hist (initial r0) = some s1 →
            ∀ e, e ∈ s1.available_allocations_ →
              ∃ a, request.deallocate e.2 e.1 a ∈ hist) := by
  have hmiss : multimap_count s.available_allocations_ size = 0 →
      allocate res s size alignment
        = some
          { pointer := (res.allocate s.resource_ size alignment).1
            state :=
              { resource_ := (res.allocate s.resource_ size alignment).2
                available_allocations_ := s.available_allocations_
                used_allocations_ :=
                  (size, (res.allocate s.resource_ size alignment).1) :: s.used_allocations_ }
            resource_calls := [(size, alignment)] } := by
    intro hc
    simp only [allocate, hc, if_true, multimap_insert]
  have hhit : multimap_count s.available_allocations_ size ≠ 0 →
      ∃ front ptr back,
        s.available_allocations_ = front ++ (size, ptr) :: back
          ∧ (∀ e, e ∈ front → e.1 ≠ size)
          ∧ ∀ alignment2, allocate res s size alignment2
            = some
              { pointer := ptr
                state :=
                  { resource_ := s.resource_
                    available_allocations_ := front ++ back
                    used_allocations_ := (size, ptr) :: s.used_allocations_ }
                resource_calls := [] } := by
    intro hc
    obtain ⟨node, hnode⟩ := multimap_extract_key_of_count _ _ hc
    obtain ⟨front, back, hm, hrest, hkey, hfront⟩ := multimap_extract_key_eq _ _ node hnode
    have hpair : node.1 = (size, node.1.2) := Prod.ext hkey rfl
    refine ⟨front, node.1.2, back, ?_, hfront, ?_⟩
    · rw [← hpair]
      exact hm
    · intro alignment2
      simp only [allocate, hc, if_false, hnode, Option.map_some', multimap_insert, hrest]
      rw [← hpair]
  refine ⟨?_, ?_, multimap_count_eq_zero_iff _ _, hmiss, hhit, ?_, ?_, ?_⟩
  · by_cases hc : multimap_count s.available_allocations_ size = 0
    · rw [hmiss hc]
      rfl
    · obtain ⟨front, ptr, back, _, _, hall⟩ := hhit hc
      rw [hall alignment]
      rfl
  · intro r hr
    by_cases hc : multimap_count s.available_allocations_ size = 0
    · rw [hmiss hc, Option.some.injEq] at hr
      subst hr
      simp [hc]
    · obtain ⟨front, ptr, back, _, _, hall⟩ := hhit hc
      rw [hall alignment, Option.some.injEq] at hr
      subst hr
      simp [hc]
  · intro p a a2 hused
    obtain ⟨node, hnode⟩ := multimap_extract_entry_of_mem _ _ _ hused
    obtain ⟨front, back, hm, hn, hfront⟩ := multimap_extract_entry_eq _ _ _ node hnode
    have hdealloc : deallocate s p size a
        = ({ resource_ := s.resource_
             available_allocations_ := (size, p) :: s.available_allocations_
             used_allocations_ := front ++ back }, true) := by
      have hcount : multimap_count s.used_allocations_ size ≠ 0 :=
        multimap_count_of_mem _ _ _ hused
      simp only [deallocate, hnode, hn, multimap_insert, hcount, ne_eq, not_false_eq_true,
        decide_True]
    refine ⟨front, back, hm, hfront, hdealloc, ?_⟩
    rw [hdealloc]
    simp [allocate, multimap_count, multimap_extract_key, multimap_insert]
  · intro p a hnot
    simp only [deallocate, multimap_extract_entry_of_not_mem _ _ _ hnot]
  · intro r0 hist s1 hrun e he
    rcases run_available res hist (initial r0) s1 hrun e he with h | h
    · simp [initial] at h
    · exact h

/-- Instance of C35 on a resource that hands out `1000, 1001, ...`: a first
`allocate(64, 8)` calls the resource and returns `1000`; after
`deallocate(1000, 64, 8)` an `allocate(64, 16)` returns the cached `1000`
without a call and leaves no block available, so that a further
`allocate(64, 8)` calls the resource again. -/
theorem allocate_uses_cache_witness :
    (allocate Examples.bump_resource (initial 0) 64 8).map
        (fun r => (r.pointer, r.resource_calls)) = some (1000, [(64, 8)])
      ∧ (allocate Examples.bump_resource
          (deallocate { resource_ := 1, available_allocations_ := [],
                        used_allocations_ := [(64, 1000)] } 1000 64 8).1 64 16).map
        (fun r => (r.pointer, r.resource_calls, r.state.available_allocations_,
          r.state.used_allocations_)) = some (1000, [], [], [(64, 1000)])
      ∧ (allocate Examples.bump_resource
          { resource_ := 1, available_allocations_ := [],
            used_allocations_ := [(64, 1000)] } 64 8).map
        (fun r => (r.pointer, r.resource_calls)) = some (1001, [(64, 8)])
      ∧ ∃ front back, [(64, 1000)] = front ++ (64, 1000) :: back
          ∧ allocate Examples.bump_resource
            (deallocate { resource_ := 1, available_allocations_ := [],
                          used_allocations_ := [(64, 1000)] } 1000 64 8).1 64 16
            = some
              { pointer := 1000
                state :=
                  { resource_ := 1
                    available_allocations_ := []
                    used_allocations_ := (64, 1000) :: (front ++ back) }
                resource_calls := [] } :=
  ⟨by decide, by decide, by decide,
    match (allocate_uses_cache Examples.bump_resource
      { resource_ := 1, available_allocations_ := [], used_allocations_ := [(64, 1000)] }
      64 8).2.2.2.2.2.1 1000 8 16 (by decide) with
    | ⟨front, back, hm, _, _, halloc⟩ => ⟨front, back, hm, halloc⟩⟩

end caching_resource

end Cccl
